import Mathlib

/-! # nuts-auth: the OAuth JWT-bearer service, contracts and the UZI validator

A shallow embedding of `pkg/services/oauth/oauth.go`, of the contract package
(`pkg/contract/contract.go`, `pkg/contract/template.go`) and of
`pkg/services/x509/uzi_validator.go`.  The service talks to collaborators (registry,
crypto/trust store, consent store, contract validator) and to libraries (`jwt-go`,
`nuts-go-core`, `crypto/x509`, `encoding/base64`, `regexp`, `mustache`, `monday`).
Collaborators and library primitives are parameters of the model; every call of the
OAuth service to a collaborator is recorded in a trace, and a run ends in a value, a Go
`error`, or a run-time panic.
-/

namespace NutsAuth

/-! ## Errors, time, machine integers -/

/-- Go `error` values, represented by their message. -/
abbrev Error := String

/-- Go `fmt.Errorf(pre + "%w", err)`: the message of `err` appended to `pre`;
a nil `err` is printed by Go as `%!w(<nil>)`. -/
def errorf (pre : String) (err : Option Error) : Error :=
  match err with
  | some e => pre ++ e
  | none => pre ++ "%!w(<nil>)"

/-- Go `time.Time`, an instant given in nanoseconds since the Unix epoch. -/
structure Time where
  nanos : Int
deriving DecidableEq, Repr

/-- Go `time.Second`, a `time.Duration` in nanoseconds. -/
def time.Second : Int := 1000000000

/-- Go `time.Minute`. -/
def time.Minute : Int := 60 * time.Second

/-- Go `time.Unix(sec, nsec)`. -/
def time.Unix (sec nsec : Int) : Time := ⟨sec * time.Second + nsec⟩

/-- Go `t.Add(d)`. -/
def Time.Add (t : Time) (d : Int) : Time := ⟨t.nanos + d⟩

/-- Go `t.Unix()`: whole seconds since the epoch, rounded towards minus infinity. -/
def Time.Unix (t : Time) : Int := t.nanos / time.Second

/-- The values an `int64` can hold. -/
def isInt64 (x : Int) : Prop := -9223372036854775808 ≤ x ∧ x ≤ 9223372036854775807

instance (x : Int) : Decidable (isInt64 x) := by
  unfold isInt64
  exact inferInstance

/-- Two's-complement wrap-around of an `int64` result. -/
def wrapInt64 (x : Int) : Int := (x + 9223372036854775808) % 18446744073709551616 - 9223372036854775808

/-- Go `a - b` on `int64` operands. -/
def int64Sub (a b : Int) : Int := wrapInt64 (a - b)

/-! ## Data types of the service -/

/-- The `core.PartyID` of nuts-go-core.  The service reads a party identifier only
through `String()`, so a party identifier is represented by that rendering (the
zero `PartyID` renders as the empty string). -/
structure PartyID where
  text : String
deriving DecidableEq, Repr

/-- Go `PartyID.String()`. -/
def PartyID.String (p : PartyID) : String := p.text

/-- Go `x509.Certificate`: the DER bytes, the public key read from them, and the
extended key usages that `crypto/x509` does not know by name, as object identifiers. -/
structure Certificate where
  Raw : List Nat
  PublicKey : String
  UnknownExtKeyUsage : List (List Nat) := []
deriving DecidableEq, Repr

/-- The registry's `db.Organization`, with the fields the service reads. -/
structure Organization where
  Identifier : PartyID
  Vendor : PartyID
deriving DecidableEq, Repr

/-- The registry's `db.Endpoint`, with the field the service reads. -/
structure Endpoint where
  Identifier : String
deriving DecidableEq, Repr

/-- The crypto module's `types.KeyIdentifier`: owner URI and qualifier. -/
structure KeyIdentifier where
  Owner : String
  Qualifier : String
deriving DecidableEq, Repr

/-- A record of the consent store (`PatientConsent`); its content is not read. -/
structure PatientConsent where
  ID : String
deriving DecidableEq, Repr

/-- The claims `jwt.StandardClaims` of jwt-go; the numeric dates are `int64`. -/
structure StandardClaims where
  Audience : String := ""
  ExpiresAt : Int := 0
  Id : String := ""
  IssuedAt : Int := 0
  Issuer : String := ""
  NotBefore : Int := 0
  Subject : String := ""
deriving DecidableEq, Repr

/-- Modelled from the spec: the declaration of `services.NutsJwtBearerToken` is not
among the sources; these are the claims `usi`, `sid`, `scope` of the bearer
assertion and the fields `oauth.go` reads and writes. -/
structure NutsJwtBearerToken extends StandardClaims where
  AuthTokenContainer : String := ""
  SubjectID : String := ""
  Scope : String := ""
  SigningCertificate : Option Certificate := none
deriving DecidableEq, Repr

/-- Modelled from the spec: the declaration of `services.NutsAccessToken` is not
among the sources; these are the fields `buildAccessToken` fills. -/
structure NutsAccessToken extends StandardClaims where
  SubjectID : String := ""
  Scope : String := ""
  FamilyName : String := ""
  GivenName : String := ""
  Prefix : String := ""
  Name : String := ""
  Email : String := ""
deriving DecidableEq, Repr

/-- Go `Valid` (`ValidationState` is a string type), as declared in `pkg/types.go`. -/
def services.Valid : String := "VALID"

/-- Go `Invalid`, as declared in `pkg/types.go`. -/
def services.Invalid : String := "INVALID"

/-- Go `ContractValidationResult`, as declared in `pkg/types.go`; the Go map of
disclosed attributes is a key/value list read with `mapIndex`. -/
structure ContractValidationResult where
  ValidationResult : String
  ContractFormat : String := ""
  DisclosedAttributes : List (String × String) := []
deriving DecidableEq, Repr

/-- Go `m[key]` on a `map[string]string`: the zero value `""` for an absent key. -/
def mapIndex (m : List (String × String)) (key : String) : String :=
  (m.lookup key).getD ""

/-- Go `services.CreateAccessTokenRequest`; its declaration is not among the sources,
the fields are the ones `CreateAccessToken` reads. -/
structure CreateAccessTokenRequest where
  RawJwtBearerToken : String
  VendorIdentifier : String := ""
deriving DecidableEq, Repr

/-- Go `services.AccessTokenResult`; its declaration is not among the sources, the
field is the one `CreateAccessToken` fills. -/
structure AccessTokenResult where
  AccessToken : String
deriving DecidableEq, Repr

/-- Modelled from the spec: the declaration of `services.CreateJwtBearerTokenRequest`
is not among the sources; the request is `{actor, custodian, identity_token,
subject?, scope}`. -/
structure CreateJwtBearerTokenRequest where
  Actor : String := ""
  Custodian : String := ""
  IdentityToken : String := ""
  Subject : String := ""
  Scope : String := ""
deriving DecidableEq, Repr

/-- Go `services.JwtBearerTokenResult`; its declaration is not among the sources, the
field is the one `CreateJwtBearerToken` fills. -/
structure JwtBearerTokenResult where
  BearerToken : String
deriving DecidableEq, Repr

/-- A decoded JSON value, as found in a JWT header (`interface{}` in Go). -/
inductive JsonValue where
  | null
  | bool (b : Bool)
  | number (n : Int)
  | string (s : String)
  | array (items : List JsonValue)
  | object (fields : List (String × JsonValue))

/-- Go `jwt.Token` of jwt-go, for claims of type `C`. -/
structure Token (C : Type) where
  Raw : String
  Method : String
  Header : List (String × JsonValue)
  Claims : C
  Signature : String := ""
  Valid : Bool := false

/-! ## Runs: collaborator calls, results and panics -/

/-- One call to a collaborator, with its arguments. -/
inductive Call where
  | OrganizationById (id : PartyID)
  | EndpointsByOrganizationAndType (id : PartyID) (endpointType : String)
  | VerifiedChain (cert : Option Certificate) (moment : Time)
  | ValidateJwt (contract : String) (actingPartyCN : String)
  | QueryConsent (actor custodian subject : String) (validAt : Time)
  | SignJWT (claims : NutsAccessToken) (key : KeyIdentifier)
  | SignJWTRFC003 (claims : NutsJwtBearerToken)
  | PrivateKeyExists (key : KeyIdentifier)
  | GetPrivateKey (key : KeyIdentifier)
  | GenerateKeyPair (key : KeyIdentifier)
deriving DecidableEq, Repr

/-- How a Go function ends: with a value, with an `error`, or by a run-time panic. -/
inductive Res (α : Type) where
  | ok (val : α)
  | error (err : Error)
  | fault
deriving DecidableEq, Repr

/-- A run of a Go function: the collaborator calls it made, in order, and how it ended. -/
structure Run (α : Type) where
  trace : List Call
  res : Res α
deriving DecidableEq, Repr

/-- A run that makes no call and returns `a`. -/
def Run.pure {α : Type} (a : α) : Run α := ⟨[], .ok a⟩

/-- Sequencing: an `error` or a panic of the first part ends the run. -/
def Run.bind {α β : Type} (m : Run α) (f : α → Run β) : Run β :=
  match m.res with
  | .ok a => ⟨m.trace ++ (f a).trace, (f a).res⟩
  | .error e => ⟨m.trace, .error e⟩
  | .fault => ⟨m.trace, .fault⟩

instance : Monad Run where
  pure := Run.pure
  bind := Run.bind

/-- Go `return nil, err`. -/
def Run.fail {α : Type} (e : Error) : Run α := ⟨[], .error e⟩

/-- A run-time panic. -/
def Run.panic {α : Type} : Run α := ⟨[], .fault⟩

/-- A call to a collaborator that answers `answer`. -/
def Run.call {α : Type} (c : Call) (answer : α) : Run α := ⟨[c], .ok answer⟩

/-- Go `v, err := f(..); if err != nil { return nil, wrap(err) }` for a collaborator
call `c`. -/
def Run.callE {α : Type} (c : Call) (answer : Except Error α) (wrap : Error → Error) : Run α :=
  match answer with
  | .ok a => ⟨[c], .ok a⟩
  | .error e => ⟨[c], .error (wrap e)⟩

/-- Go `v, err := f(..); if err != nil { return nil, wrap(err) }` for a library
function. -/
def Run.orFail {α : Type} (answer : Except Error α) (wrap : Error → Error) : Run α :=
  match answer with
  | .ok a => Run.pure a
  | .error e => Run.fail (wrap e)

/-- Go `if cond { return nil, err }`. -/
def Run.failIf (cond : Bool) (e : Error) : Run Unit :=
  if cond then Run.fail e else Run.pure ()

/-- Turns an `error` ending into a value, for callers that inspect `err` themselves. -/
def Run.attempt {α : Type} (m : Run α) : Run (Except Error α) :=
  match m.res with
  | .ok a => ⟨m.trace, .ok (.ok a)⟩
  | .error e => ⟨m.trace, .ok (.error e)⟩
  | .fault => ⟨m.trace, .fault⟩

/-! ## Libraries and collaborators -/

/-- The decoding and signature primitives of jwt-go for claims of type `C`. -/
structure JwtGo (C : Type) where
  /-- The decoding done by Go `Parser.ParseUnverified`: split the compact form and
  decode header and claims. -/
  decode : String → Except Error (Token C)
  /-- Go `token.Method.Verify(signingString, signature, key)` for the method named
  `alg`, on the compact form `raw`: `none` when the signature verifies. -/
  Verify : (alg raw key : String) → Option Error

/-- Sequence of readings of a clock: the `k`-th call returns `clock k`. -/
abbrev Clock := Nat → Time

/-- The library functions and package-level values the service uses. -/
structure Libraries where
  /-- Go `core.ParsePartyID`. -/
  ParsePartyID : String → Except Error PartyID
  /-- Go `core.NutsConfig().VendorID()`. -/
  NutsConfigVendorID : PartyID
  /-- Go `cert.VendorIDFromCertificate`: the Go pair of value and error. -/
  VendorIDFromCertificate : Certificate → PartyID × Option Error
  /-- Go `base64.StdEncoding.DecodeString`. -/
  DecodeString : String → Except Error (List Nat)
  /-- Go `x509.ParseCertificate`. -/
  ParseCertificate : List Nat → Except Error Certificate
  /-- Go `services.ValidJWTAlg`, whose declaration is not among the sources: a slice
  of algorithm names, `none` standing for the nil slice. -/
  ValidJWTAlg : Option (List String)
  /-- The jwt-go primitives for bearer assertions. -/
  jwtBearer : JwtGo NutsJwtBearerToken
  /-- The jwt-go primitives for access tokens. -/
  jwtAccess : JwtGo NutsAccessToken
  /-- Go `jwt.TimeFunc()`, read once by the claims validation. -/
  jwtTimeFunc : Time
  /-- Go `time.Now`, as successive readings during one call. -/
  Now : Clock
  /-- The package variable `timeFunc`, as successive readings during one call. -/
  timeFunc : Clock

/-- The registry client. -/
structure RegistryClient where
  OrganizationById : PartyID → Except Error Organization
  EndpointsByOrganizationAndType : PartyID → String → Except Error (List Endpoint)

/-- The trust store of the crypto client. -/
structure CertTrustStore where
  VerifiedChain : Option Certificate → Time → Except Error (List (List Certificate))

/-- The crypto client.  `SignJWT` and `SignJWTRFC003` receive the claims record,
which stands for the key/value map obtained from it by a JSON round trip. -/
structure CryptoClient where
  TrustStore : CertTrustStore
  PrivateKeyExists : KeyIdentifier → Bool
  /-- Go `GetPrivateKey`; the signer it returns is represented by its public key,
  `sk.Public()`. -/
  GetPrivateKey : KeyIdentifier → Except Error String
  SignJWT : NutsAccessToken → KeyIdentifier → Except Error String
  SignJWTRFC003 : NutsJwtBearerToken → Except Error String

/-- The consent store client. -/
structure ConsentStoreClient where
  QueryConsent : (actor custodian subject : String) → (validAt : Time) → Except Error (List PatientConsent)

/-- The contract validator. -/
structure ContractValidator where
  ValidateJwt : (contract actingPartyCN : String) → Except Error ContractValidationResult

/-- Go `service` of package oauth. -/
structure service where
  vendorID : PartyID
  crypto : CryptoClient
  registry : RegistryClient
  consent : ConsentStoreClient
  oauthKeyEntity : KeyIdentifier
  contractValidator : ContractValidator

/-! ## jwt-go: claim validation and `ParseWithClaims` -/

/-- Go `verifyExp` of jwt-go. -/
def verifyExp (exp now : Int) (required : Bool) : Bool :=
  if exp = 0 then !required else decide (now ≤ exp)

/-- Go `verifyIat` of jwt-go. -/
def verifyIat (iat now : Int) (required : Bool) : Bool :=
  if iat = 0 then !required else decide (now ≥ iat)

/-- Go `verifyNbf` of jwt-go. -/
def verifyNbf (nbf now : Int) (required : Bool) : Bool :=
  if nbf = 0 then !required else decide (now ≥ nbf)

/-- Go `StandardClaims.Valid()` of jwt-go at clock reading `now` (seconds): the three
dates are optional, a date of zero is not checked.  The error is the one of the last
failing check (the expiry message without its duration). -/
def StandardClaims.Valid (c : StandardClaims) (now : Int) : Option Error :=
  let e1 : Option Error := if verifyExp c.ExpiresAt now false = false then some "token is expired" else none
  let e2 : Option Error := if verifyIat c.IssuedAt now false = false then some "Token used before issued" else e1
  if verifyNbf c.NotBefore now false = false then some "token is not valid yet" else e2

/-- Go `Parser.ParseUnverified` of jwt-go: the decoded token; nothing is verified and
the token is not marked `Valid`. -/
def ParseUnverified {C : Type} (jwt : JwtGo C) (tokenString : String) : Except Error (Token C) :=
  match jwt.decode tokenString with
  | .error e => .error e
  | .ok token => .ok { token with Valid := false }

/-- The check of `Parser.ParseWithClaims` on the signing method
(`if p.ValidMethods != nil`): with a nil `ValidMethods` the check is skipped, otherwise
the algorithm of the token has to be one of the list. -/
def signingMethodValid (ValidMethods : Option (List String)) (alg : String) : Bool :=
  match ValidMethods with
  | none => true
  | some methods => methods.contains alg

/-- Go `Parser.ParseWithClaims` of jwt-go (v3): decode, check the signing method
against `ValidMethods` when that is not nil, ask `keyFunc` for the key, validate the
claims, verify the signature.  Returns the Go pair `(token, err)`; the token is
marked `Valid` only when `err` is nil. -/
def ParseWithClaims {C : Type} (jwt : JwtGo C) (claimsValid : C → Int → Option Error)
    (TimeFunc : Time) (ValidMethods : Option (List String)) (tokenString : String)
    (keyFunc : Token C → Run String) : Run (Option (Token C) × Option Error) :=
  match ParseUnverified jwt tokenString with
  | .error e => pure (none, some e)
  | .ok token =>
    match signingMethodValid ValidMethods token.Method with
    | false => pure (some token, some ("signing method " ++ token.Method ++ " is invalid"))
    | true => do
      let key ← (keyFunc token).attempt
      match key with
      | .error e => pure (some token, some e)
      | .ok key =>
        match jwt.Verify token.Method tokenString key, claimsValid token.Claims TimeFunc.Unix with
        | some e, _ => pure (some token, some e)
        | none, some e => pure (some token, some e)
        | none, none => pure (some { token with Valid := true }, none)

/-! ## `oauth.go` -/

/-- Go `oauthKeyQualifier`. -/
def oauthKeyQualifier : String := "oauth"

/-- Go `errMissingVendorID`. -/
def errMissingVendorID : Error := "missing vendorID"

/-- Go `errIncorrectNumberOfEndpoints`. -/
def errIncorrectNumberOfEndpoints : Error := "none or multiple registered endpoints found"

/-- Go `errMissingCertificate`. -/
def errMissingCertificate : Error := "missing x5c header"

/-- Go `errInvalidX5cHeader`. -/
def errInvalidX5cHeader : Error := "invalid x5c header"

/-- Go `errInvalidIssuerFmt`, without the verb `%w`. -/
def errInvalidIssuerFmt : String := "invalid jwt.issuer: "

/-- Go `errInvalidSubjectFmt`, without the verb `%w`. -/
def errInvalidSubjectFmt : String := "invalid jwt.subject: "

/-- Go `OauthBearerTokenMaxValidity`: the number of seconds that a bearer token is valid. -/
def OauthBearerTokenMaxValidity : Int := 5

/-- Go `getCertificateFromHeaders`. -/
def getCertificateFromHeaders {C : Type} (lib : Libraries) (token : Token C) : Except Error Certificate :=
  match token.Header.lookup "x5c" with
  | none => .error errMissingCertificate
  | some h =>
    match h with
    | .array i =>
      if i.length ≠ 1 then .error errInvalidX5cHeader
      else
        match i.head? with
        | some (.string c) =>
          match lib.DecodeString c with
          | .error err => .error (errInvalidX5cHeader ++ ": " ++ err)
          | .ok bytes => lib.ParseCertificate bytes
        | _ => .error errInvalidX5cHeader
    | _ => .error errInvalidX5cHeader

/-- Go `service.parseAndValidateJwtBearerToken`; returns the Go pair `(claims, err)`. -/
def parseAndValidateJwtBearerToken (lib : Libraries) (acString : String) :
    Run (Option NutsJwtBearerToken × Option Error) := do
  let r ← ParseWithClaims lib.jwtBearer (fun c now => c.toStandardClaims.Valid now)
    lib.jwtTimeFunc lib.ValidJWTAlg acString
    (fun token => Run.orFail ((getCertificateFromHeaders lib token).map (fun certificate => certificate.PublicKey)) id)
  match r.1 with
  | some token =>
    if token.Valid then
      pure (some { token.Claims with SigningCertificate := (getCertificateFromHeaders lib token).toOption }, none)
    else pure (none, r.2)
  | none => pure (none, r.2)

/-- The struct literal of Go `service.buildAccessToken` (the value `at`). -/
def accessTokenClaims (now : Clock) (jwtBearerToken : NutsJwtBearerToken)
    (identityValidationResult : ContractValidationResult) : NutsAccessToken :=
  { ExpiresAt := ((now 0).Add (time.Minute * 15)).Unix
    IssuedAt := (now 1).Unix
    Issuer := jwtBearerToken.Subject
    Subject := jwtBearerToken.Issuer
    SubjectID := jwtBearerToken.SubjectID
    Scope := jwtBearerToken.Scope
    FamilyName := mapIndex identityValidationResult.DisclosedAttributes "gemeente.personalData.familyname"
    GivenName := mapIndex identityValidationResult.DisclosedAttributes "gemeente.personalData.firstnames"
    Prefix := mapIndex identityValidationResult.DisclosedAttributes "gemeente.personalData.prefix"
    Name := mapIndex identityValidationResult.DisclosedAttributes "gemeente.personalData.fullname"
    Email := mapIndex identityValidationResult.DisclosedAttributes "pbdf.email.email" }

/-- Go `service.buildAccessToken`. -/
def buildAccessToken (now : Clock) (s : service) (jwtBearerToken : NutsJwtBearerToken)
    (identityValidationResult : ContractValidationResult) : Run String := do
  Run.failIf (identityValidationResult.ValidationResult != services.Valid)
    (errorf "could not build accessToken: " (some "invalid contract"))
  let issuer := jwtBearerToken.Subject
  Run.failIf (issuer == "") (errorf "could not build accessToken: " (some "subject is missing"))
  let tok := accessTokenClaims now jwtBearerToken identityValidationResult
  Run.callE (.SignJWT tok s.oauthKeyEntity) (s.crypto.SignJWT tok s.oauthKeyEntity)
    (fun err => errorf "could not build accessToken: " (some err))

/-- The loop of Go `service.CreateAccessToken` over the verified chains: the value of
`match` when the loop ends.  Reading the root of an empty chain panics. -/
def vendorMatch (lib : Libraries) (actor : Organization) : List (List Certificate) → Run Bool
  | [] => pure false
  | chain :: chains =>
    match chain.getLast? with
    | none => Run.panic
    | some root =>
      let v := (lib.VendorIDFromCertificate root).1
      if v.String == actor.Vendor.String then pure true else vendorMatch lib actor chains

/-- Go `service.CreateAccessToken`. -/
def CreateAccessToken (lib : Libraries) (s : service) (request : CreateAccessTokenRequest) :
    Run AccessTokenResult := do
  let parsed ← parseAndValidateJwtBearerToken lib request.RawJwtBearerToken
  match parsed with
  | (_, some err) => Run.fail (errorf "jwt bearer token validation failed: " (some err))
  | (none, none) => Run.panic
  | (some jwtBearerToken, none) => do
    let custPartyID ← Run.orFail (lib.ParsePartyID jwtBearerToken.Subject)
      (fun err => errorf errInvalidSubjectFmt (some err))
    let custodian ← Run.callE (.OrganizationById custPartyID) (s.registry.OrganizationById custPartyID)
      (fun err => errorf errInvalidSubjectFmt (some err))
    Run.failIf (custodian.Vendor.String != lib.NutsConfigVendorID.String)
      (errorf errInvalidSubjectFmt (some "organisation.vendor doesn't match with vendorID of this node"))
    let validationTime := time.Unix jwtBearerToken.IssuedAt 0
    let actorPartyID ← Run.orFail (lib.ParsePartyID jwtBearerToken.Issuer)
      (fun err => errorf errInvalidIssuerFmt (some err))
    let actor ← Run.callE (.OrganizationById actorPartyID) (s.registry.OrganizationById actorPartyID)
      (fun err => errorf errInvalidIssuerFmt (some err))
    let chains ← Run.callE (.VerifiedChain jwtBearerToken.SigningCertificate validationTime)
      (s.crypto.TrustStore.VerifiedChain jwtBearerToken.SigningCertificate validationTime)
      (fun err => errorf "jwt x5c certificate validation failed: " (some err))
    Run.failIf (chains.length == 0) (errorf "jwt x5c certificate validation failed: " none)
    let isMatch ← vendorMatch lib actor chains
    Run.failIf (!isMatch) "certificate from x5c is no sibling of actor signing certificate"
    Run.failIf (decide (int64Sub jwtBearerToken.ExpiresAt jwtBearerToken.IssuedAt > OauthBearerTokenMaxValidity))
      "JWT validity to long"
    let res ← Run.callE (.ValidateJwt jwtBearerToken.AuthTokenContainer request.VendorIdentifier)
      (s.contractValidator.ValidateJwt jwtBearerToken.AuthTokenContainer request.VendorIdentifier)
      (fun err => errorf "identity token validation failed: " (some err))
    Run.failIf (res.ValidationResult == services.Invalid) "identity validation failed"
    if jwtBearerToken.SubjectID != "" then
      let legalBase ← Run.callE
        (.QueryConsent jwtBearerToken.Issuer jwtBearerToken.Subject jwtBearerToken.SubjectID validationTime)
        (s.consent.QueryConsent jwtBearerToken.Issuer jwtBearerToken.Subject jwtBearerToken.SubjectID validationTime)
        (fun err => errorf "legal base validation failed: " (some err))
      Run.failIf (legalBase.length == 0) "subject scope requested but no legal base present"
    let accessToken ← buildAccessToken lib.Now s jwtBearerToken res
    pure { AccessToken := accessToken }

/-- Go `claimsFromRequest`; `timeFunc` is the package variable of that name. -/
def claimsFromRequest (timeFunc : Clock) (request : CreateJwtBearerTokenRequest) (audience : String) :
    NutsJwtBearerToken :=
  { Audience := audience
    ExpiresAt := ((timeFunc 0).Add (5 * time.Second)).Unix
    IssuedAt := (timeFunc 1).Unix
    Issuer := request.Actor
    NotBefore := 0
    Subject := request.Custodian
    AuthTokenContainer := request.IdentityToken
    SubjectID := request.Subject }

/-- Modelled from the spec: the constant `services.OAuthEndpointType` is not among the
sources; the spec names the endpoint type `oauth`. -/
def services.OAuthEndpointType : String := "oauth"

/-- Go `service.CreateJwtBearerToken`.  `AsMap` turns the claims into the key/value
map handed to the signer; that map is represented by the claims record. -/
def CreateJwtBearerToken (lib : Libraries) (s : service) (request : CreateJwtBearerTokenRequest) :
    Run JwtBearerTokenResult := do
  let custodian ← Run.orFail (lib.ParsePartyID request.Custodian) id
  let endpointType := services.OAuthEndpointType
  let epoints ← Run.callE (.EndpointsByOrganizationAndType custodian endpointType)
    (s.registry.EndpointsByOrganizationAndType custodian endpointType) id
  match epoints with
  | [epoint] =>
    let jwtBearerToken := claimsFromRequest lib.timeFunc request epoint.Identifier
    let keyVals := jwtBearerToken
    let signingString ← Run.callE (.SignJWTRFC003 keyVals) (s.crypto.SignJWTRFC003 keyVals) id
    pure { BearerToken := signingString }
  | _ => Run.fail errIncorrectNumberOfEndpoints

/-- Go `service.parseAndValidateAccessToken`; returns the Go pair `(claims, err)`.  The
key function asks the keystore for the process-wide OAuth key. -/
def parseAndValidateAccessToken (lib : Libraries) (s : service) (accessToken : String) :
    Run (Option NutsAccessToken × Option Error) := do
  let r ← ParseWithClaims lib.jwtAccess (fun c now => c.toStandardClaims.Valid now)
    lib.jwtTimeFunc lib.ValidJWTAlg accessToken
    (fun _ => do
      let keyExists ← Run.call (.PrivateKeyExists s.oauthKeyEntity)
        (s.crypto.PrivateKeyExists s.oauthKeyEntity)
      Run.failIf (!keyExists) "invalid signature"
      let sk ← Run.callE (.GetPrivateKey s.oauthKeyEntity) (s.crypto.GetPrivateKey s.oauthKeyEntity) id
      pure sk)
  match r.1 with
  | some token =>
    if token.Valid then pure (some token.Claims, none)
    else pure (none, r.2)
  | none => pure (none, r.2)

/-- Go `service.IntrospectAccessToken`. -/
def IntrospectAccessToken (lib : Libraries) (s : service) (token : String) :
    Run (Option NutsAccessToken × Option Error) :=
  parseAndValidateAccessToken lib s token

/-- The algorithm whitelist as the specification words it, to compare the accepted
algorithms of the code with: RS256, RS512, PS256, PS384, PS512, ES256, ES384, ES512. -/
def specAlgorithmWhitelist : List String :=
  ["RS256", "RS512", "PS256", "PS384", "PS512", "ES256", "ES384", "ES512"]

/-- Modelled from the spec: the variable `services.ValidJWTAlg` is declared in
`pkg/services/types.go`, which is not part of the sources.  By the specification the
algorithm whitelist is RS256, RS512, PS256, PS384, PS512, ES256, ES384, ES512. -/
def services.ValidJWTAlg : Option (List String) :=
  some ["RS256", "RS512", "PS256", "PS384", "PS512", "ES256", "ES384", "ES512"]

/-! ## `x509/uzi_validator.go`: accepted algorithms -/

/-- Go `validUziSigningAlgs` (`jwa.RS256`, `jwa.RS512`, by their names). -/
def validUziSigningAlgs : List String := ["RS256", "RS512"]

/-! ## A sample deployment, for evaluating the model -/

/-- The leaf certificate carried in the `x5c` header of the sample assertion. -/
def sampleLeaf : Certificate := { Raw := [48, 130], PublicKey := "actor-vendor-key" }

/-- The root of the chain the sample trust store builds for `sampleLeaf`. -/
def sampleRoot : Certificate := { Raw := [48, 131], PublicKey := "vendor-ca-key" }

/-- The decoded form of the sample assertion `"bearer"`, carrying `claims`. -/
def sampleToken (claims : NutsJwtBearerToken) : Token NutsJwtBearerToken :=
  { Raw := "bearer"
    Method := "ES256"
    Header := [("alg", .string "ES256"), ("typ", .string "JWT"), ("x5c", .array [.string "MIIB"])]
    Claims := claims }

/-- Sample libraries: the compact form `"bearer"` decodes to `claims`, its signature
verifies under the key of `sampleLeaf`, the clock of jwt-go reads 1600000002 s, and the
root `sampleRoot` carries the vendor identifier of vendor A. -/
def sampleLibraries (claims : NutsJwtBearerToken) : Libraries :=
  { ParsePartyID := fun s => if s = "" then .error "empty party identifier" else .ok ⟨s⟩
    NutsConfigVendorID := ⟨"urn:oid:1.3.6.1.4.1.54851.4:vendorB"⟩
    VendorIDFromCertificate := fun c =>
      if c = sampleRoot then (⟨"urn:oid:1.3.6.1.4.1.54851.4:vendorA"⟩, none)
      else (⟨""⟩, some "missing vendor SAN")
    DecodeString := fun s => if s = "MIIB" then .ok [48, 130] else .error "illegal base64 data"
    ParseCertificate := fun b => if b = [48, 130] then .ok sampleLeaf else .error "malformed certificate"
    ValidJWTAlg := some ["PS256", "PS384", "PS512", "ES256", "ES384", "ES512"]
    jwtBearer :=
      { decode := fun raw =>
          if raw = "bearer" then .ok (sampleToken claims)
          else .error "token contains an invalid number of segments"
        Verify := fun _ _ key => if key = "actor-vendor-key" then none else some "verification error" }
    jwtAccess :=
      { decode := fun _ => .error "token contains an invalid number of segments"
        Verify := fun _ _ _ => some "verification error" }
    jwtTimeFunc := time.Unix 1600000002 0
    Now := fun _ => time.Unix 1600000002 0
    timeFunc := fun _ => time.Unix 1600000000 0 }

/-- Sample registry: the actor organisation is registered by `actorVendor`, the
custodian organisation by vendor B. -/
def sampleRegistry (actorVendor : PartyID) : RegistryClient :=
  { OrganizationById := fun id =>
      if id.text = "urn:oid:2.16.840.1.113883.2.4.6.1:actor" then .ok ⟨id, actorVendor⟩
      else if id.text = "urn:oid:2.16.840.1.113883.2.4.6.1:custodian" then
        .ok ⟨id, ⟨"urn:oid:1.3.6.1.4.1.54851.4:vendorB"⟩⟩
      else .error "organization not found"
    EndpointsByOrganizationAndType := fun id _ =>
      if id.text = "urn:oid:2.16.840.1.113883.2.4.6.1:custodian" then .ok [⟨"endpoint-1"⟩] else .ok [] }

/-- Sample service of vendor B: the trust store verifies `sampleLeaf` up to
`sampleRoot`, the contract validator answers `validation`, the consent store answers
`consent`. -/
def sampleService (actorVendor : PartyID) (validation : Except Error ContractValidationResult)
    (consent : Except Error (List PatientConsent)) : service :=
  { vendorID := ⟨"urn:oid:1.3.6.1.4.1.54851.4:vendorB"⟩
    crypto :=
      { TrustStore :=
          { VerifiedChain := fun c _ =>
              if c = some sampleLeaf then .ok [[sampleLeaf, sampleRoot]]
              else .error "x509: certificate signed by unknown authority" }
        PrivateKeyExists := fun _ => true
        GetPrivateKey := fun _ => .ok "oauth-public-key"
        SignJWT := fun _ _ => .ok "access-token"
        SignJWTRFC003 := fun _ => .ok "bearer" }
    registry := sampleRegistry actorVendor
    consent := { QueryConsent := fun _ _ _ _ => consent }
    oauthKeyEntity := ⟨"urn:oid:1.3.6.1.4.1.54851.4:vendorB", "oauth"⟩
    contractValidator := { ValidateJwt := fun _ _ => validation } }

/-- The vendor that registered the sample actor. -/
def vendorA : PartyID := ⟨"urn:oid:1.3.6.1.4.1.54851.4:vendorA"⟩

/-- A valid identity validation result disclosing two attributes. -/
def sampleValidation : ContractValidationResult :=
  { ValidationResult := "VALID"
    ContractFormat := "irma"
    DisclosedAttributes :=
      [("gemeente.personalData.firstnames", "Jan"), ("gemeente.personalData.familyname", "Jansen")] }

/-- Claims of a well-formed bearer assertion with a subject (`sid`). -/
def sampleClaims : NutsJwtBearerToken :=
  { Issuer := "urn:oid:2.16.840.1.113883.2.4.6.1:actor"
    Subject := "urn:oid:2.16.840.1.113883.2.4.6.1:custodian"
    Audience := "endpoint-1"
    IssuedAt := 1600000000
    ExpiresAt := 1600000005
    AuthTokenContainer := "identity-token"
    SubjectID := "urn:oid:2.16.840.1.113883.2.4.6.3:999999990" }

/-- The exchange request for the sample assertion. -/
def sampleRequest : CreateAccessTokenRequest :=
  { RawJwtBearerToken := "bearer", VendorIdentifier := "urn:oid:1.3.6.1.4.1.54851.4:vendorA" }

/-- Claims whose `exp` and `iat` are `int64` values 2^63 seconds apart. -/
def overflowClaims : NutsJwtBearerToken :=
  { sampleClaims with ExpiresAt := 9223372036854775807, IssuedAt := -1 }

/-- Libraries in which the vendor identifier cannot be read from any certificate. -/
def noVendorSanLibraries (claims : NutsJwtBearerToken) : Libraries :=
  { sampleLibraries claims with
    VendorIDFromCertificate := fun _ => (⟨""⟩, some "missing vendor SAN") }

/-- A clock whose first reading is the last nanosecond of second 1600000000 and whose
later readings are the first nanosecond of second 1600000001. -/
def tickingClock : Clock := fun k => if k = 0 then ⟨1600000000999999999⟩ else ⟨1600000001000000000⟩

/-- A request for a bearer assertion with a subject and a scope. -/
def sampleBearerRequest : CreateJwtBearerTokenRequest :=
  { Actor := "urn:oid:2.16.840.1.113883.2.4.6.1:actor"
    Custodian := "urn:oid:2.16.840.1.113883.2.4.6.1:custodian"
    IdentityToken := "identity-token"
    Subject := "urn:oid:2.16.840.1.113883.2.4.6.3:999999990"
    Scope := "nuts-sso" }

/-- The sample service with a valid identity and one consent record. -/
def sampleServiceA : service :=
  sampleService vendorA (.ok sampleValidation) (.ok [⟨"consent-1"⟩])

/-- Claims of a sample access token. -/
def sampleAccessClaims : NutsAccessToken :=
  { Issuer := "urn:oid:2.16.840.1.113883.2.4.6.1:custodian"
    Subject := "urn:oid:2.16.840.1.113883.2.4.6.1:actor"
    IssuedAt := 1600000002
    ExpiresAt := 1600000902
    GivenName := "Jan" }

/-- Sample libraries in which every compact form decodes to a token with header
algorithm `alg`: a bearer assertion carrying `sampleClaims`, an access token carrying
`sampleAccessClaims` whose signature verifies under the public key `oauth-public-key`. -/
def algLibraries (alg : String) : Libraries :=
  { sampleLibraries sampleClaims with
    jwtBearer :=
      { decode := fun _ => .ok { sampleToken sampleClaims with Method := alg }
        Verify := fun _ _ key => if key = "actor-vendor-key" then none else some "verification error" }
    jwtAccess :=
      { decode := fun raw =>
          .ok { Raw := raw, Method := alg, Header := [("alg", .string alg), ("typ", .string "JWT")],
                Claims := sampleAccessClaims }
        Verify := fun _ _ key => if key = "oauth-public-key" then none else some "verification error" } }

/-! ## `pkg/contract`: errors, maps and library primitives -/

/-- Go `error` values as the contract package builds them: a package-level value made
by `errors.New` (identified by its text, which is unique among the values of the
package), a value made at the point of failure (`fmt.Errorf` without `%w`, or the error
of a library), or a `fmt.Errorf` value whose `%w` operand is `err`. -/
inductive GoError where
  | sentinel (text : String)
  | fresh (text : String)
  | wrap (msg : String) (err : GoError)
deriving DecidableEq, Repr

/-- Go `err.Error()`. -/
def GoError.Error : GoError → String
  | .sentinel text => text
  | .fresh text => text
  | .wrap msg _ => msg

/-- Go `errors.Is(e, target)`: `target` is `e` itself or is found by unwrapping `e`. -/
def GoError.Is : GoError → GoError → Bool
  | .sentinel text, target => GoError.sentinel text == target
  | .fresh text, target => GoError.fresh text == target
  | .wrap msg err, target => GoError.wrap msg err == target || err.Is target

/-- How a function of the contract package ends: with a value, with an `error`, or by
a run-time panic. -/
inductive Outcome (α : Type) where
  | ok (val : α)
  | error (err : GoError)
  | fault
deriving DecidableEq, Repr

/-- The value of an outcome that has one. -/
def Outcome.val? {α : Type} : Outcome α → Option α
  | .ok val => some val
  | _ => none

/-- Go `map[string]string` that is not nil: the value stored under each key, if any.
A map that may be nil is an `Option StringMap`. -/
abbrev StringMap := String → Option String

/-- Go `map[string]string{}`. -/
def StringMap.empty : StringMap := fun _ => none

/-- Go `m[k] = v`. -/
def StringMap.set (m : StringMap) (k v : String) : StringMap :=
  fun x => if x = k then some v else m x

/-- Go `v, ok := m[k]` on a map that may be nil; reading a nil map finds nothing. -/
def mapLookup (m : Option StringMap) (k : String) : Option String :=
  match m with
  | some entries => entries k
  | none => none

/-- Go `timeLayout`. -/
def timeLayout : String := "Monday, 2 January 2006 15:04:05"

/-- Go `ValidFromAttr`. -/
def ValidFromAttr : String := "valid_from"

/-- Go `ValidToAttr`. -/
def ValidToAttr : String := "valid_to"

/-- Go `ActingPartyAttr`. -/
def ActingPartyAttr : String := "acting_party"

/-- Go `LegalEntityAttr`. -/
def LegalEntityAttr : String := "legal_entity"

/-- Go `amsterdamTimeZone` of `contract.go`. -/
def amsterdamTimeZone : String := "Europe/Amsterdam"

/-- Modelled from the spec: the exported constant `AmsterdamTimeZone` read by
`Template.timeLocation` is declared in a file of the package that is not part of the
sources; the specification fixes the zone of rendering to Europe/Amsterdam. -/
def AmsterdamTimeZone : String := "Europe/Amsterdam"

/-- Go `monday.LocaleNlNL`. -/
def monday.LocaleNlNL : String := "nl_NL"

/-- Go `ErrUnknownContractFormat`. -/
def ErrUnknownContractFormat : GoError := .sentinel "unknown contract format"

/-- Go `ErrInvalidContractFormat`. -/
def ErrInvalidContractFormat : GoError := .sentinel "unknown contract type"

/-- Go `ErrContractNotFound`. -/
def ErrContractNotFound : GoError := .sentinel "contract not found"

/-- Go `ErrInvalidContractText`. -/
def ErrInvalidContractText : GoError := .sentinel "invalid contract text"

/-- Go `StandardSignerAttributes`. -/
def StandardSignerAttributes : List String :=
  [".gemeente.personalData.firstnames", "pbdf.sidn-pbdf.email.email"]

/-- The library primitives the contract package calls.  A `*time.Location` is
represented by the name of its zone: `time.LoadLocation` of the fixed zone name is taken
to succeed (the zone database is present), and `t.In(loc)` denotes the same instant as
`t`. -/
structure ContractLibraries where
  /-- Go `regexp.Compile(pattern)`: `none` when the pattern does not compile (Go then
  returns a nil `*Regexp`); otherwise `FindSubmatch` of the compiled expression, which
  maps a text to the whole match followed by the capture groups, and to the empty
  slice when the text does not match. -/
  regexpCompile : String → Option (String → List String)
  /-- Go `mustache.Render(template, vars)`. -/
  mustacheRender : String → StringMap → Except GoError String
  /-- Go `monday.Format(t.In(loc), layout, locale)`, with `loc` given by its zone. -/
  mondayFormat : Time → String → String → String → String
  /-- Go `monday.ParseInLocation(layout, value, loc, locale)`, with `loc` given by its
  zone. -/
  mondayParseInLocation : String → String → String → String → Except GoError Time
  /-- Go `NowFunc()`. -/
  NowFunc : Time
  /-- How `fmt` prints a `time.Time` under `%s`. -/
  timeString : Time → String

/-! ## `pkg/contract/template.go` and `pkg/contract/contract.go` -/

/-- Go `Template`.  The fields `Type` and `Template` are named `Type_` and
`Template_` here. -/
structure Template where
  Type_ : String
  Version : String
  Language : String
  SignerAttributes : List String := []
  SignerDemoAttributes : List String := []
  Template_ : String
  TemplateAttributes : List String
  Regexp : String
deriving DecidableEq, Repr

/-- Go `Contract`; `Template` is a pointer and `Params` a map, either may be nil. -/
structure Contract where
  RawContractText : String
  Template : Option Template
  Params : Option StringMap := none

/-- Modelled from the spec: the type `TemplateStore` and its method
`FindFromRawContractText` are declared in a file of the package that is not part of the
sources; by the specification the lookup answers with the template the text belongs to
or with an error. -/
structure TemplateStore where
  FindFromRawContractText : String → Except GoError Template

/-- Go `Template.timeLocation`. -/
def Template.timeLocation (_ : Template) : String := AmsterdamTimeZone

/-- The error `fmt.Errorf("%w" ++ rest, ErrInvalidContractText)`. -/
def invalidContractText (rest : String) : GoError :=
  .wrap (ErrInvalidContractText.Error ++ rest) ErrInvalidContractText

/-- Go `Contract.initParams`: the receiver after the call and how the call ended.  A
nil `Template` and a nil `*Regexp` (the error of `regexp.Compile` is dropped) are
dereferenced, which panics.  `TemplateAttributes[idx]` is in bounds, the lengths being
equal. -/
def Contract.initParams (lib : ContractLibraries) (sc : Contract) : Contract × Outcome Unit :=
  match sc.Template with
  | none => (sc, .fault)
  | some template =>
    match lib.regexpCompile template.Regexp with
    | none => (sc, .fault)
    | some FindSubmatch =>
      let matchResult := FindSubmatch sc.RawContractText
      if matchResult.length < 1 then
        (sc, .error (invalidContractText ": could not match the contract template regex"))
      else
        let matches_ := matchResult.drop 1
        if matches_.length ≠ template.TemplateAttributes.length then
          (sc, .error (invalidContractText
            (": amount of template attributes does not match the amount of Params: found: " ++
              toString matches_.length ++ ", expected " ++
              toString template.TemplateAttributes.length)))
        else
          ({ sc with
              Params := some (matches_.enum.foldl
                (fun params m => params.set (template.TemplateAttributes.getD m.1 "") m.2)
                StringMap.empty) },
            .ok ())

/-- Go `ParseContractString`; an error stands for the Go pair `(nil, err)`. -/
def ParseContractString (lib : ContractLibraries) (rawContractText : String)
    (contractTemplates : TemplateStore) : Outcome Contract :=
  match contractTemplates.FindFromRawContractText rawContractText with
  | .error err => .error err
  | .ok template =>
    let contract : Contract := { Template := some template, RawContractText := rawContractText }
    match contract.initParams lib with
    | (_, .error err) => .error err
    | (_, .fault) => .fault
    | (contract, .ok _) => .ok contract

/-- Go `parseTime`. -/
def parseTime (lib : ContractLibraries) (timeStr : String) (_ : String) : Except GoError Time :=
  match lib.mondayParseInLocation timeLayout timeStr amsterdamTimeZone monday.LocaleNlNL with
  | .error err => .error (.wrap ("invalid time string [" ++ timeStr ++ "]: " ++ err.Error) err)
  | .ok parsedTime => .ok parsedTime

/-- Go `t.Before(u)`. -/
def Time.Before (t u : Time) : Bool := decide (t.nanos < u.nanos)

/-- Go `t.After(u)`. -/
def Time.After (t u : Time) : Bool := decide (t.nanos > u.nanos)

/-- Go `Contract.Verify`. -/
def Contract.Verify (lib : ContractLibraries) (sc : Contract) : Outcome Unit :=
  match mapLookup sc.Params ValidFromAttr with
  | none => .error (invalidContractText (": value for [" ++ ValidFromAttr ++ "] is missing"))
  | some validFromStr =>
    match sc.Template with
    | none => .fault
    | some template =>
      match parseTime lib validFromStr template.Language with
      | .error err =>
        .error (invalidContractText (": unable to parse [" ++ ValidFromAttr ++ "]: " ++ err.Error))
      | .ok validFrom =>
        match mapLookup sc.Params ValidToAttr with
        | none => .error (invalidContractText (": value for [" ++ ValidToAttr ++ "] is missing"))
        | some validToStr =>
          match parseTime lib validToStr template.Language with
          | .error err =>
            .error (invalidContractText (": unable to parse [" ++ ValidToAttr ++ "]: " ++ err.Error))
          | .ok validTo =>
            if validFrom.After validTo then
              .error (invalidContractText
                (": [" ++ ValidFromAttr ++ "] must be after [" ++ ValidToAttr ++ "]"))
            else
              let now := lib.NowFunc
              if now.Before validFrom then
                .error (.fresh ("contract is not yet valid. now: " ++ lib.timeString now ++
                  ", validFrom: " ++ lib.timeString validFrom))
              else if now.After validTo then
                .error (.fresh ("contract is expired since: " ++ lib.timeString validTo))
              else .ok ()

/-- Go `Template.Render`: the caller's map after the call and how the call ended.
Writing to a nil map panics. -/
def Template.Render (lib : ContractLibraries) (c : Template) (vars : Option StringMap)
    (validFrom : Time) (validDuration : Int) : Option StringMap × Outcome Contract :=
  match vars with
  | none => (none, .fault)
  | some vars =>
    let vars := vars.set ValidFromAttr
      (lib.mondayFormat validFrom c.timeLocation timeLayout monday.LocaleNlNL)
    let vars := vars.set ValidToAttr
      (lib.mondayFormat (validFrom.Add validDuration) c.timeLocation timeLayout monday.LocaleNlNL)
    match lib.mustacheRender c.Template_ vars with
    | .error err =>
      (some vars, .error (.wrap ("could not render contract template: " ++ err.Error) err))
    | .ok rawContractText =>
      let contract : Contract := { RawContractText := rawContractText, Template := some c }
      match contract.initParams lib with
      | (_, .error err) => (some vars, .error err)
      | (_, .fault) => (some vars, .fault)
      | (contract, .ok _) => (some vars, .ok contract)

/-! ## A sample template with sample libraries, for evaluating the contract model -/

/-- The escaping of `template.HTMLEscape`, which mustache applies to the value of a
variable tag. -/
def htmlEscape : List Char → List Char
  | [] => []
  | c :: cs =>
    (if c = '&' then "&amp;".toList
      else if c = '<' then "&lt;".toList
      else if c = '>' then "&gt;".toList
      else if c = Char.ofNat 34 then "&#34;".toList
      else if c = Char.ofNat 39 then "&#39;".toList
      else [c]) ++ htmlEscape cs

/-- Where the sample mustache engine is while it reads a template: in plain text,
after one opening brace, inside a tag, or after one closing brace inside a tag. -/
inductive MustacheState where
  | text
  | open1
  | tag (name : List Char)
  | close1 (name : List Char)

/-- The sample mustache engine, for templates of plain text and variable tags: a tag is
replaced by the escaped value of its variable, by nothing when the variable is
missing; a tag that is not closed is an error. -/
def sampleMustacheChars (vars : StringMap) : MustacheState → List Char → Except GoError (List Char)
  | .text, [] => .ok []
  | .open1, [] => .ok [Char.ofNat 123]
  | .tag _, [] => .error (.fresh "unmatched open tag")
  | .close1 _, [] => .error (.fresh "unmatched open tag")
  | .text, c :: rest =>
    if c = Char.ofNat 123 then sampleMustacheChars vars .open1 rest
    else (sampleMustacheChars vars .text rest).map (fun out => c :: out)
  | .open1, c :: rest =>
    if c = Char.ofNat 123 then sampleMustacheChars vars (.tag []) rest
    else (sampleMustacheChars vars .text rest).map (fun out => Char.ofNat 123 :: c :: out)
  | .tag name, c :: rest =>
    if c = Char.ofNat 125 then sampleMustacheChars vars (.close1 name) rest
    else sampleMustacheChars vars (.tag (name ++ [c])) rest
  | .close1 name, c :: rest =>
    if c = Char.ofNat 125 then
      (sampleMustacheChars vars .text rest).map
        (fun out => htmlEscape ((vars (String.mk name)).getD "").toList ++ out)
    else sampleMustacheChars vars (.tag (name ++ [Char.ofNat 125, c])) rest

/-- The sample `mustache.Render`. -/
def sampleMustache (template : String) (vars : StringMap) : Except GoError String :=
  (sampleMustacheChars vars .text template.toList).map String.mk

/-- A piece of a pattern of the sample regular-expression engine: a literal character
or the group `(.+)`. -/
inductive PatternPiece where
  | char (c : Char)
  | group
deriving DecidableEq, Repr

/-- The pieces of a pattern body made of letters, digits, spaces, colons, commas and
groups `(.+)`; the sample engine handles no other pattern. -/
def patternPieces : List Char → Option (List PatternPiece)
  | [] => some []
  | '(' :: '.' :: '+' :: ')' :: rest => (patternPieces rest).map (fun pieces => .group :: pieces)
  | c :: rest =>
    if c.isAlphanum ∨ c = ' ' ∨ c = ':' ∨ c = ',' then
      (patternPieces rest).map (fun pieces => .char c :: pieces)
    else none

/-- Whether a whole text matches the pieces, with the capture groups: a group takes
one or more characters other than a newline, and as many as the rest of the match
allows. -/
def matchPieces : List PatternPiece → List Char → Option (List (List Char))
  | [], text => if text = [] then some [] else none
  | .char c :: pieces, text =>
    match text with
    | [] => none
    | x :: rest => if c = x then matchPieces pieces rest else none
  | .group :: pieces, text =>
    (List.range text.length).reverse.findSome? (fun k =>
      if (text.take (k + 1)).contains (Char.ofNat 10) then none
      else (matchPieces pieces (text.drop (k + 1))).map (fun groups => text.take (k + 1) :: groups))

/-- The sample `regexp.Compile`, for patterns `^` body `$`: the compiled expression
answers with the whole text followed by the groups, or with nothing. -/
def sampleRegexpCompile (pattern : String) : Option (String → List String) :=
  match pattern.toList with
  | '^' :: body =>
    if body.getLast? = some '$' then
      (patternPieces body.dropLast).map (fun pieces text =>
        match matchPieces pieces text.toList with
        | some groups => text :: groups.map String.mk
        | none => [])
    else none
  | _ => none

/-- The sample calendar: the two instants of the sample contract, in the layout of the
contract package, in Dutch, on the clock of Amsterdam. -/
def sampleCalendar : List (Int × String) :=
  [(1569929442, "dinsdag, 1 oktober 2019 13:30:42"),
   (1569933042, "dinsdag, 1 oktober 2019 14:30:42")]

/-- How Go prints the instants of the sample calendar, and a later instant, under `%s`. -/
def sampleTimeStrings : List (Int × String) :=
  [(1569929442, "2019-10-01 13:30:42 +0200 CEST"),
   (1569933042, "2019-10-01 14:30:42 +0200 CEST"),
   (1603929600, "2020-10-29 00:00:00 +0000 UTC")]

/-- The sample `monday.Format`, reading `sampleCalendar`. -/
def sampleFormat (t : Time) (zone layout locale : String) : String :=
  if zone = "Europe/Amsterdam" ∧ layout = timeLayout ∧ locale = monday.LocaleNlNL then
    ((sampleCalendar.find? (fun row => row.1 = t.Unix)).map (fun row => row.2)).getD ""
  else ""

/-- The sample `monday.ParseInLocation`, reading `sampleCalendar`. -/
def sampleParseInLocation (layout value zone locale : String) : Except GoError Time :=
  if zone = "Europe/Amsterdam" ∧ layout = timeLayout ∧ locale = monday.LocaleNlNL then
    match sampleCalendar.find? (fun row => row.2 = value) with
    | some row => .ok (time.Unix row.1 0)
    | none => .error (.fresh ("parsing time \"" ++ value ++ "\": cannot parse"))
  else .error (.fresh "unknown layout")

/-- Sample libraries of the contract package, with the clock reading `now`. -/
def sampleContractLibraries (now : Time) : ContractLibraries :=
  { regexpCompile := sampleRegexpCompile
    mustacheRender := sampleMustache
    mondayFormat := sampleFormat
    mondayParseInLocation := sampleParseInLocation
    NowFunc := now
    timeString := fun t =>
      ((sampleTimeStrings.find? (fun row => row.1 = t.Unix)).map (fun row => row.2)).getD "" }

/-- A sample template. -/
def sampleTemplate : Template :=
  { Type_ := "Test"
    Version := "v1"
    Language := "NL"
    SignerAttributes := StandardSignerAttributes
    Template_ := "NL:Test:v1 \x7b\x7bacting_party\x7d\x7d voor \x7b\x7blegal_entity\x7d\x7d van \x7b\x7bvalid_from\x7d\x7d tot \x7b\x7bvalid_to\x7d\x7d"
    TemplateAttributes := [ActingPartyAttr, LegalEntityAttr, ValidFromAttr, ValidToAttr]
    Regexp := "^NL:Test:v1 (.+) voor (.+) van (.+) tot (.+)$" }

/-- A sample template that names the same attribute twice. -/
def repeatTemplate : Template :=
  { Type_ := "Twice"
    Version := "v1"
    Language := "NL"
    Template_ := "\x7b\x7bname\x7d\x7d en \x7b\x7bname\x7d\x7d"
    TemplateAttributes := ["name", "name"]
    Regexp := "^(.+) en (.+)$" }

/-- A sample store holding `sampleTemplate`. -/
def sampleStore : TemplateStore :=
  { FindFromRawContractText := fun text =>
      if "NL:Test:v1 ".toList.isPrefixOf text.toList then .ok sampleTemplate
      else .error ErrContractNotFound }

/-- Sample variables of a caller. -/
def sampleVars : StringMap :=
  (StringMap.empty.set ActingPartyAttr "Demo EHR").set LegalEntityAttr "Zorg"

/-- The start of the sample contract: 1 October 2019, 13:30:42 in Amsterdam. -/
def sampleValidFrom : Time := time.Unix 1569929442 0

/-- One hour, as a `time.Duration`. -/
def time.Hour : Int := 60 * time.Minute

/-! ## `pkg/services/x509/uzi_validator.go` -/

/-- The parts of a text between the occurrences of the character `sep`. -/
def splitChars (sep : Char) : List Char → List (List Char)
  | [] => [[]]
  | c :: cs =>
    if c = sep then [] :: splitChars sep cs
    else
      match splitChars sep cs with
      | [] => [[c]]
      | part :: parts => (c :: part) :: parts

/-- Go `strings.Split(s, sep)` for a separator of one character. -/
def strings.Split (s : String) (sep : Char) : List String :=
  (splitChars sep s.toList).map String.mk

/-- Modelled from the spec: the type `JwtX509Token` is declared in `x509_validator.go`,
which is not part of the sources.  The UZI validator reads its field `chain`, the
certificates of the `x5c` header with the leaf first, and calls its method
`SubjectAltNameOtherNames`, which reads the leaf certificate; the token carries what
that method returns.  `raw` is the compact form of the token. -/
structure JwtX509Token where
  raw : String
  chain : List Certificate
  SubjectAltNameOtherNames : Except Error (List String)

/-- Modelled from the spec: the type `JwtX509Validator` is declared in
`x509_validator.go`, which is not part of the sources.  The UZI validator calls its
method `Verify`, which checks algorithm, chain, signature, time claims and revocation;
`none` is a nil error. -/
structure JwtX509Validator where
  Verify : JwtX509Token → Option Error

/-- Go `UziSignedToken`; both pointers are set by `Parse`, the only function that
builds the value. -/
structure UziSignedToken where
  jwtX509Token : JwtX509Token
  contract : Contract

/-- Go `UziValidator`. -/
structure UziValidator where
  validator : JwtX509Validator
  contractTemplates : TemplateStore

/-- Go `services.SignedToken`: a token of the UZI validator, or a value of any other
type that implements the interface. -/
inductive SignedToken where
  | uzi (token : UziSignedToken)
  | other

/-- Go `getUziAttributeNames`. -/
def getUziAttributeNames : List String :=
  ["oidCa", "version", "uziNr", "cardType", "orgID", "rollCode", "agbCode"]

/-- The body of the loop of `UziSignedToken.SignerAttributes`, for one other name:
the map `res` after the pass.  `parts[idx]` is in bounds, the lengths being equal. -/
def signerAttributesStep (res : StringMap) (otherNameStr : String) : StringMap :=
  let parts := strings.Split otherNameStr '-'
  let attrNames := getUziAttributeNames
  if parts.length ≠ attrNames.length then res
  else getUziAttributeNames.enum.foldl
    (fun res name => res.set name.2 (parts.getD name.1 "")) res

/-- Go `UziSignedToken.SignerAttributes`. -/
def UziSignedToken.SignerAttributes (t : UziSignedToken) : Except Error StringMap :=
  match t.jwtX509Token.SubjectAltNameOtherNames with
  | .error err => .error (errorf "could not extract SAN from certificate: " (some err))
  | .ok otherNames => .ok (otherNames.foldl signerAttributesStep StringMap.empty)

/-- Go `UziSignedToken.Contract`. -/
def UziSignedToken.Contract (t : UziSignedToken) : Contract := t.contract

/-- Go `extKeyUsageDocumentSigning`. -/
def extKeyUsageDocumentSigning : List Nat := [1, 3, 6, 1, 4, 1, 311, 10, 3, 12]

/-- Go `UziValidator.Verify`; `.ok ()` is a nil error.  Reading `chain[0]` of an empty
chain panics. -/
def UziValidator.Verify (u : UziValidator) (token : SignedToken) : Res Unit :=
  match token with
  | .other => .error "wrong token type"
  | .uzi x509SignedToken =>
    match x509SignedToken.SignerAttributes with
    | .error err => .error (errorf "invalid signer attributes in uzi certificate: " (some err))
    | .ok _ =>
      match u.validator.Verify x509SignedToken.jwtX509Token with
      | some err => .error err
      | none =>
        match x509SignedToken.jwtX509Token.chain with
        | [] => .fault
        | leaf :: _ =>
          if leaf.UnknownExtKeyUsage.any (fun keyUsage => keyUsage == extKeyUsageDocumentSigning) then
            .ok ()
          else
            .error ("certificate is missing the extended key usage for document signing (" ++
              ".".intercalate (extKeyUsageDocumentSigning.map toString) ++ ")")

/-! ## A sample UZI token -/

/-- The leaf certificate of the sample UZI token, with the extended key usage for
document signing. -/
def uziLeaf : Certificate :=
  { Raw := [48, 130, 7], PublicKey := "uzi-card-key",
    UnknownExtKeyUsage := [[1, 3, 6, 1, 4, 1, 311, 10, 3, 12]] }

/-- A leaf certificate without extended key usages. -/
def plainLeaf : Certificate := { Raw := [48, 130, 8], PublicKey := "plain-key" }

/-- The sample validator of X.509 tokens: a token verifies when its compact form is
`signed`. -/
def sampleJwtX509Validator : JwtX509Validator :=
  { Verify := fun token =>
      if token.raw = "signed" then none else some "unable to verify certificate chain" }

/-- The sample UZI validator. -/
def sampleUziValidator : UziValidator :=
  { validator := sampleJwtX509Validator, contractTemplates := sampleStore }

/-- The sample contract, valid on 1 October 2019 from 13:30:42 to 14:30:42. -/
def sampleContract : Contract :=
  { RawContractText := "NL:Test:v1 Demo EHR voor Zorg van dinsdag, 1 oktober 2019 13:30:42 tot dinsdag, 1 oktober 2019 14:30:42"
    Template := some sampleTemplate
    Params := some ((sampleVars.set ValidFromAttr "dinsdag, 1 oktober 2019 13:30:42").set
      ValidToAttr "dinsdag, 1 oktober 2019 14:30:42") }

/-- The other name of the test card of the UZI register. -/
def sampleOtherName : String := "2.16.528.1.1007.99.218-1-900021219-N-90000382-00.000-00000000"

/-- A sample UZI token with compact form `raw`, leaf certificate `leaf` and the other
names `otherNames`, bound to `sampleContract`. -/
def sampleUziToken (raw : String) (leaf : Certificate) (otherNames : List String) :
    UziSignedToken :=
  { jwtX509Token := { raw := raw, chain := [leaf], SubjectAltNameOtherNames := .ok otherNames }
    contract := sampleContract }

/-! ## `api/auth/contract.go` -/

/-- Go `Contract` of the package `api/auth`.  The fields `Type` and `Template` are named
`Type_` and `Template_` here. -/
structure auth.Contract where
  Type_ : String
  Version : String
  Language : String
  SignerAttributes : List String
  Template_ : String
deriving DecidableEq, Repr

/-- Go `ContractByType` of the package `api/auth`; `none` is the nil pointer. -/
def auth.ContractByType (contractType : String) (_ : String) : Option auth.Contract :=
  if contractType = "PractitionerLogin" ∨ contractType = "BehandelaarLogin" then
    some
      { Type_ := contractType
        Version := "v1"
        Language := "NL"
        SignerAttributes := ["irma-demo.nuts.agb.agbcode"]
        Template_ := "NL:BehandelaarLogin:v1 Ondergetekende geeft toestemming aan \x7b\x7bacting_party\x7d\x7d om uit zijn/haar naam het nuts netwerk te bevragen. Deze toestemming is geldig van \x7b\x7bvalid_from\x7d\x7d tot \x7b\x7bvalid_to\x7d\x7d." }
  else none

/-! ## More sample deployments -/

/-- The sample service with a trust store that answers with one chain, which is empty. -/
def emptyChainService : service :=
  { sampleServiceA with
    crypto := { sampleServiceA.crypto with TrustStore := { VerifiedChain := fun _ _ => .ok [[]] } } }

/-- An identity validation result whose state is neither `VALID` nor `INVALID`. -/
def undecidedValidation : ContractValidationResult :=
  { sampleValidation with ValidationResult := "" }

/-- A template whose regular expression does not compile: its parenthesis is not
closed. -/
def brokenTemplate : Template :=
  { Type_ := "Broken"
    Version := "v1"
    Language := "NL"
    Template_ := "NL:Broken:v1 tekst"
    TemplateAttributes := []
    Regexp := "(" }

/-! ## `pkg/auth.go`: configuring the `Auth` value -/

/-- The constant `ServerEngineMode` of nuts-go-core. -/
def core.ServerEngineMode : String := "server"

/-- Modelled from the spec: the type `AuthConfig` is declared in a file of the package
that is not part of the sources; these are the fields that `auth.go` reads, which are
the options of the specification. -/
structure AuthConfig where
  Mode : String := ""
  Address : String := ""
  PublicUrl : String := ""
  IrmaConfigPath : String := ""
  IrmaSchemeManager : String := ""
  SkipAutoUpdateIrmaSchemas : Bool := false
  ActingPartyCn : String := ""
  ContractValidators : List String := []
deriving DecidableEq, Repr

/-- A client behind the interface `services.ContractClient` or `services.OAuthClient`,
as far as `Auth.Configure` uses it: a name that identifies the value and what its
method `Configure` returns (`none` is a nil error). -/
structure ServiceClient where
  name : String
  Configure : Option Error
deriving DecidableEq, Repr

/-- What a run of `Auth.Configure` does outside the fields of the `Auth` value: the
clients it creates and the clients it configures, in order. -/
inductive AuthEvent where
  | NewContractInstance (cfg : AuthConfig)
  | ContractConfigure (client : ServiceClient)
  | NewOAuthService (contract : Option ServiceClient)
  | OAuthConfigure (client : ServiceClient)
deriving DecidableEq, Repr

/-- Go `Auth`, with the fields that `Configure` reads or writes.  A `sync.Once` is
represented by whether its `Do` has run; a client field is `none` when the interface
value is nil. -/
structure Auth where
  Config : AuthConfig
  configOnce : Bool := false
  configDone : Bool := false
  OAuth : Option ServiceClient := none
  oneOauthInstance : Bool := false
  Contract : Option ServiceClient := none
  oneContractInstance : Bool := false
deriving DecidableEq, Repr

/-- The functions that `auth.go` calls outside the package. -/
structure AuthLibraries where
  /-- Go `core.NutsConfig().GetEngineMode(mode)`. -/
  GetEngineMode : String → String
  /-- Go `validator.NewContractInstance(cfg, crypto, registry)`, for the configuration
  the `validator.Config` is copied from. -/
  NewContractInstance : AuthConfig → Option ServiceClient
  /-- Go `oauth.NewOAuthService(vendorID, crypto, registry, contract)`, which returns a
  pointer to a new `service`. -/
  NewOAuthService : Option ServiceClient → ServiceClient

/-- Go `Auth.ContractClient`: the `Auth` value after the call, what the call did, and
the client it returns. -/
def Auth.ContractClient (lib : AuthLibraries) (auth : Auth) :
    Auth × List AuthEvent × Option ServiceClient :=
  match auth.Contract with
  | some client => (auth, [], some client)
  | none =>
    if auth.oneContractInstance then (auth, [], auth.Contract)
    else
      let created := lib.NewContractInstance auth.Config
      ({ auth with Contract := created, oneContractInstance := true },
        [.NewContractInstance auth.Config], created)

/-- Go `Auth.OAuthClient`. -/
def Auth.OAuthClient (lib : AuthLibraries) (auth : Auth) :
    Auth × List AuthEvent × Option ServiceClient :=
  match auth.OAuth with
  | some client => (auth, [], some client)
  | none =>
    if auth.oneOauthInstance then (auth, [], auth.OAuth)
    else
      let created := lib.NewOAuthService auth.Contract
      ({ auth with OAuth := some created, oneOauthInstance := true },
        [.NewOAuthService auth.Contract], some created)

/-- The branch for the server mode of the function that Go `Auth.Configure` hands to
`configOnce.Do`: the `Auth` value after it, what it did, and how it ended (`.ok ()` is
a nil error).  Calling `Configure` on a nil client panics. -/
def Auth.configureServer (lib : AuthLibraries) (auth : Auth) : Auth × List AuthEvent × Res Unit :=
  let step1 := auth.ContractClient lib
  match step1.1.Contract with
  | none => (step1.1, step1.2.1, .fault)
  | some contract =>
    match contract.Configure with
    | some err => (step1.1, step1.2.1 ++ [.ContractConfigure contract], .error err)
    | none =>
      let step2 := step1.1.OAuthClient lib
      match step2.1.OAuth with
      | none => (step2.1, step1.2.1 ++ [.ContractConfigure contract] ++ step2.2.1, .fault)
      | some oauth =>
        match oauth.Configure with
        | some err =>
          (step2.1, step1.2.1 ++ [.ContractConfigure contract] ++ step2.2.1 ++
            [.OAuthConfigure oauth], .error err)
        | none =>
          ({ step2.1 with configDone := true },
            step1.2.1 ++ [.ContractConfigure contract] ++ step2.2.1 ++ [.OAuthConfigure oauth],
            .ok ())

/-- Go `Auth.Configure`: the `Auth` value after the call, what the call did, and how it
ended.  `sync.Once.Do` runs the function only when it has not run before, and marks the
`Once` as done when the function returns or panics. -/
def Auth.Configure (lib : AuthLibraries) (auth : Auth) : Auth × List AuthEvent × Res Unit :=
  if auth.configOnce then (auth, [], .ok ())
  else
    let auth := { auth with
      Config := { auth.Config with Mode := lib.GetEngineMode auth.Config.Mode } }
    let done :=
      if auth.Config.Mode = core.ServerEngineMode then auth.configureServer lib
      else (auth, [], .ok ())
    ({ done.1 with configOnce := true }, done.2.1, done.2.2)

/-- Sample libraries for `Auth.Configure`: the configured mode is kept, the contract
client that is created fails to configure with `contractError`. -/
def sampleAuthLibraries (contractError : Option Error) : AuthLibraries :=
  { GetEngineMode := fun mode => if mode = "" then "server" else mode
    NewContractInstance := fun _ => some { name := "contract", Configure := contractError }
    NewOAuthService := fun _ => { name := "oauth", Configure := none } }

/-- A fresh `Auth` value with the mode `mode`. -/
def sampleAuth (mode : String) : Auth :=
  { Config := { Mode := mode, Address := "localhost:1323", IrmaSchemeManager := "pbdf",
                ContractValidators := ["irma", "uzi"] } }

/-! ## IRMA: `pkg/services/irma/signer.go` -/

/-- Go `strings.Index(s, sep)` for a separator of one character: the index of its first
occurrence, or -1. -/
def strings.Index (s : String) (sep : Char) : Int :=
  if sep ∈ s.toList then (s.toList.indexOf sep : Nat) else -1

/-- irmago `SignedMessage`: the message that was signed; the rest of the signature is
represented by its serialisation. -/
structure SignedMessage where
  Message : String
  Proofs : String := ""
deriving DecidableEq, Repr

/-- irmago `server.SessionResult`, with the fields the service reads or copies. -/
structure SessionResult where
  Token : String
  Status : String
  ProofStatus : String := ""
  Signature : Option SignedMessage := none
deriving DecidableEq, Repr

/-- irmago `Qr`. -/
structure Qr where
  URL : String
  Type_ : String
deriving DecidableEq, Repr

/-- irmago `SignatureRequest`: the message to sign and the disclosure that is asked
for, an `AttributeConDisCon`: a list of disjunctions, each a list of conjunctions,
each a list of attribute requests; an attribute request is represented by its attribute
type identifier. -/
structure SignatureRequest where
  Message : String
  Disclose : List (List (List String)) := []
deriving DecidableEq, Repr

/-- irmago `NewSignatureRequest(message)`. -/
def irmago.NewSignatureRequest (message : String) : SignatureRequest := { Message := message }

/-- irmago `NewAttributeRequest(id)`. -/
def irmago.NewAttributeRequest (id : String) : String := id

/-- A call of the IRMA service or of the IRMA validator to a collaborator. -/
inductive IrmaCall where
  | StartSession (request : SignatureRequest)
  | GetSessionResult (token : String)
  | ReverseLookup (name : String)
  | SignJWT (claims : List (String × JsonValue)) (key : KeyIdentifier)

/-- Go `SignChallenge`. -/
structure SignChallenge where
  ID : String
  QrCodeInfo : Qr
deriving DecidableEq, Repr

/-- Modelled from the spec: the type `SignedIrmaContract` is declared in a file that is
not part of the sources; it pairs the signed message with the contract parsed from
it. -/
structure SignedIrmaContract where
  IrmaContract : SignedMessage
  Contract : Option Contract

/-- Go `SigningSessionResult`. -/
structure SigningSessionResult where
  SessionResult : SessionResult
  NutsAuthToken : String
deriving DecidableEq, Repr

/-- Go `services.ErrSessionNotFound` (`types.ErrSessionNotFound` in the older
package). -/
def services.ErrSessionNotFound : GoError := .sentinel "session not found"

/-- Modelled from the spec: the type `IrmaService` and its methods
`legalEntityFromContract` and `CreateIdentityTokenFromIrmaContract` are declared in a
file that is not part of the sources.  The value holds the scheme manager of the
configuration (`IrmaServiceConfig.IrmaSchemeManager`), the template store, and the
session handler with its methods `StartSession` and `GetSessionResult`; the two
methods that are missing are parameters. -/
structure IrmaService where
  IrmaSchemeManager : String
  ContractTemplates : TemplateStore
  StartSession : SignatureRequest → Except GoError (Qr × String)
  GetSessionResult : String → Option SessionResult
  legalEntityFromContract : SignedIrmaContract → Except GoError PartyID
  CreateIdentityTokenFromIrmaContract : SignedIrmaContract → PartyID → Except GoError String

/-- Go `IrmaService.StartSigningSession`: the calls to the session handler and how the
call ended.  `StandardContractTemplates` is the package variable of the contract
package, which is not part of the sources.  The QR code that the function prints is not
part of the model. -/
def IrmaService.StartSigningSession (lib : ContractLibraries)
    (StandardContractTemplates : TemplateStore) (v : IrmaService) (rawContractText : String) :
    List IrmaCall × Outcome SignChallenge :=
  let signatureRequest := irmago.NewSignatureRequest rawContractText
  let schemeManager := v.IrmaSchemeManager
  match ParseContractString lib rawContractText StandardContractTemplates with
  | .error err => ([], .error err)
  | .fault => ([], .fault)
  | .ok c =>
    match c.Template with
    | none => ([], .fault)
    | some template =>
      let attributes := template.SignerAttributes.foldl
        (fun attributes att =>
          let att := if strings.Index att '.' = 0 then schemeManager ++ att else att
          attributes ++ [irmago.NewAttributeRequest att])
        []
      let signatureRequest := { signatureRequest with Disclose := [[attributes]] }
      match v.StartSession signatureRequest with
      | .error err =>
        ([.StartSession signatureRequest],
          .error (.wrap ("error while creating session: " ++ err.Error) err))
      | .ok (sessionPointer, token) =>
        ([.StartSession signatureRequest], .ok { ID := token, QrCodeInfo := sessionPointer })

/-- Go `IrmaService.SigningSessionStatus`; an error stands for the Go pair
`(nil, err)`. -/
def IrmaService.SigningSessionStatus (lib : ContractLibraries) (v : IrmaService)
    (sessionID : String) : List IrmaCall × Outcome SigningSessionResult :=
  match v.GetSessionResult sessionID with
  | some result =>
    match result.Signature with
    | some signature =>
      match ParseContractString lib signature.Message v.ContractTemplates with
      | .fault => ([.GetSessionResult sessionID], .fault)
      | .error err => ([.GetSessionResult sessionID], .error err)
      | .ok c =>
        let sic : SignedIrmaContract := { IrmaContract := signature, Contract := some c }
        match v.legalEntityFromContract sic with
        | .error err =>
          ([.GetSessionResult sessionID],
            .error (.wrap ("could not create JWT for given session: " ++ err.Error) err))
        | .ok le =>
          match v.CreateIdentityTokenFromIrmaContract sic le with
          | .error err => ([.GetSessionResult sessionID], .error err)
          | .ok token =>
            ([.GetSessionResult sessionID], .ok { SessionResult := result, NutsAuthToken := token })
    | none =>
      ([.GetSessionResult sessionID], .ok { SessionResult := result, NutsAuthToken := "" })
  | none => ([.GetSessionResult sessionID], .error services.ErrSessionNotFound)

/-! ## IRMA: `pkg/methods/irma_validator.go` -/

/-- Go `types.IrmaFormat`. -/
def types.IrmaFormat : String := "irma"

/-- Modelled from the spec: the value `types.ErrLegalEntityNotProvided` is declared in
a file that is not part of the sources. -/
def types.ErrLegalEntityNotProvided : GoError := .sentinel "legalEntity not provided"

/-- Go `NutsIdentityToken`.  The field `Type` is named `Type_` here. -/
structure NutsIdentityToken extends StandardClaims where
  Type_ : String := ""
  Signature : String := ""
deriving DecidableEq, Repr

/-- What `encoding/json` makes of a `NutsIdentityToken` when it is marshalled and read
back as a map: the standard claims carry `omitempty`, so an empty string or a zero
number leaves no entry; `type` and `sig` are always present. -/
def NutsIdentityToken.toMap (payload : NutsIdentityToken) : List (String × JsonValue) :=
  (if payload.Audience = "" then [] else [("aud", .string payload.Audience)]) ++
  (if payload.ExpiresAt = 0 then [] else [("exp", .number payload.ExpiresAt)]) ++
  (if payload.Id = "" then [] else [("jti", .string payload.Id)]) ++
  (if payload.IssuedAt = 0 then [] else [("iat", .number payload.IssuedAt)]) ++
  (if payload.Issuer = "" then [] else [("iss", .string payload.Issuer)]) ++
  (if payload.NotBefore = 0 then [] else [("nbf", .number payload.NotBefore)]) ++
  (if payload.Subject = "" then [] else [("sub", .string payload.Subject)]) ++
  [("type", .string payload.Type_), ("sig", .string payload.Signature)]

/-- Go `convertPayloadToClaims`.  Marshalling a struct of strings and integers and
reading the result back as a map does not fail. -/
def convertPayloadToClaims (payload : NutsIdentityToken) :
    Except GoError (List (String × JsonValue)) :=
  .ok payload.toMap

/-- The template of the older contract package (`contract.ContractTemplate`), which is
not part of the sources; the validator only hands it on. -/
structure ContractTemplate where
  Type_ : String
  Language : String
  Version : String
deriving DecidableEq, Repr

/-- Go `SignedIrmaContract` of the package `methods`, declared in a file that is not
part of the sources: the signed message and the template found for it (nil when none
was found). -/
structure methods.SignedIrmaContract where
  IrmaContract : SignedMessage
  ContractTemplate : Option ContractTemplate
deriving DecidableEq, Repr

/-- Go `IrmaValidator`, with its collaborators (IRMA server, registry, crypto) and the
library functions it calls; the functions of the older contract package are not part
of the sources and are parameters. -/
structure IrmaValidator where
  /-- Go `IrmaServer.GetSessionResult`. -/
  GetSessionResult : String → Option SessionResult
  /-- Go `Registry.ReverseLookup`. -/
  ReverseLookup : String → Except GoError Organization
  /-- Go `Crypto.SignJWT`. -/
  SignJWT : List (String × JsonValue) → KeyIdentifier → Except GoError String
  /-- Go `contract.NewContractFromMessageContents(message, v.ValidContracts)`; the Go
  pair of a template, nil when none was found, and an error. -/
  NewContractFromMessageContents : String → Option ContractTemplate × Option GoError
  /-- Go `ContractTemplate.ExtractParams`. -/
  ExtractParams : ContractTemplate → String → Except GoError StringMap
  /-- Go `json.Marshal` of a signed message. -/
  jsonMarshal : SignedMessage → Except GoError String
  /-- Go `base64.StdEncoding.EncodeToString`. -/
  EncodeToString : String → String

/-- Go `cryptoTypes.KeyForEntity(cryptoTypes.LegalEntity{URI: uri})`. -/
def KeyForEntity (uri : String) : KeyIdentifier := { Owner := uri, Qualifier := "" }

/-- Go `IrmaValidator.legalEntityFromContract`.  A nil `ContractTemplate` is
dereferenced, which panics. -/
def IrmaValidator.legalEntityFromContract (v : IrmaValidator) (sic : methods.SignedIrmaContract) :
    List IrmaCall × Outcome PartyID :=
  match sic.ContractTemplate with
  | none => ([], .fault)
  | some template =>
    match v.ExtractParams template sic.IrmaContract.Message with
    | .error err => ([], .error err)
    | .ok params =>
      match params "legal_entity" with
      | none => ([], .error types.ErrLegalEntityNotProvided)
      | some name =>
        match v.ReverseLookup name with
        | .error err => ([.ReverseLookup name], .error err)
        | .ok le => ([.ReverseLookup name], .ok le.Identifier)

/-- Go `IrmaValidator.CreateIdentityTokenFromIrmaContract`. -/
def IrmaValidator.CreateIdentityTokenFromIrmaContract (v : IrmaValidator)
    (contract : methods.SignedIrmaContract) (legalEntity : PartyID) :
    List IrmaCall × Outcome String :=
  match v.jsonMarshal contract.IrmaContract with
  | .error err => ([], .error err)
  | .ok signature =>
    let encodedSignature := v.EncodeToString signature
    let payload : NutsIdentityToken :=
      { Issuer := legalEntity.String
        Signature := encodedSignature
        Type_ := types.IrmaFormat }
    match convertPayloadToClaims payload with
    | .error err => ([], .error (.wrap ("could not construct claims: " ++ err.Error) err))
    | .ok claims =>
      match v.SignJWT claims (KeyForEntity legalEntity.String) with
      | .error err =>
        ([.SignJWT claims (KeyForEntity legalEntity.String)],
          .error (.wrap ("could not sign jwt: " ++ err.Error) err))
      | .ok tokenString => ([.SignJWT claims (KeyForEntity legalEntity.String)], .ok tokenString)

/-- Go `types.SessionStatusResult`. -/
structure SessionStatusResult where
  SessionResult : SessionResult
  NutsAuthToken : String
deriving DecidableEq, Repr

/-- Go `IrmaValidator.SessionStatus`; an error stands for the Go pair `(nil, err)`. -/
def IrmaValidator.SessionStatus (v : IrmaValidator) (id : String) :
    List IrmaCall × Outcome SessionStatusResult :=
  match v.GetSessionResult id with
  | some result =>
    match result.Signature with
    | some signature =>
      let found := v.NewContractFromMessageContents signature.Message
      let sic : methods.SignedIrmaContract :=
        { IrmaContract := signature, ContractTemplate := found.1 }
      match found.2 with
      | some err => ([.GetSessionResult id], .error err)
      | none =>
        match v.legalEntityFromContract sic with
        | (calls, .fault) => (.GetSessionResult id :: calls, .fault)
        | (calls, .error err) =>
          (.GetSessionResult id :: calls,
            .error (.wrap ("could not create JWT for given session: " ++ err.Error) err))
        | (calls, .ok le) =>
          match v.CreateIdentityTokenFromIrmaContract sic le with
          | (calls2, .fault) => (.GetSessionResult id :: calls ++ calls2, .fault)
          | (calls2, .error err) => (.GetSessionResult id :: calls ++ calls2, .error err)
          | (calls2, .ok token) =>
            (.GetSessionResult id :: calls ++ calls2,
              .ok { SessionResult := result, NutsAuthToken := token })
    | none => ([.GetSessionResult id], .ok { SessionResult := result, NutsAuthToken := "" })
  | none => ([.GetSessionResult id], .error services.ErrSessionNotFound)

/-! ## Sample IRMA collaborators -/

/-- A signed message with the text of the sample contract. -/
def sampleSignedMessage : SignedMessage :=
  { Message := "NL:Test:v1 Demo EHR voor Zorg van dinsdag, 1 oktober 2019 13:30:42 tot dinsdag, 1 oktober 2019 14:30:42"
    Proofs := "proofs" }

/-- A sample IRMA service with the scheme manager `pbdf`: the session handler starts
every session with the token `token-1` and knows that one session, which is done and
signed. -/
def sampleIrmaService : IrmaService :=
  { IrmaSchemeManager := "pbdf"
    ContractTemplates := sampleStore
    StartSession := fun _ => .ok (⟨"https://nuts.example/auth/irmaclient/session/1", "signing"⟩, "token-1")
    GetSessionResult := fun token =>
      if token = "token-1" then
        some { Token := "token-1", Status := "DONE", ProofStatus := "VALID",
               Signature := some sampleSignedMessage }
      else none
    legalEntityFromContract := fun _ => .ok ⟨"urn:oid:2.16.840.1.113883.2.4.6.1:custodian"⟩
    CreateIdentityTokenFromIrmaContract := fun _ _ => .ok "identity-token" }

/-- A sample IRMA validator: the IRMA server knows the session `token-1`; the
serialisation and the base64 encoding are written symbolically. -/
def sampleIrmaValidator : IrmaValidator :=
  { GetSessionResult := fun token =>
      if token = "token-1" then
        some { Token := "token-1", Status := "DONE", ProofStatus := "VALID",
               Signature := some sampleSignedMessage }
      else none
    ReverseLookup := fun name =>
      if name = "Zorg" then
        .ok ⟨⟨"urn:oid:2.16.840.1.113883.2.4.6.1:custodian"⟩, ⟨"urn:oid:1.3.6.1.4.1.54851.4:vendorB"⟩⟩
      else .error (.fresh "organization not found")
    SignJWT := fun _ _ => .ok "identity-token"
    NewContractFromMessageContents := fun _ => (some ⟨"Test", "NL", "v1"⟩, none)
    ExtractParams := fun _ _ => .ok (StringMap.empty.set "legal_entity" "Zorg")
    jsonMarshal := fun message => .ok ("json(" ++ message.Message ++ ")")
    EncodeToString := fun bytes => "base64(" ++ bytes ++ ")" }

/-! ## Reasoning about runs -/

theorem Run.bind_def {α β : Type} (m : Run α) (f : α → Run β) : (m >>= f) = Run.bind m f := rfl

theorem Run.pure_def {α : Type} (a : α) : (Pure.pure a : Run α) = Run.pure a := rfl

theorem Run.eta {α : Type} (m : Run α) : m = ⟨m.trace, m.res⟩ := rfl

theorem Run.bind_eq_ok {α β : Type} {m : Run α} {f : α → Run β} {T : List Call} {b : β} :
    Run.bind m f = ⟨T, .ok b⟩ ↔
      ∃ a t1 t2, m = ⟨t1, .ok a⟩ ∧ f a = ⟨t2, .ok b⟩ ∧ T = t1 ++ t2 := by
  constructor
  · intro h
    rcases m with ⟨t1, r⟩
    cases r with
    | ok a =>
      simp only [Run.bind] at h
      injection h with h1 h2
      exact ⟨a, t1, (f a).trace, rfl, by rw [Run.eta (f a), h2], h1.symm⟩
    | error e => simp [Run.bind] at h
    | fault => simp [Run.bind] at h
  · rintro ⟨a, t1, t2, rfl, h2, rfl⟩
    simp [Run.bind, h2]

theorem Run.pure_eq_ok {α : Type} {a b : α} {T : List Call} :
    (Run.pure a : Run α) = ⟨T, .ok b⟩ ↔ a = b ∧ T = [] := by
  simp only [Run.pure, Run.mk.injEq, Res.ok.injEq]
  tauto

theorem Run.callE_eq_ok {α : Type} {c : Call} {answer : Except Error α} {wrap : Error → Error}
    {T : List Call} {b : α} :
    Run.callE c answer wrap = ⟨T, .ok b⟩ ↔ answer = .ok b ∧ T = [c] := by
  cases answer with
  | ok a =>
    simp only [Run.callE, Run.mk.injEq, Res.ok.injEq, Except.ok.injEq]
    tauto
  | error e => simp [Run.callE]

theorem Run.orFail_eq_ok {α : Type} {answer : Except Error α} {wrap : Error → Error}
    {T : List Call} {b : α} :
    Run.orFail answer wrap = ⟨T, .ok b⟩ ↔ answer = .ok b ∧ T = [] := by
  cases answer with
  | ok a =>
    simp only [Run.orFail, Run.pure, Run.mk.injEq, Res.ok.injEq, Except.ok.injEq]
    tauto
  | error e => simp [Run.orFail, Run.fail]

theorem Run.failIf_eq_ok {cond : Bool} {e : Error} {T : List Call} {u : Unit} :
    Run.failIf cond e = ⟨T, .ok u⟩ ↔ cond = false ∧ T = [] := by
  cases cond with
  | false =>
    simp [Run.failIf, Run.pure, eq_comm]
  | true => simp [Run.failIf, Run.fail]

theorem Run.bind_res_of_ok {α β : Type} {m : Run α} {f : α → Run β} {a : α} (h : m.res = .ok a) :
    (Run.bind m f).res = (f a).res := by
  simp [Run.bind, h]

theorem Run.bind_trace_of_ok {α β : Type} {m : Run α} {f : α → Run β} {a : α} (h : m.res = .ok a) :
    (Run.bind m f).trace = m.trace ++ (f a).trace := by
  simp [Run.bind, h]

theorem Run.bind_eq_fault {α β : Type} {m : Run α} {f : α → Run β} {T : List Call} :
    Run.bind m f = ⟨T, .fault⟩ ↔
      m = ⟨T, .fault⟩ ∨ ∃ a t1 t2, m = ⟨t1, .ok a⟩ ∧ f a = ⟨t2, .fault⟩ ∧ T = t1 ++ t2 := by
  constructor
  · intro h
    rcases m with ⟨t1, r⟩
    cases r with
    | ok a =>
      simp only [Run.bind] at h
      injection h with h1 h2
      exact Or.inr ⟨a, t1, (f a).trace, rfl, by rw [Run.eta (f a), h2], h1.symm⟩
    | error e => simp [Run.bind] at h
    | fault =>
      simp only [Run.bind] at h
      injection h with h1 h2
      exact Or.inl (by rw [h1])
  · rintro (rfl | ⟨a, t1, t2, rfl, h2, rfl⟩)
    · rfl
    · simp [Run.bind, h2]

theorem Run.bind_nil_ok {α β : Type} (a : α) (f : α → Run β) : Run.bind ⟨[], .ok a⟩ f = f a := rfl

theorem Run.pure_ne_fault {α : Type} {a : α} {T : List Call} :
    (Run.pure a : Run α) = ⟨T, .fault⟩ ↔ False := by
  simp [Run.pure]

theorem Run.fail_ne_fault {α : Type} {e : Error} {T : List Call} :
    (Run.fail e : Run α) = ⟨T, .fault⟩ ↔ False := by
  simp [Run.fail]

theorem Run.callE_ne_fault {α : Type} {c : Call} {answer : Except Error α} {wrap : Error → Error}
    {T : List Call} : Run.callE c answer wrap = ⟨T, .fault⟩ ↔ False := by
  cases answer <;> simp [Run.callE]

theorem Run.orFail_ne_fault {α : Type} {answer : Except Error α} {wrap : Error → Error}
    {T : List Call} : Run.orFail answer wrap = ⟨T, .fault⟩ ↔ False := by
  cases answer <;> simp [Run.orFail, Run.pure, Run.fail]

theorem Run.failIf_ne_fault {cond : Bool} {e : Error} {T : List Call} :
    Run.failIf cond e = ⟨T, .fault⟩ ↔ False := by
  cases cond <;> simp [Run.failIf, Run.pure, Run.fail]

/-! ## jwt-go: what a token marked `Valid` went through -/

theorem Run.attempt_orFail {α : Type} (answer : Except Error α) :
    (Run.orFail answer id).attempt = ⟨[], .ok answer⟩ := by
  cases answer <;> rfl

theorem ParseUnverified_not_valid {C : Type} {jwt : JwtGo C} {tokenString : String} {token : Token C}
    (h : ParseUnverified jwt tokenString = .ok token) : token.Valid = false := by
  unfold ParseUnverified at h
  cases hd : jwt.decode tokenString with
  | error e => simp [hd] at h
  | ok t =>
    simp only [hd, Except.ok.injEq] at h
    rw [← h]

/-- `ParseWithClaims` with a key function that calls no collaborator: the run makes
no call and returns; a token marked `Valid` passed every check and comes without an
error, and a nil error comes with a token marked `Valid`. -/
theorem ParseWithClaims_quiet {C : Type} (jwt : JwtGo C) (claimsValid : C → Int → Option Error)
    (TimeFunc : Time) (ValidMethods : Option (List String)) (tokenString : String)
    (keyFunc : Token C → Except Error String) :
    ∃ r, ParseWithClaims jwt claimsValid TimeFunc ValidMethods tokenString
        (fun token => Run.orFail (keyFunc token) id) = ⟨[], .ok r⟩ ∧
      (r.2 = none → ∃ t, r.1 = some t ∧ t.Valid = true) ∧
      ∀ t, r.1 = some t → t.Valid = true →
        r.2 = none ∧ ∃ token key, ParseUnverified jwt tokenString = .ok token ∧
          signingMethodValid ValidMethods token.Method = true ∧ keyFunc token = .ok key ∧
          jwt.Verify token.Method tokenString key = none ∧
          claimsValid token.Claims TimeFunc.Unix = none ∧ t = { token with Valid := true } := by
  unfold ParseWithClaims
  cases hu : ParseUnverified jwt tokenString with
  | error e => exact ⟨_, rfl, fun h => by simp at h, fun t ht => by simp at ht⟩
  | ok token =>
    have hnv := ParseUnverified_not_valid hu
    simp only
    cases hm : signingMethodValid ValidMethods token.Method with
    | false =>
      refine ⟨_, rfl, fun h => by simp at h, fun t ht hv => ?_⟩
      simp only [Option.some.injEq] at ht
      rw [← ht, hnv] at hv
      exact absurd hv (by decide)
    | true =>
      simp only [Run.bind_def, Run.attempt_orFail, Run.bind, List.nil_append]
      cases hk : keyFunc token with
      | error e =>
        refine ⟨_, rfl, fun h => by simp at h, fun t ht hv => ?_⟩
        simp only [Option.some.injEq] at ht
        rw [← ht, hnv] at hv
        exact absurd hv (by decide)
      | ok key =>
        simp only
        cases hs : jwt.Verify token.Method tokenString key with
        | some e =>
          refine ⟨_, rfl, fun h => by simp at h, fun t ht hv => ?_⟩
          simp only [Option.some.injEq] at ht
          rw [← ht, hnv] at hv
          exact absurd hv (by decide)
        | none =>
          cases hc : claimsValid token.Claims TimeFunc.Unix with
          | some e =>
            refine ⟨_, rfl, fun h => by simp at h, fun t ht hv => ?_⟩
            simp only [Option.some.injEq] at ht
            rw [← ht, hnv] at hv
            exact absurd hv (by decide)
          | none =>
            refine ⟨_, rfl, fun _ => ⟨_, rfl, rfl⟩,
              fun t ht _ => ⟨rfl, token, key, rfl, hm, hk, hs, hc, ?_⟩⟩
            simp only [Option.some.injEq] at ht
            exact ht.symm

theorem parseAndValidateJwtBearerToken_quiet (lib : Libraries) (acString : String) :
    ∃ r, parseAndValidateJwtBearerToken lib acString = ⟨[], .ok r⟩ ∧ (r.2 = none → r.1 ≠ none) := by
  unfold parseAndValidateJwtBearerToken
  obtain ⟨r, hr, hnone, -⟩ := ParseWithClaims_quiet lib.jwtBearer (fun c now => c.toStandardClaims.Valid now)
    lib.jwtTimeFunc lib.ValidJWTAlg acString
    (fun token => (getCertificateFromHeaders lib token).map (fun certificate => certificate.PublicKey))
  rw [hr]
  simp only [Run.bind_def, Run.bind]
  cases hr1 : r.1 with
  | none =>
    refine ⟨_, rfl, fun h2 => ?_⟩
    obtain ⟨t, ht, -⟩ := hnone h2
    rw [hr1] at ht
    exact absurd ht (by simp)
  | some t =>
    simp only
    cases hv : t.Valid with
    | true => exact ⟨_, rfl, fun _ => by simp⟩
    | false =>
      refine ⟨_, rfl, fun h2 => ?_⟩
      obtain ⟨t2, ht, hv2⟩ := hnone h2
      rw [hr1] at ht
      simp only [Option.some.injEq] at ht
      rw [← ht, hv] at hv2
      exact absurd hv2 (by decide)

theorem parseAndValidateJwtBearerToken_trace (lib : Libraries) (acString : String) :
    (parseAndValidateJwtBearerToken lib acString).trace = [] := by
  obtain ⟨r, hr, -⟩ := parseAndValidateJwtBearerToken_quiet lib acString
  rw [hr]

/-- What an accepted parse means in terms of the jwt-go primitives. -/
theorem parseAndValidateJwtBearerToken_some {lib : Libraries} {acString : String}
    {c : NutsJwtBearerToken} {err : Option Error}
    (h : (parseAndValidateJwtBearerToken lib acString).res = .ok (some c, err)) :
    err = none ∧
    ∃ token certificate, ParseUnverified lib.jwtBearer acString = .ok token ∧
      signingMethodValid lib.ValidJWTAlg token.Method = true ∧
      getCertificateFromHeaders lib token = .ok certificate ∧
      lib.jwtBearer.Verify token.Method acString certificate.PublicKey = none ∧
      token.Claims.toStandardClaims.Valid lib.jwtTimeFunc.Unix = none ∧
      c = { token.Claims with SigningCertificate := some certificate } := by
  unfold parseAndValidateJwtBearerToken at h
  obtain ⟨r, hr, -, hvalid⟩ := ParseWithClaims_quiet lib.jwtBearer (fun c now => c.toStandardClaims.Valid now)
    lib.jwtTimeFunc lib.ValidJWTAlg acString
    (fun token => (getCertificateFromHeaders lib token).map (fun certificate => certificate.PublicKey))
  rw [hr] at h
  simp only [Run.bind_def, Run.bind, List.nil_append] at h
  cases hr1 : r.1 with
  | none =>
    simp only [hr1] at h
    simp [pure, Run.pure] at h
  | some t =>
    simp only [hr1] at h
    cases hv : t.Valid with
    | false =>
      simp [hv, pure, Run.pure] at h
    | true =>
      simp only [hv, if_true] at h
      obtain ⟨h2, token, key, hu, hm, hk, hs, hc, ht⟩ := hvalid t hr1 hv
      cases hg : getCertificateFromHeaders lib token with
      | error e => simp [hg, Except.map] at hk
      | ok certificate =>
        simp only [hg, Except.map, Except.ok.injEq] at hk
        subst hk
        simp only [pure, Run.pure, Res.ok.injEq, Prod.mk.injEq, Option.some.injEq] at h
        refine ⟨h.2.symm, token, certificate, hu, hm, hg, hs, hc, ?_⟩
        rw [← h.1, ht]
        have hg2 : getCertificateFromHeaders lib { token with Valid := true } = .ok certificate := hg
        simp [hg2, Except.toOption]


/-! ## The exchange pipeline: what a successful run went through -/

theorem vendorMatch_trace (lib : Libraries) (actor : Organization) (chains : List (List Certificate)) :
    (vendorMatch lib actor chains).trace = [] := by
  induction chains with
  | nil => rfl
  | cons chain chains ih =>
    unfold vendorMatch
    cases chain.getLast? with
    | none => rfl
    | some root =>
      simp only
      split
      · rfl
      · exact ih

theorem vendorMatch_true {lib : Libraries} {actor : Organization} {chains : List (List Certificate)}
    (h : (vendorMatch lib actor chains).res = .ok true) :
    ∃ chain root, chain ∈ chains ∧ chain.getLast? = some root ∧
      (lib.VendorIDFromCertificate root).1.String = actor.Vendor.String := by
  induction chains with
  | nil => simp [vendorMatch, pure, Run.pure] at h
  | cons chain chains ih =>
    unfold vendorMatch at h
    cases hr : chain.getLast? with
    | none => simp [hr, Run.panic] at h
    | some root =>
      simp only [hr] at h
      split at h
      · rename_i hv
        exact ⟨chain, root, List.mem_cons_self _ _, hr, by simpa using hv⟩
      · obtain ⟨c, r, hc, hr2, hv⟩ := ih h
        exact ⟨c, r, List.mem_cons_of_mem _ hc, hr2, hv⟩

theorem buildAccessToken_eq_ok {now : Clock} {s : service} {c : NutsJwtBearerToken}
    {res : ContractValidationResult} {T : List Call} {token : String} :
    buildAccessToken now s c res = ⟨T, .ok token⟩ ↔
      res.ValidationResult = services.Valid ∧ c.Subject ≠ "" ∧
      s.crypto.SignJWT (accessTokenClaims now c res) s.oauthKeyEntity = .ok token ∧
      T = [Call.SignJWT (accessTokenClaims now c res) s.oauthKeyEntity] := by
  simp only [buildAccessToken, Run.bind_def, Run.bind_eq_ok, Run.callE_eq_ok, Run.failIf_eq_ok]
  constructor
  · rintro ⟨_, t1, t2, ⟨h1, rfl⟩, ⟨_, t3, t4, ⟨h2, rfl⟩, ⟨h3, rfl⟩, rfl⟩, rfl⟩
    refine ⟨by simpa using h1, by simpa using h2, h3, rfl⟩
  · rintro ⟨h1, h2, h3, rfl⟩
    exact ⟨(), [], _, ⟨by simpa using h1, rfl⟩, ⟨(), [], _, ⟨by simpa using h2, rfl⟩, ⟨h3, rfl⟩, rfl⟩, rfl⟩

/-- Everything a successful run of `CreateAccessToken` went through, and the calls it
made, in order. -/
theorem CreateAccessToken_ok_inv {lib : Libraries} {s : service} {request : CreateAccessTokenRequest}
    {T : List Call} {result : AccessTokenResult}
    (h : CreateAccessToken lib s request = ⟨T, .ok result⟩) :
    ∃ jwtBearerToken custPartyID custodian actorPartyID actor chains res accessToken,
      (parseAndValidateJwtBearerToken lib request.RawJwtBearerToken).res = .ok (some jwtBearerToken, none) ∧
      lib.ParsePartyID jwtBearerToken.Subject = .ok custPartyID ∧
      s.registry.OrganizationById custPartyID = .ok custodian ∧
      custodian.Vendor.String = lib.NutsConfigVendorID.String ∧
      lib.ParsePartyID jwtBearerToken.Issuer = .ok actorPartyID ∧
      s.registry.OrganizationById actorPartyID = .ok actor ∧
      s.crypto.TrustStore.VerifiedChain jwtBearerToken.SigningCertificate
        (time.Unix jwtBearerToken.IssuedAt 0) = .ok chains ∧
      chains ≠ [] ∧
      (vendorMatch lib actor chains).res = .ok true ∧
      ¬ (int64Sub jwtBearerToken.ExpiresAt jwtBearerToken.IssuedAt > OauthBearerTokenMaxValidity) ∧
      s.contractValidator.ValidateJwt jwtBearerToken.AuthTokenContainer request.VendorIdentifier = .ok res ∧
      res.ValidationResult = services.Valid ∧
      jwtBearerToken.Subject ≠ "" ∧
      (jwtBearerToken.SubjectID ≠ "" → ∃ legalBase,
        s.consent.QueryConsent jwtBearerToken.Issuer jwtBearerToken.Subject jwtBearerToken.SubjectID
          (time.Unix jwtBearerToken.IssuedAt 0) = .ok legalBase ∧ legalBase ≠ []) ∧
      s.crypto.SignJWT (accessTokenClaims lib.Now jwtBearerToken res) s.oauthKeyEntity = .ok accessToken ∧
      result = ⟨accessToken⟩ ∧
      T = [Call.OrganizationById custPartyID, Call.OrganizationById actorPartyID,
            Call.VerifiedChain jwtBearerToken.SigningCertificate (time.Unix jwtBearerToken.IssuedAt 0),
            Call.ValidateJwt jwtBearerToken.AuthTokenContainer request.VendorIdentifier] ++
          (if jwtBearerToken.SubjectID ≠ "" then
            [Call.QueryConsent jwtBearerToken.Issuer jwtBearerToken.Subject jwtBearerToken.SubjectID
              (time.Unix jwtBearerToken.IssuedAt 0)] else []) ++
          [Call.SignJWT (accessTokenClaims lib.Now jwtBearerToken res) s.oauthKeyEntity] := by
  simp only [CreateAccessToken, Run.bind_def, Run.pure_def, Run.bind_eq_ok] at h
  obtain ⟨parsed, t1, t2, hp, h, rfl⟩ := h
  have ht1 : t1 = [] := by
    have := parseAndValidateJwtBearerToken_trace lib request.RawJwtBearerToken
    rw [hp] at this
    exact this
  subst ht1
  have hp2 : (parseAndValidateJwtBearerToken lib request.RawJwtBearerToken).res = .ok parsed := by
    rw [hp]
  rcases parsed with ⟨_ | c, _ | e⟩
  · simp [Run.panic] at h
  · simp [Run.fail] at h
  · simp only [Run.bind_eq_ok, Run.callE_eq_ok, Run.orFail_eq_ok, Run.failIf_eq_ok, Run.pure_eq_ok] at h
    obtain ⟨custPartyID, _, _, ⟨h1, e1⟩, h⟩ := h
    obtain ⟨⟨custodian, _, _, ⟨h2, e2⟩, h⟩, e1'⟩ := h
    obtain ⟨⟨_, _, _, ⟨h3, e3⟩, h⟩, e2'⟩ := h
    obtain ⟨⟨actorPartyID, _, _, ⟨h4, e4⟩, h⟩, e3'⟩ := h
    obtain ⟨⟨actor, _, _, ⟨h5, e5⟩, h⟩, e4'⟩ := h
    obtain ⟨⟨chains, _, _, ⟨h6, e6⟩, h⟩, e5'⟩ := h
    obtain ⟨⟨_, _, _, ⟨h7, e7⟩, h⟩, e6'⟩ := h
    obtain ⟨⟨isMatch, tm, _, h8, h⟩, e7'⟩ := h
    obtain ⟨⟨_, _, _, ⟨h9, e9⟩, h⟩, e8'⟩ := h
    obtain ⟨⟨_, _, _, ⟨h10, e10⟩, h⟩, e9'⟩ := h
    obtain ⟨⟨res, _, _, ⟨h11, e11⟩, h⟩, e10'⟩ := h
    obtain ⟨⟨_, _, t3, ⟨h12, e12⟩, h13, e12'⟩, e11'⟩ := h
    subst e1 e2 e3 e4 e5 e6 e7 e9 e10 e11 e12 e11' e10' e9' e8' e7' e6' e5' e4' e3' e2' e1' e12'
    have htm : tm = [] := by
      have := vendorMatch_trace lib actor chains
      rw [h8] at this
      exact this
    subst htm
    have hm : isMatch = true := by simpa using h9
    subst hm
    have hchains : chains ≠ [] := by
      intro hc
      simp [hc] at h7
    have hlife : ¬ (int64Sub c.ExpiresAt c.IssuedAt > OauthBearerTokenMaxValidity) := by
      simpa using h10
    have hvend : custodian.Vendor.String = lib.NutsConfigVendorID.String := by simpa using h3
    have hmatch : (vendorMatch lib actor chains).res = .ok true := by rw [h8]
    by_cases hsid : c.SubjectID = ""
    · simp only [hsid, bne_self_eq_false, Bool.false_eq_true, if_false, Run.bind_eq_ok, Run.pure_eq_ok,
        buildAccessToken_eq_ok] at h13
      obtain ⟨_, _, _, ⟨-, rfl⟩, ⟨accessToken, _, _, ⟨hv, hs, hsign, rfl⟩, ⟨rfl, rfl⟩, rfl⟩, rfl⟩ := h13
      refine ⟨c, custPartyID, custodian, actorPartyID, actor, chains, res, accessToken, hp2, h1, h2,
        hvend, h4, h5, h6, hchains, hmatch, hlife, h11, hv, hs, ?_, hsign, rfl, ?_⟩
      · intro hne
        exact absurd hsid hne
      · simp [hsid]
    · have hb : (c.SubjectID != "") = true := by simpa using hsid
      simp only [hb, if_true, Run.bind_eq_ok, Run.pure_eq_ok, Run.callE_eq_ok, Run.failIf_eq_ok,
        buildAccessToken_eq_ok] at h13
      obtain ⟨legalBase, _, _, ⟨hq, rfl⟩, ⟨_, _, _, ⟨hl, rfl⟩, ⟨accessToken, _, _,
        ⟨hv, hs, hsign, rfl⟩, ⟨rfl, rfl⟩, rfl⟩, rfl⟩, rfl⟩ := h13
      refine ⟨c, custPartyID, custodian, actorPartyID, actor, chains, res, accessToken, hp2, h1, h2,
        hvend, h4, h5, h6, hchains, hmatch, hlife, h11, hv, hs, ?_, hsign, rfl, ?_⟩
      · intro _
        refine ⟨legalBase, hq, ?_⟩
        intro hc
        simp [hc] at hl
      · simp [hsid]
  · simp [Run.fail] at h

/-- The same, from the result of the run alone. -/
theorem CreateAccessToken_res_ok_inv {lib : Libraries} {s : service} {request : CreateAccessTokenRequest}
    {result : AccessTokenResult} (h : (CreateAccessToken lib s request).res = .ok result) :
    CreateAccessToken lib s request = ⟨(CreateAccessToken lib s request).trace, .ok result⟩ := by
  rw [← h]

theorem buildAccessToken_ne_fault {now : Clock} {s : service} {c : NutsJwtBearerToken}
    {res : ContractValidationResult} {T : List Call} :
    buildAccessToken now s c res = ⟨T, .fault⟩ ↔ False := by
  simp only [buildAccessToken, Run.bind_def, Run.bind_eq_fault, Run.callE_ne_fault, Run.failIf_ne_fault,
    and_false, exists_false, or_false, false_and]

/-- A run of `CreateAccessToken` that panics stopped in the loop over the verified
chains, before the lifetime check and before the contract validator was called. -/
theorem CreateAccessToken_fault_inv {lib : Libraries} {s : service} {request : CreateAccessTokenRequest}
    {T : List Call} (h : CreateAccessToken lib s request = ⟨T, .fault⟩) :
    ∃ jwtBearerToken custPartyID custodian actorPartyID actor chains,
      (parseAndValidateJwtBearerToken lib request.RawJwtBearerToken).res = .ok (some jwtBearerToken, none) ∧
      lib.ParsePartyID jwtBearerToken.Subject = .ok custPartyID ∧
      s.registry.OrganizationById custPartyID = .ok custodian ∧
      custodian.Vendor.String = lib.NutsConfigVendorID.String ∧
      lib.ParsePartyID jwtBearerToken.Issuer = .ok actorPartyID ∧
      s.registry.OrganizationById actorPartyID = .ok actor ∧
      s.crypto.TrustStore.VerifiedChain jwtBearerToken.SigningCertificate
        (time.Unix jwtBearerToken.IssuedAt 0) = .ok chains ∧
      (vendorMatch lib actor chains).res = .fault ∧
      T = [Call.OrganizationById custPartyID, Call.OrganizationById actorPartyID,
            Call.VerifiedChain jwtBearerToken.SigningCertificate (time.Unix jwtBearerToken.IssuedAt 0)] := by
  obtain ⟨r, hr, hnone⟩ := parseAndValidateJwtBearerToken_quiet lib request.RawJwtBearerToken
  have hp : (parseAndValidateJwtBearerToken lib request.RawJwtBearerToken).res = .ok r := by
    rw [hr]
  simp only [CreateAccessToken, Run.bind_def, Run.pure_def] at h
  rw [hr, Run.bind_nil_ok] at h
  clear hr
  rcases r with ⟨_ | c, _ | e⟩
  · exact absurd rfl (hnone rfl)
  · simp [Run.fail] at h
  · simp only [Run.bind_def, Run.pure_def, Run.bind_eq_fault, Run.callE_ne_fault, Run.orFail_ne_fault,
      Run.failIf_ne_fault, Run.pure_ne_fault, false_or, Run.callE_eq_ok, Run.orFail_eq_ok,
      Run.failIf_eq_ok] at h
    obtain ⟨custPartyID, _, _, ⟨h1, e1⟩, h⟩ := h
    obtain ⟨⟨custodian, _, _, ⟨h2, e2⟩, h⟩, e1'⟩ := h
    obtain ⟨⟨_, _, _, ⟨h3, e3⟩, h⟩, e2'⟩ := h
    obtain ⟨⟨actorPartyID, _, _, ⟨h4, e4⟩, h⟩, e3'⟩ := h
    obtain ⟨⟨actor, _, _, ⟨h5, e5⟩, h⟩, e4'⟩ := h
    obtain ⟨⟨chains, _, _, ⟨h6, e6⟩, h⟩, e5'⟩ := h
    obtain ⟨⟨_, _, _, ⟨h7, e7⟩, h⟩, e6'⟩ := h
    obtain ⟨h, e7'⟩ := h
    rcases h with h8 | ⟨isMatch, tm, _, h8, h⟩
    · have htm := vendorMatch_trace lib actor chains
      rw [h8] at htm
      simp only at htm
      subst e1 e2 e3 e4 e5 e6 e7 htm e7' e6' e5' e4' e3' e2' e1'
      exact ⟨c, custPartyID, custodian, actorPartyID, actor, chains, hp, h1, h2, by simpa using h3,
        h4, h5, h6, by rw [h8], by simp⟩
    · exfalso
      obtain ⟨⟨_, _, _, ⟨h9, e9⟩, h⟩, e8'⟩ := h
      obtain ⟨⟨_, _, _, ⟨h10, e10⟩, h⟩, e9'⟩ := h
      obtain ⟨⟨res, _, _, ⟨h11, e11⟩, h⟩, e10'⟩ := h
      obtain ⟨⟨_, _, t3, ⟨h12, e12⟩, h13, e12'⟩, e11'⟩ := h
      by_cases hsid : c.SubjectID = ""
      · simp only [hsid, bne_self_eq_false, Bool.false_eq_true, if_false, Run.bind_eq_fault,
          Run.pure_def, Run.pure_ne_fault, buildAccessToken_ne_fault, false_or, and_false, false_and,
          exists_false] at h13
      · have hb : (c.SubjectID != "") = true := by simpa using hsid
        simp only [hb, if_true, Run.bind_eq_fault, Run.pure_def, Run.pure_ne_fault, Run.callE_ne_fault,
          Run.failIf_ne_fault, buildAccessToken_ne_fault, false_or, and_false, false_and,
          exists_false] at h13
  · simp [Run.fail] at h

/-! ## The claims about the exchange (`CreateAccessToken`) -/

theorem parsed_unique {lib : Libraries} {raw : String} {c c' : NutsJwtBearerToken}
    (h : (parseAndValidateJwtBearerToken lib raw).res = .ok (some c, none))
    (h' : (parseAndValidateJwtBearerToken lib raw).res = .ok (some c', none)) : c' = c := by
  rw [h] at h'
  simpa using h'.symm

theorem Res.trichotomy {α : Type} (r : Res α) :
    (∃ a, r = .ok a) ∨ (∃ e, r = .error e) ∨ r = .fault := by
  cases r with
  | ok a => exact Or.inl ⟨a, rfl⟩
  | error e => exact Or.inr (Or.inl ⟨e, rfl⟩)
  | fault => exact Or.inr (Or.inr rfl)

theorem wrapInt64_of_isInt64 {x : Int} (h : isInt64 x) : wrapInt64 x = x := by
  unfold isInt64 at h
  unfold wrapInt64
  omega

/-- What the lifetime check of `CreateAccessToken` does establish: the `int64`
difference is at most 5, and so is the true difference whenever it fits in an
`int64`. -/
theorem CreateAccessToken_lifetime_int64 (lib : Libraries) (s : service)
    (request : CreateAccessTokenRequest) (result : AccessTokenResult)
    (h : (CreateAccessToken lib s request).res = .ok result) :
    ∃ c, (parseAndValidateJwtBearerToken lib request.RawJwtBearerToken).res = .ok (some c, none) ∧
      int64Sub c.ExpiresAt c.IssuedAt ≤ 5 ∧
      (isInt64 (c.ExpiresAt - c.IssuedAt) → c.ExpiresAt - c.IssuedAt ≤ 5) := by
  obtain ⟨c, _, _, _, _, _, _, _, hp, -, -, -, -, -, -, -, -, hlife, -⟩ :=
    CreateAccessToken_ok_inv (CreateAccessToken_res_ok_inv h)
  have h5 : int64Sub c.ExpiresAt c.IssuedAt ≤ 5 := by
    simpa [OauthBearerTokenMaxValidity] using hlife
  refine ⟨c, hp, h5, fun hfit => ?_⟩
  rw [int64Sub, wrapInt64_of_isInt64 hfit] at h5
  exact h5

/-- C1 (code defect): the sample assertion with `exp = 2^63 - 1` and `iat = -1`, both
`int64` values that pass the claim validation of jwt-go, is exchanged for an access
token although its lifetime `exp - iat` is `2^63` seconds: the `int64` subtraction
of the lifetime check wraps around to a negative number. -/
theorem CreateAccessToken_accepts_overflowing_lifetime :
    isInt64 overflowClaims.ExpiresAt ∧ isInt64 overflowClaims.IssuedAt ∧
    (parseAndValidateJwtBearerToken (sampleLibraries overflowClaims) sampleRequest.RawJwtBearerToken).res =
      .ok (some { overflowClaims with SigningCertificate := some sampleLeaf }, none) ∧
    int64Sub overflowClaims.ExpiresAt overflowClaims.IssuedAt = -9223372036854775808 ∧
    (CreateAccessToken (sampleLibraries overflowClaims)
      sampleServiceA sampleRequest).res =
      .ok ⟨"access-token"⟩ ∧
    overflowClaims.ExpiresAt - overflowClaims.IssuedAt = 9223372036854775808 ∧
    ¬ (overflowClaims.ExpiresAt - overflowClaims.IssuedAt ≤ 5) := by
  decide

/-- What the loop over the verified chains does establish: some chain has a root for
which `VendorIDFromCertificate` returned a value rendering like the actor's vendor,
whether or not it also returned an error. -/
theorem CreateAccessToken_vendor_value_match (lib : Libraries) (s : service)
    (request : CreateAccessTokenRequest) (result : AccessTokenResult)
    (h : (CreateAccessToken lib s request).res = .ok result) :
    ∃ c actorPartyID actor chains chain root,
      (parseAndValidateJwtBearerToken lib request.RawJwtBearerToken).res = .ok (some c, none) ∧
      lib.ParsePartyID c.Issuer = .ok actorPartyID ∧
      s.registry.OrganizationById actorPartyID = .ok actor ∧
      s.crypto.TrustStore.VerifiedChain c.SigningCertificate (time.Unix c.IssuedAt 0) = .ok chains ∧
      chain ∈ chains ∧ chain.getLast? = some root ∧
      (lib.VendorIDFromCertificate root).1.String = actor.Vendor.String := by
  obtain ⟨c, _, _, actorPartyID, actor, chains, _, _, hp, -, -, -, h4, h5, h6, -, hm, -⟩ :=
    CreateAccessToken_ok_inv (CreateAccessToken_res_ok_inv h)
  obtain ⟨chain, root, hc, hr, hv⟩ := vendorMatch_true hm
  exact ⟨c, actorPartyID, actor, chains, chain, root, hp, h4, h5, h6, hc, hr, hv⟩

/-- C2 (code defect): in the sample deployment where no vendor identifier can be read
from the root (`VendorIDFromCertificate` returns the zero identifier and an error) and
the registry lists the actor without a vendor, the only verified chain is counted as a
match and an access token is returned: the extraction error is dropped. -/
theorem CreateAccessToken_accepts_failed_vendor_extraction :
    (sampleService ⟨""⟩ (.ok sampleValidation) (.ok [⟨"consent-1"⟩])).crypto.TrustStore.VerifiedChain
      (some sampleLeaf) (time.Unix sampleClaims.IssuedAt 0) = .ok [[sampleLeaf, sampleRoot]] ∧
    (noVendorSanLibraries sampleClaims).VendorIDFromCertificate sampleRoot =
      (⟨""⟩, some "missing vendor SAN") ∧
    (CreateAccessToken (noVendorSanLibraries sampleClaims)
      (sampleService ⟨""⟩ (.ok sampleValidation) (.ok [⟨"consent-1"⟩])) sampleRequest).res =
      .ok ⟨"access-token"⟩ :=
  ⟨rfl, rfl, by decide⟩

/-- C3: when `CreateAccessToken` returns an access token for an assertion with a
non-empty `sid`, the consent store was queried with actor `iss`, custodian `sub`,
subject `sid` at time `iat`, and answered a non-empty list without error; when the
query fails or answers the empty list, no token is returned. -/
theorem CreateAccessToken_consent_gate (lib : Libraries) (s : service)
    (request : CreateAccessTokenRequest) (c : NutsJwtBearerToken)
    (hp : (parseAndValidateJwtBearerToken lib request.RawJwtBearerToken).res = .ok (some c, none))
    (hsid : c.SubjectID ≠ "") :
    (∀ result, (CreateAccessToken lib s request).res = .ok result →
      Call.QueryConsent c.Issuer c.Subject c.SubjectID (time.Unix c.IssuedAt 0) ∈
        (CreateAccessToken lib s request).trace ∧
      ∃ legalBase, s.consent.QueryConsent c.Issuer c.Subject c.SubjectID (time.Unix c.IssuedAt 0) =
        .ok legalBase ∧ legalBase ≠ []) ∧
    ((∀ legalBase, s.consent.QueryConsent c.Issuer c.Subject c.SubjectID (time.Unix c.IssuedAt 0) =
        .ok legalBase → legalBase = []) →
      ∀ result, (CreateAccessToken lib s request).res ≠ .ok result) := by
  have key : ∀ result, (CreateAccessToken lib s request).res = .ok result →
      Call.QueryConsent c.Issuer c.Subject c.SubjectID (time.Unix c.IssuedAt 0) ∈
        (CreateAccessToken lib s request).trace ∧
      ∃ legalBase, s.consent.QueryConsent c.Issuer c.Subject c.SubjectID (time.Unix c.IssuedAt 0) =
        .ok legalBase ∧ legalBase ≠ [] := by
    intro result h
    have h' := CreateAccessToken_res_ok_inv h
    obtain ⟨c', _, _, _, _, _, _, _, hp', -, -, -, -, -, -, -, -, -, -, -, -, hq, -, -, hT⟩ :=
      CreateAccessToken_ok_inv h'
    rw [hp] at hp'
    simp only [Res.ok.injEq, Prod.mk.injEq, Option.some.injEq, and_true] at hp'
    subst hp'
    refine ⟨?_, hq hsid⟩
    rw [hT]
    simp [hsid]
  refine ⟨key, fun hempty result h => ?_⟩
  obtain ⟨-, legalBase, hq, hne⟩ := key result h
  exact hne (hempty legalBase hq)

/-- C3, at the sample assertion. -/
theorem CreateAccessToken_consent_gate_witness :
    Call.QueryConsent sampleClaims.Issuer sampleClaims.Subject sampleClaims.SubjectID
        (time.Unix sampleClaims.IssuedAt 0) ∈
      (CreateAccessToken (sampleLibraries sampleClaims)
        sampleServiceA sampleRequest).trace ∧
    ∃ legalBase, sampleServiceA.consent.QueryConsent
      sampleClaims.Issuer sampleClaims.Subject sampleClaims.SubjectID (time.Unix sampleClaims.IssuedAt 0) =
        .ok legalBase ∧ legalBase ≠ [] :=
  (CreateAccessToken_consent_gate (sampleLibraries sampleClaims)
    sampleServiceA sampleRequest
    { sampleClaims with SigningCertificate := some sampleLeaf } (by decide) (by decide)).1
    ⟨"access-token"⟩ (by decide)

/-- C4, as the claim states it, does not hold: the sample assertion with an empty `sub`,
which the parser of party identifiers rejects, and with an `exp` in the past is refused
with the error of the validation of the assertion, which runs first, and not with an
`invalid jwt.subject` error; the registry is not asked. -/
theorem CreateAccessToken_validation_error_before_subject :
    ((ParseUnverified
        (sampleLibraries { sampleClaims with Subject := "", ExpiresAt := 1600000001 }).jwtBearer
        "bearer").toOption.map (fun token => token.Claims.Subject)) = some "" ∧
    ((sampleLibraries { sampleClaims with Subject := "", ExpiresAt := 1600000001 }).ParsePartyID
        "").toOption = none ∧
    (CreateAccessToken (sampleLibraries { sampleClaims with Subject := "", ExpiresAt := 1600000001 })
        sampleServiceA sampleRequest) =
      ⟨[], .error "jwt bearer token validation failed: token is expired"⟩ ∧
    "invalid jwt.subject".toList.isPrefixOf
      "jwt bearer token validation failed: token is expired".toList = false := by
  decide

/-- C4 (amended): for an assertion that passed `parseAndValidateJwtBearerToken`,
`CreateAccessToken` returns an error starting with `invalid jwt.subject: `, and no
token, when `sub` does not parse as a party identifier, when the registry cannot
resolve it, or when the resolved organisation's vendor differs from the configured
vendor identifier; so a returned token implies that the custodian's vendor equals the
configured vendor. -/
theorem CreateAccessToken_invalid_subject (lib : Libraries) (s : service)
    (request : CreateAccessTokenRequest) (c : NutsJwtBearerToken)
    (hp : (parseAndValidateJwtBearerToken lib request.RawJwtBearerToken).res = .ok (some c, none)) :
    (((∃ err, lib.ParsePartyID c.Subject = .error err) ∨
      (∃ id err, lib.ParsePartyID c.Subject = .ok id ∧ s.registry.OrganizationById id = .error err) ∨
      (∃ id org, lib.ParsePartyID c.Subject = .ok id ∧ s.registry.OrganizationById id = .ok org ∧
        org.Vendor.String ≠ lib.NutsConfigVendorID.String)) →
      ∃ inner, (CreateAccessToken lib s request).res = .error ("invalid jwt.subject: " ++ inner)) ∧
    (∀ result, (CreateAccessToken lib s request).res = .ok result →
      ∃ id org, lib.ParsePartyID c.Subject = .ok id ∧ s.registry.OrganizationById id = .ok org ∧
        org.Vendor.String = lib.NutsConfigVendorID.String) := by
  constructor
  · intro hbad
    unfold CreateAccessToken
    rw [Run.bind_def, Run.bind_res_of_ok hp]
    simp only [Run.bind_def]
    rcases hbad with ⟨err, h1⟩ | ⟨id, err, h1, h2⟩ | ⟨id, org, h1, h2, h3⟩
    · exact ⟨err, by simp [h1, Run.orFail, Run.fail, Run.bind, errorf, errInvalidSubjectFmt]⟩
    · exact ⟨err, by simp [h1, h2, Run.orFail, Run.callE, Run.pure, Run.bind, errorf, errInvalidSubjectFmt]⟩
    · exact ⟨"organisation.vendor doesn't match with vendorID of this node", by
        simp [h1, h2, h3, Run.orFail, Run.callE, Run.failIf, Run.fail, Run.pure, Run.bind, errorf,
          errInvalidSubjectFmt]⟩
  · intro result h
    obtain ⟨c', id, org, _, _, _, _, _, hp', h1, h2, h3, -⟩ :=
      CreateAccessToken_ok_inv (CreateAccessToken_res_ok_inv h)
    have := parsed_unique hp hp'
    subst this
    exact ⟨id, org, h1, h2, h3⟩

/-- C4 (amended), at the sample assertion presented to a node whose registry lists the
custodian under another vendor than the configured one. -/
theorem CreateAccessToken_invalid_subject_witness :
    ∃ inner, (CreateAccessToken { sampleLibraries sampleClaims with NutsConfigVendorID := vendorA }
      sampleServiceA sampleRequest).res =
        .error ("invalid jwt.subject: " ++ inner) :=
  (CreateAccessToken_invalid_subject { sampleLibraries sampleClaims with NutsConfigVendorID := vendorA }
    sampleServiceA sampleRequest
    { sampleClaims with SigningCertificate := some sampleLeaf } (by decide)).1
    (Or.inr (Or.inr ⟨⟨"urn:oid:2.16.840.1.113883.2.4.6.1:custodian"⟩,
      ⟨⟨"urn:oid:2.16.840.1.113883.2.4.6.1:custodian"⟩, ⟨"urn:oid:1.3.6.1.4.1.54851.4:vendorB"⟩⟩,
      rfl, rfl, by decide⟩))

/-- C5: when `CreateAccessToken` returns an access token, `ValidateJwt` was called on
the `usi` claim with the vendor identifier of the request and returned, without error,
a result whose state is exactly `VALID`; with any other state no token is returned, and
a run that got as far as calling the validator ends in an error. -/
theorem CreateAccessToken_identity_valid (lib : Libraries) (s : service)
    (request : CreateAccessTokenRequest) (c : NutsJwtBearerToken)
    (hp : (parseAndValidateJwtBearerToken lib request.RawJwtBearerToken).res = .ok (some c, none)) :
    (∀ result, (CreateAccessToken lib s request).res = .ok result →
      Call.ValidateJwt c.AuthTokenContainer request.VendorIdentifier ∈
        (CreateAccessToken lib s request).trace ∧
      ∃ res, s.contractValidator.ValidateJwt c.AuthTokenContainer request.VendorIdentifier = .ok res ∧
        res.ValidationResult = "VALID") ∧
    (∀ res, s.contractValidator.ValidateJwt c.AuthTokenContainer request.VendorIdentifier = .ok res →
      res.ValidationResult ≠ "VALID" →
      (∀ result, (CreateAccessToken lib s request).res ≠ .ok result) ∧
      (Call.ValidateJwt c.AuthTokenContainer request.VendorIdentifier ∈
          (CreateAccessToken lib s request).trace →
        ∃ e, (CreateAccessToken lib s request).res = .error e)) := by
  have key : ∀ result, (CreateAccessToken lib s request).res = .ok result →
      Call.ValidateJwt c.AuthTokenContainer request.VendorIdentifier ∈
        (CreateAccessToken lib s request).trace ∧
      ∃ res, s.contractValidator.ValidateJwt c.AuthTokenContainer request.VendorIdentifier = .ok res ∧
        res.ValidationResult = "VALID" := by
    intro result h
    obtain ⟨c', _, _, _, _, _, res, _, hp', -, -, -, -, -, -, -, -, -, hv, hvalid, -, -, -, -, hT⟩ :=
      CreateAccessToken_ok_inv (CreateAccessToken_res_ok_inv h)
    have := parsed_unique hp hp'
    subst this
    refine ⟨?_, res, hv, hvalid⟩
    rw [hT]
    simp
  refine ⟨key, fun res hv hne => ?_⟩
  have hnot : ∀ result, (CreateAccessToken lib s request).res ≠ .ok result := by
    intro result h
    obtain ⟨-, res', hv', hvalid⟩ := key result h
    rw [hv] at hv'
    simp only [Except.ok.injEq] at hv'
    subst hv'
    exact hne hvalid
  refine ⟨hnot, fun hmem => ?_⟩
  rcases Res.trichotomy (CreateAccessToken lib s request).res with ⟨a, h⟩ | h | h
  · exact absurd h (hnot a)
  · exact h
  · exfalso
    have h' : CreateAccessToken lib s request = ⟨(CreateAccessToken lib s request).trace, .fault⟩ := by
      rw [← h]
    obtain ⟨_, _, _, _, _, _, -, -, -, -, -, -, -, -, hT⟩ := CreateAccessToken_fault_inv h'
    rw [hT] at hmem
    simp at hmem

/-- C5, at the sample assertion: with a `VALID` identity a token is returned after
the validator was called; with the state `EXPIRED` the run ends in an error. -/
theorem CreateAccessToken_identity_valid_witness :
    (Call.ValidateJwt sampleClaims.AuthTokenContainer sampleRequest.VendorIdentifier ∈
        (CreateAccessToken (sampleLibraries sampleClaims) sampleServiceA sampleRequest).trace ∧
      ∃ res, sampleServiceA.contractValidator.ValidateJwt sampleClaims.AuthTokenContainer
        sampleRequest.VendorIdentifier = .ok res ∧ res.ValidationResult = "VALID") ∧
    ∃ e, (CreateAccessToken (sampleLibraries sampleClaims)
      (sampleService vendorA (.ok { ValidationResult := "EXPIRED" }) (.ok [⟨"consent-1"⟩]))
      sampleRequest).res = .error e :=
  ⟨(CreateAccessToken_identity_valid (sampleLibraries sampleClaims) sampleServiceA sampleRequest
      { sampleClaims with SigningCertificate := some sampleLeaf } (by decide)).1
      ⟨"access-token"⟩ (by decide),
    ((CreateAccessToken_identity_valid (sampleLibraries sampleClaims)
      (sampleService vendorA (.ok { ValidationResult := "EXPIRED" }) (.ok [⟨"consent-1"⟩]))
      sampleRequest { sampleClaims with SigningCertificate := some sampleLeaf } (by decide)).2
      { ValidationResult := "EXPIRED" } rfl (by decide)).2 (by decide)⟩

/-- C6 (as stated, refuted): the sample assertion is exchanged for an access token when
its `aud` claim is missing, when its `exp` claim is missing, and when both `iat` and
`exp` are missing; each of these claim sets passes the claim validation of jwt-go. -/
theorem CreateAccessToken_accepts_missing_claims :
    ((CreateAccessToken (sampleLibraries { sampleClaims with Audience := "" })
        sampleServiceA sampleRequest).res =
        .ok ⟨"access-token"⟩) ∧
    ((CreateAccessToken (sampleLibraries { sampleClaims with ExpiresAt := 0 })
        sampleServiceA sampleRequest).res =
        .ok ⟨"access-token"⟩) ∧
    ((CreateAccessToken (sampleLibraries { sampleClaims with ExpiresAt := 0, IssuedAt := 0 })
        sampleServiceA sampleRequest).res =
        .ok ⟨"access-token"⟩) := by
  decide

/-- C6 (amended): for an assertion that parsed, a missing `iss` or a missing `sub`
(the empty string) makes `CreateAccessToken` return an error, provided the parser of
party identifiers rejects the empty string; and no access token is returned when `iat`
is missing (zero) while `exp` is greater than 5. -/
theorem CreateAccessToken_missing_issuer_or_subject (lib : Libraries) (s : service)
    (request : CreateAccessTokenRequest) (c : NutsJwtBearerToken)
    (hp : (parseAndValidateJwtBearerToken lib request.RawJwtBearerToken).res = .ok (some c, none)) :
    ((∃ err, lib.ParsePartyID "" = .error err) → (c.Issuer = "" ∨ c.Subject = "") →
      ∃ e, (CreateAccessToken lib s request).res = .error e) ∧
    (c.IssuedAt = 0 → 5 < c.ExpiresAt → isInt64 c.ExpiresAt →
      ∀ result, (CreateAccessToken lib s request).res ≠ .ok result) := by
  constructor
  · rintro ⟨err, herr⟩ hmiss
    rcases Res.trichotomy (CreateAccessToken lib s request).res with ⟨a, h⟩ | h | h
    · exfalso
      obtain ⟨c', _, _, _, _, _, _, _, hp', h1, -, -, h4, -⟩ :=
        CreateAccessToken_ok_inv (CreateAccessToken_res_ok_inv h)
      have := parsed_unique hp hp'
      subst this
      rcases hmiss with hm | hm
      · rw [hm, herr] at h4
        exact absurd h4 (by simp)
      · rw [hm, herr] at h1
        exact absurd h1 (by simp)
    · exact h
    · exfalso
      have h' : CreateAccessToken lib s request = ⟨(CreateAccessToken lib s request).trace, .fault⟩ := by
        rw [← h]
      obtain ⟨c', _, _, _, _, _, hp', h1, -, -, h4, -⟩ := CreateAccessToken_fault_inv h'
      have := parsed_unique hp hp'
      subst this
      rcases hmiss with hm | hm
      · rw [hm, herr] at h4
        exact absurd h4 (by simp)
      · rw [hm, herr] at h1
        exact absurd h1 (by simp)
  · intro hiat hexp h64 result h
    obtain ⟨c', _, _, _, _, _, _, _, hp', -, -, -, -, -, -, -, -, hlife, -⟩ :=
      CreateAccessToken_ok_inv (CreateAccessToken_res_ok_inv h)
    have := parsed_unique hp hp'
    subst this
    apply hlife
    rw [hiat, int64Sub, sub_zero, wrapInt64_of_isInt64 h64]
    exact hexp

/-- C6 (amended), at the sample assertion without `iss`. -/
theorem CreateAccessToken_missing_issuer_or_subject_witness :
    ∃ e, (CreateAccessToken (sampleLibraries { sampleClaims with Issuer := "" })
      sampleServiceA sampleRequest).res = .error e :=
  (CreateAccessToken_missing_issuer_or_subject (sampleLibraries { sampleClaims with Issuer := "" })
    sampleServiceA sampleRequest
    { sampleClaims with Issuer := "", SigningCertificate := some sampleLeaf } (by decide)).1
    ⟨"empty party identifier", rfl⟩ (Or.inl rfl)

/-! ## The claims about minting (`buildAccessToken`) and about building a bearer assertion -/

theorem Time.Unix_Add_seconds (t : Time) (n : Int) : (t.Add (n * time.Second)).Unix = t.Unix + n := by
  unfold Time.Add Time.Unix time.Second
  simp only
  exact Int.add_mul_ediv_right _ _ (by decide)

/-- C7: for a bearer token with a non-empty `sub` and a `VALID` identity validation
result, the claims `buildAccessToken` hands to the signer have `iss` = the bearer's
`sub`, `sub` = the bearer's `iss`, `sid` and `scope` copied from the bearer, and the
five name and e-mail claims read from the disclosed attributes under their well-known
keys, the empty string standing for an absent key. -/
theorem buildAccessToken_claims (now : Clock) (s : service) (c : NutsJwtBearerToken)
    (res : ContractValidationResult) (hsub : c.Subject ≠ "") (hvalid : res.ValidationResult = "VALID") :
    ∃ tok : NutsAccessToken,
      (buildAccessToken now s c res).trace = [Call.SignJWT tok s.oauthKeyEntity] ∧
      tok.Issuer = c.Subject ∧ tok.Subject = c.Issuer ∧
      tok.SubjectID = c.SubjectID ∧ tok.Scope = c.Scope ∧
      tok.FamilyName = (res.DisclosedAttributes.lookup "gemeente.personalData.familyname").getD "" ∧
      tok.GivenName = (res.DisclosedAttributes.lookup "gemeente.personalData.firstnames").getD "" ∧
      tok.Prefix = (res.DisclosedAttributes.lookup "gemeente.personalData.prefix").getD "" ∧
      tok.Name = (res.DisclosedAttributes.lookup "gemeente.personalData.fullname").getD "" ∧
      tok.Email = (res.DisclosedAttributes.lookup "pbdf.email.email").getD "" := by
  refine ⟨accessTokenClaims now c res, ?_, rfl, rfl, rfl, rfl, rfl, rfl, rfl, rfl, rfl⟩
  have h1 : (res.ValidationResult != services.Valid) = false := by
    simp [hvalid, services.Valid]
  have h2 : (c.Subject == "") = false := by simpa using hsub
  simp only [buildAccessToken, Run.bind_def, h1, h2, Run.failIf, Run.pure, Run.bind, Run.callE]
  cases s.crypto.SignJWT (accessTokenClaims now c res) s.oauthKeyEntity <;> simp

/-- C7, at the sample assertion and the sample identity. -/
theorem buildAccessToken_claims_witness :
    ∃ tok : NutsAccessToken,
      (buildAccessToken (fun _ => time.Unix 1600000002 0) sampleServiceA sampleClaims sampleValidation).trace =
        [Call.SignJWT tok sampleServiceA.oauthKeyEntity] ∧
      tok.Issuer = sampleClaims.Subject ∧ tok.Subject = sampleClaims.Issuer ∧
      tok.SubjectID = sampleClaims.SubjectID ∧ tok.Scope = sampleClaims.Scope ∧
      tok.FamilyName = (sampleValidation.DisclosedAttributes.lookup "gemeente.personalData.familyname").getD "" ∧
      tok.GivenName = (sampleValidation.DisclosedAttributes.lookup "gemeente.personalData.firstnames").getD "" ∧
      tok.Prefix = (sampleValidation.DisclosedAttributes.lookup "gemeente.personalData.prefix").getD "" ∧
      tok.Name = (sampleValidation.DisclosedAttributes.lookup "gemeente.personalData.fullname").getD "" ∧
      tok.Email = (sampleValidation.DisclosedAttributes.lookup "pbdf.email.email").getD "" :=
  buildAccessToken_claims (fun _ => time.Unix 1600000002 0) sampleServiceA sampleClaims sampleValidation
    (by decide) rfl

/-- C8 (as stated, refuted): when the clock passes a second boundary between the two
readings `buildAccessToken` takes, the minted token has `ExpiresAt - IssuedAt = 899`. -/
theorem buildAccessToken_lifetime_899 :
    buildAccessToken tickingClock sampleServiceA sampleClaims sampleValidation =
      ⟨[Call.SignJWT (accessTokenClaims tickingClock sampleClaims sampleValidation)
        sampleServiceA.oauthKeyEntity], .ok "access-token"⟩ ∧
    (accessTokenClaims tickingClock sampleClaims sampleValidation).ExpiresAt = 1600000900 ∧
    (accessTokenClaims tickingClock sampleClaims sampleValidation).IssuedAt = 1600000001 ∧
    (accessTokenClaims tickingClock sampleClaims sampleValidation).ExpiresAt -
      (accessTokenClaims tickingClock sampleClaims sampleValidation).IssuedAt ≠ 900 := by
  decide

/-- C8 (amended): every access token minted by `buildAccessToken` has `ExpiresAt` = the
first clock reading in seconds plus 900 and `IssuedAt` = the second clock reading in
seconds; so `ExpiresAt - IssuedAt = 900` when both readings fall in the same second,
and `ExpiresAt - IssuedAt ≤ 900` when the clock does not run backwards in between. -/
theorem buildAccessToken_lifetime (now : Clock) (s : service) (c : NutsJwtBearerToken)
    (res : ContractValidationResult) (token : String)
    (h : (buildAccessToken now s c res).res = .ok token) :
    ∃ tok : NutsAccessToken,
      (buildAccessToken now s c res).trace = [Call.SignJWT tok s.oauthKeyEntity] ∧
      s.crypto.SignJWT tok s.oauthKeyEntity = .ok token ∧
      tok.ExpiresAt = (now 0).Unix + 900 ∧ tok.IssuedAt = (now 1).Unix ∧
      ((now 0).Unix = (now 1).Unix → tok.ExpiresAt - tok.IssuedAt = 900) ∧
      ((now 0).nanos ≤ (now 1).nanos → tok.ExpiresAt - tok.IssuedAt ≤ 900) := by
  have h' : buildAccessToken now s c res = ⟨(buildAccessToken now s c res).trace, .ok token⟩ := by
    rw [← h]
  obtain ⟨-, -, hsign, hT⟩ := buildAccessToken_eq_ok.mp h'
  have hexp : (accessTokenClaims now c res).ExpiresAt = (now 0).Unix + 900 := by
    have := Time.Unix_Add_seconds (now 0) 900
    simpa [accessTokenClaims, time.Minute, time.Second, Time.Add, Time.Unix] using this
  have hiat : (accessTokenClaims now c res).IssuedAt = (now 1).Unix := rfl
  refine ⟨accessTokenClaims now c res, hT, hsign, hexp, hiat, fun hsame => ?_, fun hmono => ?_⟩
  · rw [hexp, hiat, hsame]
    omega
  · rw [hexp, hiat]
    have : (now 0).Unix ≤ (now 1).Unix := by
      unfold Time.Unix
      exact Int.ediv_le_ediv (by decide) hmono
    omega

/-- C8 (amended), at the sample assertion with a fixed clock. -/
theorem buildAccessToken_lifetime_witness :
    ∃ tok : NutsAccessToken,
      (buildAccessToken (fun _ => time.Unix 1600000002 0) sampleServiceA sampleClaims sampleValidation).trace =
        [Call.SignJWT tok sampleServiceA.oauthKeyEntity] ∧
      sampleServiceA.crypto.SignJWT tok sampleServiceA.oauthKeyEntity = .ok "access-token" ∧
      tok.ExpiresAt = (time.Unix 1600000002 0).Unix + 900 ∧ tok.IssuedAt = (time.Unix 1600000002 0).Unix ∧
      ((time.Unix 1600000002 0).Unix = (time.Unix 1600000002 0).Unix → tok.ExpiresAt - tok.IssuedAt = 900) ∧
      ((time.Unix 1600000002 0).nanos ≤ (time.Unix 1600000002 0).nanos →
        tok.ExpiresAt - tok.IssuedAt ≤ 900) :=
  buildAccessToken_lifetime (fun _ => time.Unix 1600000002 0) sampleServiceA sampleClaims sampleValidation
    "access-token" (by decide)

/-- C9: with the clock fixed at `now`, `claimsFromRequest` yields `iss` = the actor,
`sub` = the custodian, `aud` = the given endpoint identifier, `iat` = `now` in seconds,
`exp` = `iat + 5`, `nbf = 0`, `usi` = the identity token and `sid` = the subject; so
`exp - iat ≤ 5`, and the lifetime check of `CreateAccessToken` does not reject it. -/
theorem claimsFromRequest_fields (request : CreateJwtBearerTokenRequest) (audience : String)
    (now : Time) :
    (claimsFromRequest (fun _ => now) request audience).Issuer = request.Actor ∧
    (claimsFromRequest (fun _ => now) request audience).Subject = request.Custodian ∧
    (claimsFromRequest (fun _ => now) request audience).Audience = audience ∧
    (claimsFromRequest (fun _ => now) request audience).IssuedAt = now.Unix ∧
    (claimsFromRequest (fun _ => now) request audience).ExpiresAt = now.Unix + 5 ∧
    (claimsFromRequest (fun _ => now) request audience).NotBefore = 0 ∧
    (claimsFromRequest (fun _ => now) request audience).AuthTokenContainer = request.IdentityToken ∧
    (claimsFromRequest (fun _ => now) request audience).SubjectID = request.Subject ∧
    (claimsFromRequest (fun _ => now) request audience).ExpiresAt -
      (claimsFromRequest (fun _ => now) request audience).IssuedAt ≤ 5 ∧
    ¬ (int64Sub (claimsFromRequest (fun _ => now) request audience).ExpiresAt
        (claimsFromRequest (fun _ => now) request audience).IssuedAt > OauthBearerTokenMaxValidity) := by
  have hexp : (claimsFromRequest (fun _ => now) request audience).ExpiresAt = now.Unix + 5 := by
    have := Time.Unix_Add_seconds now 5
    simpa [claimsFromRequest] using this
  have hiat : (claimsFromRequest (fun _ => now) request audience).IssuedAt = now.Unix := rfl
  refine ⟨rfl, rfl, rfl, hiat, hexp, rfl, rfl, rfl, ?_, ?_⟩
  · rw [hexp, hiat]
    omega
  · rw [hexp, hiat]
    have : now.Unix + 5 - now.Unix = 5 := by omega
    rw [int64Sub, this]
    decide

/-- The calls of a run of `CreateJwtBearerToken`: the endpoint lookup and, when exactly
one endpoint is registered, the signing of the claims built by `claimsFromRequest`. -/
theorem CreateJwtBearerToken_signs {lib : Libraries} {s : service}
    {request : CreateJwtBearerTokenRequest} {claims : NutsJwtBearerToken}
    (h : Call.SignJWTRFC003 claims ∈ (CreateJwtBearerToken lib s request).trace) :
    ∃ custodian epoint, lib.ParsePartyID request.Custodian = .ok custodian ∧
      s.registry.EndpointsByOrganizationAndType custodian services.OAuthEndpointType = .ok [epoint] ∧
      claims = claimsFromRequest lib.timeFunc request epoint.Identifier := by
  unfold CreateJwtBearerToken at h
  simp only [Run.bind_def] at h
  cases h1 : lib.ParsePartyID request.Custodian with
  | error e => simp [h1, Run.orFail, Run.fail, Run.bind] at h
  | ok custodian =>
    cases h2 : s.registry.EndpointsByOrganizationAndType custodian services.OAuthEndpointType with
    | error e => simp [h1, h2, Run.orFail, Run.pure, Run.callE, Run.bind] at h
    | ok epoints =>
      match epoints, h2 with
      | [], h2 => simp [h1, h2, Run.orFail, Run.pure, Run.callE, Run.bind, Run.fail] at h
      | [epoint], h2 =>
        refine ⟨custodian, epoint, rfl, h2, ?_⟩
        cases h3 : s.crypto.SignJWTRFC003 (claimsFromRequest lib.timeFunc request epoint.Identifier) with
        | error e => simpa [h1, h2, h3, Run.orFail, Run.pure, Run.callE, Run.bind, Run.pure_def] using h
        | ok t => simpa [h1, h2, h3, Run.orFail, Run.pure, Run.callE, Run.bind, Run.pure_def] using h
      | _ :: _ :: _, h2 => simp [h1, h2, Run.orFail, Run.pure, Run.callE, Run.bind, Run.fail] at h

/-- C10 (as stated, refuted): for the sample request with scope `nuts-sso`, the claims
`CreateJwtBearerToken` hands to the signer have an empty `scope`, not the request's
scope, and an empty `jti`. -/
theorem CreateJwtBearerToken_drops_scope_and_jti :
    CreateJwtBearerToken (sampleLibraries sampleClaims) sampleServiceA sampleBearerRequest =
      ⟨[Call.EndpointsByOrganizationAndType ⟨"urn:oid:2.16.840.1.113883.2.4.6.1:custodian"⟩ "oauth",
        Call.SignJWTRFC003
          (claimsFromRequest (sampleLibraries sampleClaims).timeFunc sampleBearerRequest "endpoint-1")],
        .ok ⟨"bearer"⟩⟩ ∧
    (claimsFromRequest (sampleLibraries sampleClaims).timeFunc sampleBearerRequest "endpoint-1").Scope ≠
      sampleBearerRequest.Scope ∧
    (claimsFromRequest (sampleLibraries sampleClaims).timeFunc sampleBearerRequest "endpoint-1").Id = "" := by
  decide

/-- C10 (amended): whatever the request's scope, the claims `CreateJwtBearerToken`
hands to the signer carry an empty `scope` claim. -/
theorem CreateJwtBearerToken_scope_empty (lib : Libraries) (s : service)
    (request : CreateJwtBearerTokenRequest) (claims : NutsJwtBearerToken)
    (h : Call.SignJWTRFC003 claims ∈ (CreateJwtBearerToken lib s request).trace) :
    claims.Scope = "" := by
  obtain ⟨_, epoint, -, -, hc⟩ := CreateJwtBearerToken_signs h
  rw [hc]
  rfl

/-- C10 (amended), at the sample request. -/
theorem CreateJwtBearerToken_scope_empty_witness :
    (claimsFromRequest (sampleLibraries sampleClaims).timeFunc sampleBearerRequest "endpoint-1").Scope = "" :=
  CreateJwtBearerToken_scope_empty (sampleLibraries sampleClaims) sampleServiceA sampleBearerRequest
    (claimsFromRequest (sampleLibraries sampleClaims).timeFunc sampleBearerRequest "endpoint-1") (by decide)

/-! ## The endpoint lookup of `CreateJwtBearerToken` -/

/-- C11: for a request whose custodian parses and whose endpoint lookup succeeds,
`CreateJwtBearerToken` stops after the lookup with `errIncorrectNumberOfEndpoints`,
having signed nothing, if and only if the number of `oauth` endpoints is not exactly
one; with exactly one endpoint the claims handed to the signer have its identifier as
`aud` and the run ends as the signer answers.  Since the signer cannot return the
package-private `errIncorrectNumberOfEndpoints`, the result alone tells the two
cases apart. -/
theorem CreateJwtBearerToken_endpoint_count (lib : Libraries) (s : service)
    (request : CreateJwtBearerTokenRequest) (custodian : PartyID) (epoints : List Endpoint)
    (hparse : lib.ParsePartyID request.Custodian = .ok custodian)
    (hlookup : s.registry.EndpointsByOrganizationAndType custodian services.OAuthEndpointType =
      .ok epoints) :
    (CreateJwtBearerToken lib s request =
        ⟨[Call.EndpointsByOrganizationAndType custodian services.OAuthEndpointType],
          .error errIncorrectNumberOfEndpoints⟩ ↔ epoints.length ≠ 1) ∧
    (∀ epoint, epoints = [epoint] →
      (CreateJwtBearerToken lib s request).trace =
        [Call.EndpointsByOrganizationAndType custodian services.OAuthEndpointType,
          Call.SignJWTRFC003 (claimsFromRequest lib.timeFunc request epoint.Identifier)] ∧
      (claimsFromRequest lib.timeFunc request epoint.Identifier).Audience = epoint.Identifier ∧
      (CreateJwtBearerToken lib s request).res =
        (match s.crypto.SignJWTRFC003 (claimsFromRequest lib.timeFunc request epoint.Identifier) with
          | .ok signingString => .ok ⟨signingString⟩
          | .error err => .error err)) ∧
    ((∀ claims, s.crypto.SignJWTRFC003 claims ≠ .error errIncorrectNumberOfEndpoints) →
      ((CreateJwtBearerToken lib s request).res = .error errIncorrectNumberOfEndpoints ↔
        epoints.length ≠ 1)) := by
  have hone : ∀ epoint, epoints = [epoint] →
      (CreateJwtBearerToken lib s request).trace =
        [Call.EndpointsByOrganizationAndType custodian services.OAuthEndpointType,
          Call.SignJWTRFC003 (claimsFromRequest lib.timeFunc request epoint.Identifier)] ∧
      (claimsFromRequest lib.timeFunc request epoint.Identifier).Audience = epoint.Identifier ∧
      (CreateJwtBearerToken lib s request).res =
        (match s.crypto.SignJWTRFC003 (claimsFromRequest lib.timeFunc request epoint.Identifier) with
          | .ok signingString => .ok ⟨signingString⟩
          | .error err => .error err) := by
    intro epoint he
    subst he
    unfold CreateJwtBearerToken
    simp only [Run.bind_def, hparse, hlookup, Run.orFail, Run.callE, Run.pure, Run.bind, Run.pure_def]
    cases s.crypto.SignJWTRFC003 (claimsFromRequest lib.timeFunc request epoint.Identifier) with
    | ok t => exact ⟨rfl, rfl, rfl⟩
    | error e => exact ⟨rfl, rfl, rfl⟩
  have hmany : epoints.length ≠ 1 → CreateJwtBearerToken lib s request =
      ⟨[Call.EndpointsByOrganizationAndType custodian services.OAuthEndpointType],
        .error errIncorrectNumberOfEndpoints⟩ := by
    intro hlen
    unfold CreateJwtBearerToken
    simp only [Run.bind_def, hparse, hlookup, Run.orFail, Run.callE, Run.pure, Run.bind]
    match epoints, hlen with
    | [], _ => rfl
    | [e], h => exact absurd rfl h
    | _ :: _ :: _, _ => rfl
  refine ⟨⟨fun h hlen => ?_, hmany⟩, hone, fun hsentinel => ⟨fun h hlen => ?_, fun hlen => ?_⟩⟩
  · obtain ⟨epoint, he⟩ := List.length_eq_one.mp hlen
    have := (hone epoint he).1
    rw [h] at this
    simp at this
  · obtain ⟨epoint, he⟩ := List.length_eq_one.mp hlen
    have hres := (hone epoint he).2.2
    rw [h] at hres
    cases hs : s.crypto.SignJWTRFC003 (claimsFromRequest lib.timeFunc request epoint.Identifier) with
    | ok t => simp [hs] at hres
    | error e =>
      simp only [hs, Res.error.injEq] at hres
      exact hsentinel _ (by rw [hs, hres])
  · rw [hmany hlen]

/-- C11, at the sample request, whose custodian has exactly one `oauth` endpoint. -/
theorem CreateJwtBearerToken_endpoint_count_witness :
    (sampleLibraries sampleClaims).ParsePartyID sampleBearerRequest.Custodian =
      .ok ⟨"urn:oid:2.16.840.1.113883.2.4.6.1:custodian"⟩ ∧
    sampleServiceA.registry.EndpointsByOrganizationAndType
      ⟨"urn:oid:2.16.840.1.113883.2.4.6.1:custodian"⟩ services.OAuthEndpointType =
      .ok [⟨"endpoint-1"⟩] ∧
    (claimsFromRequest (sampleLibraries sampleClaims).timeFunc sampleBearerRequest
      (Endpoint.mk "endpoint-1").Identifier).Audience = "endpoint-1" :=
  ⟨rfl, rfl,
    ((CreateJwtBearerToken_endpoint_count (sampleLibraries sampleClaims) sampleServiceA
      sampleBearerRequest ⟨"urn:oid:2.16.840.1.113883.2.4.6.1:custodian"⟩ [⟨"endpoint-1"⟩]
      rfl rfl).2.1 ⟨"endpoint-1"⟩ rfl).2.1⟩

/-! ## Parsing access tokens -/

/-- A token whose signing method is not accepted is rejected by `ParseWithClaims`
before the key function is asked: the run makes no call. -/
theorem ParseWithClaims_rejects_method {C : Type} (jwt : JwtGo C)
    (claimsValid : C → Int → Option Error) (TimeFunc : Time) (ValidMethods : Option (List String))
    (tokenString : String) (keyFunc : Token C → Run String) (token : Token C)
    (hu : ParseUnverified jwt tokenString = .ok token)
    (hm : signingMethodValid ValidMethods token.Method = false) :
    ParseWithClaims jwt claimsValid TimeFunc ValidMethods tokenString keyFunc =
      ⟨[], .ok (some token, some ("signing method " ++ token.Method ++ " is invalid"))⟩ := by
  unfold ParseWithClaims
  simp only [hu, hm]
  rfl

/-- The key function of `parseAndValidateAccessToken`. -/
theorem accessKeyFunc_cases (s : service) :
    (do
      let keyExists ← Run.call (.PrivateKeyExists s.oauthKeyEntity)
        (s.crypto.PrivateKeyExists s.oauthKeyEntity)
      Run.failIf (!keyExists) "invalid signature"
      let sk ← Run.callE (.GetPrivateKey s.oauthKeyEntity) (s.crypto.GetPrivateKey s.oauthKeyEntity) id
      pure sk : Run String) =
    (if s.crypto.PrivateKeyExists s.oauthKeyEntity = true then
      match s.crypto.GetPrivateKey s.oauthKeyEntity with
      | .ok sk => ⟨[.PrivateKeyExists s.oauthKeyEntity, .GetPrivateKey s.oauthKeyEntity], .ok sk⟩
      | .error e => ⟨[.PrivateKeyExists s.oauthKeyEntity, .GetPrivateKey s.oauthKeyEntity], .error e⟩
    else ⟨[.PrivateKeyExists s.oauthKeyEntity], .error "invalid signature"⟩) := by
  cases h1 : s.crypto.PrivateKeyExists s.oauthKeyEntity with
  | false => simp [Run.bind_def, Run.bind, Run.call, Run.failIf, Run.fail, h1]
  | true =>
    cases h2 : s.crypto.GetPrivateKey s.oauthKeyEntity with
    | ok sk => simp [Run.bind_def, Run.bind, Run.call, Run.failIf, Run.callE, Run.pure, Run.pure_def, h1, h2]
    | error e => simp [Run.bind_def, Run.bind, Run.call, Run.failIf, Run.callE, Run.pure, Run.pure_def, h1, h2]

/-- What a successful introspection went through. -/
theorem parseAndValidateAccessToken_some {lib : Libraries} {s : service} {accessToken : String}
    {claims : NutsAccessToken} {err : Option Error}
    (h : (parseAndValidateAccessToken lib s accessToken).res = .ok (some claims, err)) :
    err = none ∧ s.crypto.PrivateKeyExists s.oauthKeyEntity = true ∧
    ∃ sk token, s.crypto.GetPrivateKey s.oauthKeyEntity = .ok sk ∧
      ParseUnverified lib.jwtAccess accessToken = .ok token ∧
      signingMethodValid lib.ValidJWTAlg token.Method = true ∧
      lib.jwtAccess.Verify token.Method accessToken sk = none ∧
      token.Claims.toStandardClaims.Valid lib.jwtTimeFunc.Unix = none ∧
      claims = token.Claims ∧
      (parseAndValidateAccessToken lib s accessToken).trace =
        [Call.PrivateKeyExists s.oauthKeyEntity, Call.GetPrivateKey s.oauthKeyEntity] := by
  unfold parseAndValidateAccessToken ParseWithClaims at h ⊢
  simp only [accessKeyFunc_cases] at h ⊢
  cases hu : ParseUnverified lib.jwtAccess accessToken with
  | error e =>
    simp only [hu] at h
    simp [Run.bind_def, Run.bind, Run.pure_def, Run.pure] at h
  | ok token =>
    have hnv := ParseUnverified_not_valid hu
    cases hm : signingMethodValid lib.ValidJWTAlg token.Method with
    | false =>
      simp only [hu, hm] at h
      simp [Run.bind_def, Run.bind, Run.pure_def, Run.pure, hnv] at h
    | true =>
      cases h1 : s.crypto.PrivateKeyExists s.oauthKeyEntity with
      | false =>
        simp only [hu, hm, h1] at h
        simp [Run.bind_def, Run.bind, Run.pure_def, Run.pure, Run.attempt, hnv] at h
      | true =>
        cases h2 : s.crypto.GetPrivateKey s.oauthKeyEntity with
        | error e =>
          simp only [hu, hm, h1, h2] at h
          simp [Run.bind_def, Run.bind, Run.pure_def, Run.pure, Run.attempt, hnv] at h
        | ok sk =>
          cases hs : lib.jwtAccess.Verify token.Method accessToken sk with
          | some e =>
            simp only [hu, hm, h1, h2, if_true, Run.bind_def, Run.bind, Run.attempt, hs] at h
            simp [Run.pure_def, Run.pure, hnv] at h
          | none =>
            cases hc : token.Claims.toStandardClaims.Valid lib.jwtTimeFunc.Unix with
            | some e =>
              simp only [hu, hm, h1, h2, if_true, Run.bind_def, Run.bind, Run.attempt, hs, hc] at h
              simp [Run.pure_def, Run.pure, hnv] at h
            | none =>
              simp only [hu, hm, h1, h2, if_true, Run.bind_def, Run.bind, Run.attempt, hs, hc] at h ⊢
              simp [Run.pure_def, Run.pure] at h ⊢
              exact ⟨h.2.symm, by simpa using hm, hs, hc, h.1.symm⟩

/-- Without the OAuth key in the keystore no token yields claims. -/
theorem parseAndValidateAccessToken_no_key (lib : Libraries) (s : service) (accessToken : String)
    (h : s.crypto.PrivateKeyExists s.oauthKeyEntity = false ∨
      ∃ e, s.crypto.GetPrivateKey s.oauthKeyEntity = .error e) :
    ∃ T e, parseAndValidateAccessToken lib s accessToken = ⟨T, .ok (none, some e)⟩ := by
  unfold parseAndValidateAccessToken ParseWithClaims
  simp only [accessKeyFunc_cases]
  cases hu : ParseUnverified lib.jwtAccess accessToken with
  | error e =>
    simp only [Run.bind_def, Run.bind, Run.pure_def, Run.pure]
    exact ⟨[], e, rfl⟩
  | ok token =>
    have hnv := ParseUnverified_not_valid hu
    cases hm : signingMethodValid lib.ValidJWTAlg token.Method with
    | false =>
      simp only [hm, Run.bind_def, Run.bind, Run.pure_def, Run.pure, hnv]
      exact ⟨_, _, rfl⟩
    | true =>
      cases h1 : s.crypto.PrivateKeyExists s.oauthKeyEntity with
      | false =>
        simp only [hm, h1, Bool.false_eq_true, if_false, Run.bind_def, Run.bind, Run.pure_def, Run.pure, Run.attempt, hnv]
        exact ⟨_, _, rfl⟩
      | true =>
        rcases h with h | ⟨e, h2⟩
        · rw [h1] at h
          exact absurd h (by decide)
        · simp only [hm, h1, h2, if_true, Run.bind_def, Run.bind, Run.pure_def, Run.pure, Run.attempt, hnv]
          exact ⟨_, _, rfl⟩

/-- C12: with the accepted algorithms of the parsers (`services.ValidJWTAlg`) as the
specification lists them, every token whose header algorithm is not one of RS256, RS512,
PS256, PS384, PS512, ES256, ES384, ES512 is rejected by
`parseAndValidateJwtBearerToken` and by `parseAndValidateAccessToken` with the
signing-method error and without any call: the key function is not asked and the
keystore is not called, whatever the key, the signature and the claims are.  Whatever
list the constant holds, both parsers reject in that way every token whose algorithm is
not in the list.  The algorithm `none` and the `HS` algorithms are outside the whitelist,
and the accepted algorithms of the UZI validator lie within it. -/
theorem parse_rejects_unlisted_algorithm (lib : Libraries) (s : service) :
    (∀ raw token, ParseUnverified lib.jwtBearer raw = .ok token →
      token.Method ∉ specAlgorithmWhitelist →
      parseAndValidateJwtBearerToken { lib with ValidJWTAlg := services.ValidJWTAlg } raw =
        ⟨[], .ok (none, some ("signing method " ++ token.Method ++ " is invalid"))⟩) ∧
    (∀ raw token, ParseUnverified lib.jwtAccess raw = .ok token →
      token.Method ∉ specAlgorithmWhitelist →
      parseAndValidateAccessToken { lib with ValidJWTAlg := services.ValidJWTAlg } s raw =
        ⟨[], .ok (none, some ("signing method " ++ token.Method ++ " is invalid"))⟩) ∧
    (∀ allowed raw token, lib.ValidJWTAlg = some allowed →
      ParseUnverified lib.jwtBearer raw = .ok token → token.Method ∉ allowed →
      parseAndValidateJwtBearerToken lib raw =
        ⟨[], .ok (none, some ("signing method " ++ token.Method ++ " is invalid"))⟩) ∧
    (∀ allowed raw token, lib.ValidJWTAlg = some allowed →
      ParseUnverified lib.jwtAccess raw = .ok token → token.Method ∉ allowed →
      parseAndValidateAccessToken lib s raw =
        ⟨[], .ok (none, some ("signing method " ++ token.Method ++ " is invalid"))⟩) ∧
    "none" ∉ specAlgorithmWhitelist ∧
    (∀ a ∈ specAlgorithmWhitelist, a.toList.take 2 ≠ ['H', 'S']) ∧
    (∀ a ∈ validUziSigningAlgs, a ∈ specAlgorithmWhitelist) := by
  have hno : ∀ (allowed : List String) (m : String), m ∉ allowed →
      signingMethodValid (some allowed) m = false := by
    intro allowed m hm
    cases hc : signingMethodValid (some allowed) m with
    | false => rfl
    | true => exact absurd (by simpa [signingMethodValid] using hc) hm
  have hbearer : ∀ (lib : Libraries) (allowed : List String) raw token,
      lib.ValidJWTAlg = some allowed →
      ParseUnverified lib.jwtBearer raw = .ok token → token.Method ∉ allowed →
      parseAndValidateJwtBearerToken lib raw =
        ⟨[], .ok (none, some ("signing method " ++ token.Method ++ " is invalid"))⟩ := by
    intro lib allowed raw token hl hu hm
    unfold parseAndValidateJwtBearerToken
    rw [ParseWithClaims_rejects_method _ _ _ _ _ _ token hu (by rw [hl]; exact hno _ _ hm)]
    simp only [Run.bind_def, Run.bind, Run.pure_def, Run.pure, ParseUnverified_not_valid hu,
      List.append_nil]
    rfl
  have haccess : ∀ (lib : Libraries) (allowed : List String) raw token,
      lib.ValidJWTAlg = some allowed →
      ParseUnverified lib.jwtAccess raw = .ok token → token.Method ∉ allowed →
      parseAndValidateAccessToken lib s raw =
        ⟨[], .ok (none, some ("signing method " ++ token.Method ++ " is invalid"))⟩ := by
    intro lib allowed raw token hl hu hm
    unfold parseAndValidateAccessToken
    rw [ParseWithClaims_rejects_method _ _ _ _ _ _ token hu (by rw [hl]; exact hno _ _ hm)]
    simp only [Run.bind_def, Run.bind, Run.pure_def, Run.pure, ParseUnverified_not_valid hu,
      List.append_nil]
    rfl
  exact ⟨fun raw token hu hm => hbearer _ specAlgorithmWhitelist raw token rfl hu hm,
    fun raw token hu hm => haccess _ specAlgorithmWhitelist raw token rfl hu hm,
    fun allowed raw token hl hu hm => hbearer lib allowed raw token hl hu hm,
    fun allowed raw token hl hu hm => haccess lib allowed raw token hl hu hm,
    by decide, by decide, by decide⟩

/-- C12, at sample tokens with the header algorithms `none` and `HS256`. -/
theorem parse_rejects_unlisted_algorithm_witness :
    parseAndValidateJwtBearerToken
        { algLibraries "none" with ValidJWTAlg := services.ValidJWTAlg } "bearer" =
      ⟨[], .ok (none, some ("signing method " ++ "none" ++ " is invalid"))⟩ ∧
    parseAndValidateAccessToken
        { algLibraries "HS256" with ValidJWTAlg := services.ValidJWTAlg } sampleServiceA "access" =
      ⟨[], .ok (none, some ("signing method " ++ "HS256" ++ " is invalid"))⟩ :=
  ⟨(parse_rejects_unlisted_algorithm (algLibraries "none") sampleServiceA).1
      "bearer" { sampleToken sampleClaims with Method := "none" } rfl (by decide),
    (parse_rejects_unlisted_algorithm (algLibraries "HS256") sampleServiceA).2.1
      "access" { Raw := "access", Method := "HS256",
                 Header := [("alg", .string "HS256"), ("typ", .string "JWT")],
                 Claims := sampleAccessClaims } rfl (by decide)⟩

/-- C13: `IntrospectAccessToken` returns claims only when the keystore holds the
process-wide OAuth key (`PrivateKeyExists` is true and `GetPrivateKey` returns the
signer) and the signature of the token verified under the public key of that signer;
when the keystore does not hold the key, no token yields claims. -/
theorem IntrospectAccessToken_key_held (lib : Libraries) (s : service) :
    (∀ token claims err, (IntrospectAccessToken lib s token).res = .ok (some claims, err) →
      s.crypto.PrivateKeyExists s.oauthKeyEntity = true ∧
      ∃ sk decoded, s.crypto.GetPrivateKey s.oauthKeyEntity = .ok sk ∧
        ParseUnverified lib.jwtAccess token = .ok decoded ∧
        lib.jwtAccess.Verify decoded.Method token sk = none ∧
        claims = decoded.Claims ∧ err = none) ∧
    ((s.crypto.PrivateKeyExists s.oauthKeyEntity = false ∨
        ∃ e, s.crypto.GetPrivateKey s.oauthKeyEntity = .error e) →
      ∀ token, ∃ e, (IntrospectAccessToken lib s token).res = .ok (none, some e)) := by
  refine ⟨fun token claims err h => ?_, fun hkey token => ?_⟩
  · obtain ⟨herr, hex, sk, decoded, hsk, hu, -, hs, -, hc, -⟩ := parseAndValidateAccessToken_some h
    exact ⟨hex, sk, decoded, hsk, hu, hs, hc, herr⟩
  · obtain ⟨T, e, h⟩ := parseAndValidateAccessToken_no_key lib s token hkey
    exact ⟨e, by rw [IntrospectAccessToken, h]⟩

/-- C13, at the sample access token: with the key held the claims are returned; with a
keystore that does not hold the key they are not. -/
theorem IntrospectAccessToken_key_held_witness :
    (IntrospectAccessToken (algLibraries "PS256") sampleServiceA "access").res =
      .ok (some sampleAccessClaims, none) ∧
    (sampleServiceA.crypto.PrivateKeyExists sampleServiceA.oauthKeyEntity = true ∧
      ∃ sk decoded, sampleServiceA.crypto.GetPrivateKey sampleServiceA.oauthKeyEntity = .ok sk ∧
        ParseUnverified (algLibraries "PS256").jwtAccess "access" = .ok decoded ∧
        (algLibraries "PS256").jwtAccess.Verify decoded.Method "access" sk = none ∧
        sampleAccessClaims = decoded.Claims ∧ (none : Option Error) = none) ∧
    ∃ e, (IntrospectAccessToken (algLibraries "PS256")
      { sampleServiceA with crypto := { sampleServiceA.crypto with PrivateKeyExists := fun _ => false } }
      "access").res = .ok (none, some e) :=
  ⟨by decide,
    (IntrospectAccessToken_key_held (algLibraries "PS256") sampleServiceA).1 "access"
      sampleAccessClaims none (by decide),
    (IntrospectAccessToken_key_held (algLibraries "PS256")
      { sampleServiceA with crypto := { sampleServiceA.crypto with PrivateKeyExists := fun _ => false } }).2
      (Or.inl rfl) "access"⟩

/-! ## Reasoning about the contract package -/

theorem StringMap.set_same (m : StringMap) (k v : String) : m.set k v k = some v := by
  simp [StringMap.set]

theorem StringMap.set_other (m : StringMap) {k x : String} (v : String) (h : x ≠ k) :
    m.set k v x = m x := by
  simp [StringMap.set, h]

theorem invalidContractText_Is (rest : String) :
    (invalidContractText rest).Is ErrInvalidContractText = true := by
  simp [invalidContractText, GoError.Is, ErrInvalidContractText]

/-- One more capture group adds one entry to the map that `initParams` builds. -/
theorem paramsFold_append (attrs l : List String) (a : String) :
    (l ++ [a]).enum.foldl
        (fun (params : StringMap) m => params.set (attrs.getD m.1 "") m.2) StringMap.empty =
      (l.enum.foldl
        (fun (params : StringMap) m => params.set (attrs.getD m.1 "") m.2) StringMap.empty).set
        (attrs.getD l.length "") a := by
  rw [List.enum_append, List.foldl_append, List.enumFrom_singleton]
  rfl

/-- A key that is no attribute of a capture group is not in the map. -/
theorem paramsFold_none (attrs : List String) (k : String) (groups : List String) :
    (∀ i, i < groups.length → attrs.getD i "" ≠ k) →
    groups.enum.foldl
      (fun (params : StringMap) m => params.set (attrs.getD m.1 "") m.2) StringMap.empty k = none := by
  induction groups using List.reverseRecOn with
  | nil => intro _; rfl
  | append_singleton l a ih =>
    intro h
    rw [paramsFold_append, StringMap.set_other _ _ (Ne.symm (h l.length (by simp)))]
    exact ih (fun i hi => h i (by simp; omega))

/-- When every capture group is `f` of its attribute, the map holds `f` of the
attribute under every attribute, repeated or not. -/
theorem paramsFold_map (attrs : List String) (f : String → String) (groups : List String) :
    (∀ i, i < groups.length → groups.getD i "" = f (attrs.getD i "")) →
    ∀ i, i < groups.length →
      groups.enum.foldl
        (fun (params : StringMap) m => params.set (attrs.getD m.1 "") m.2) StringMap.empty
        (attrs.getD i "") = some (f (attrs.getD i "")) := by
  induction groups using List.reverseRecOn with
  | nil => intro _ i hi; simp at hi
  | append_singleton l a ih =>
    intro h i hi
    rw [paramsFold_append]
    have hlast : a = f (attrs.getD l.length "") := by
      have := h l.length (by simp)
      rwa [List.getD_append_right _ _ _ _ (Nat.le_refl _), Nat.sub_self, List.getD_cons_zero]
        at this
    by_cases heq : attrs.getD l.length "" = attrs.getD i ""
    · rw [← heq, StringMap.set_same, hlast]
    · rw [StringMap.set_other _ _ (Ne.symm heq)]
      have hil : i < l.length := by
        rcases Nat.lt_or_ge i l.length with hlt | hge
        · exact hlt
        · have : i = l.length := by
            simp at hi
            omega
          exact absurd (by rw [this]) heq
      refine ih (fun j hj => ?_) i hil
      have := h j (by simp; omega)
      rwa [List.getD_append _ _ _ _ hj] at this

/-- The map holds, under a key, the capture group of the last attribute that is the key. -/
theorem paramsFold_some (attrs : List String) (k : String) (groups : List String) :
    ∀ i, i < groups.length → attrs.getD i "" = k →
      (∀ j, i < j → j < groups.length → attrs.getD j "" ≠ k) →
      groups.enum.foldl
        (fun (params : StringMap) m => params.set (attrs.getD m.1 "") m.2) StringMap.empty k =
        some (groups.getD i "") := by
  induction groups using List.reverseRecOn with
  | nil => intro i hi; simp at hi
  | append_singleton l a ih =>
    intro i hi hk hlast
    rw [paramsFold_append]
    rcases Nat.lt_or_ge i l.length with hlt | hge
    · have hne : attrs.getD l.length "" ≠ k := hlast l.length hlt (by simp)
      rw [StringMap.set_other _ _ (Ne.symm hne), List.getD_append _ _ _ _ hlt]
      exact ih i hlt hk (fun j hij hj => hlast j hij (by simp; omega))
    · have hil : i = l.length := by
        simp at hi
        omega
      subst hil
      rw [hk, StringMap.set_same, List.getD_append_right _ _ _ _ (Nat.le_refl _)]
      simp

theorem initParams_RawContractText (lib : ContractLibraries) (sc : Contract) :
    (sc.initParams lib).1.RawContractText = sc.RawContractText := by
  unfold Contract.initParams
  split
  · rfl
  · split
    · rfl
    · dsimp only
      split
      · rfl
      · split <;> rfl

theorem initParams_Template (lib : ContractLibraries) (sc : Contract) :
    (sc.initParams lib).1.Template = sc.Template := by
  unfold Contract.initParams
  split
  · rfl
  · split
    · rfl
    · dsimp only
      split
      · rfl
      · split <;> rfl

/-- What `initParams` does to a contract whose template has a regular expression that
compiles: the three ways it ends. -/
theorem initParams_cases (lib : ContractLibraries) (sc : Contract) (template : Template)
    (FindSubmatch : String → List String)
    (ht : sc.Template = some template)
    (hc : lib.regexpCompile template.Regexp = some FindSubmatch) :
    (FindSubmatch sc.RawContractText = [] ∧
      sc.initParams lib =
        (sc, .error (invalidContractText ": could not match the contract template regex"))) ∨
    (∃ whole groups, FindSubmatch sc.RawContractText = whole :: groups ∧
      groups.length ≠ template.TemplateAttributes.length ∧
      sc.initParams lib =
        (sc, .error (invalidContractText
          (": amount of template attributes does not match the amount of Params: found: " ++
            toString groups.length ++ ", expected " ++
            toString template.TemplateAttributes.length)))) ∨
    (∃ whole groups, FindSubmatch sc.RawContractText = whole :: groups ∧
      groups.length = template.TemplateAttributes.length ∧
      sc.initParams lib =
        ({ sc with
            Params := some (groups.enum.foldl
              (fun (params : StringMap) m => params.set (template.TemplateAttributes.getD m.1 "") m.2)
              StringMap.empty) },
          .ok ())) := by
  unfold Contract.initParams
  simp only [ht, hc]
  cases hm : FindSubmatch sc.RawContractText with
  | nil => left; simp
  | cons whole groups =>
    right
    by_cases hl : groups.length = template.TemplateAttributes.length
    · right
      refine ⟨whole, groups, rfl, hl, ?_⟩
      simp [hl]
    · left
      refine ⟨whole, groups, rfl, hl, ?_⟩
      simp [hl]

/-! ## Rendering and parsing contracts -/

/-- C14, refuted: at the sample template, a rendering succeeds for variables that hold
an entry `note`, which the template does not name, and the value `A&B` for
`acting_party`; the parameters parsed back from the rendered text have no entry `note`
and hold `A&amp;B` for `acting_party`, while the merged variables hold `x` and `A&B`. -/
theorem ParseContractString_differs_from_vars :
    ((sampleTemplate.Render (sampleContractLibraries sampleValidFrom)
        (some ((sampleVars.set "note" "x").set ActingPartyAttr "A&B"))
        sampleValidFrom time.Hour).2.val?.map (fun R => R.RawContractText)) =
      some "NL:Test:v1 A&amp;B voor Zorg van dinsdag, 1 oktober 2019 13:30:42 tot dinsdag, 1 oktober 2019 14:30:42" ∧
    mapLookup (sampleTemplate.Render (sampleContractLibraries sampleValidFrom)
        (some ((sampleVars.set "note" "x").set ActingPartyAttr "A&B"))
        sampleValidFrom time.Hour).1 "note" = some "x" ∧
    mapLookup (sampleTemplate.Render (sampleContractLibraries sampleValidFrom)
        (some ((sampleVars.set "note" "x").set ActingPartyAttr "A&B"))
        sampleValidFrom time.Hour).1 ActingPartyAttr = some "A&B" ∧
    ((ParseContractString (sampleContractLibraries sampleValidFrom)
        "NL:Test:v1 A&amp;B voor Zorg van dinsdag, 1 oktober 2019 13:30:42 tot dinsdag, 1 oktober 2019 14:30:42"
        sampleStore).val?.map (fun P => mapLookup P.Params "note")) = some none ∧
    ((ParseContractString (sampleContractLibraries sampleValidFrom)
        "NL:Test:v1 A&amp;B voor Zorg van dinsdag, 1 oktober 2019 13:30:42 tot dinsdag, 1 oktober 2019 14:30:42"
        sampleStore).val?.map (fun P => mapLookup P.Params ActingPartyAttr)) = some (some "A&amp;B") := by
  decide

/-- C14 (amended): when `Render` succeeds with the contract `R` and the store finds the
rendering template for the text of `R`, `ParseContractString` of that text succeeds
with `R` itself: the same text, template and parameters.  The text of `R` is what
mustache renders from the merged variables, the variables of the caller with the
computed `valid_from` and `valid_to`.  The parameters of `R` are the capture groups of
the regular expression of the template in that text: each template attribute is mapped
to its group (the last one for a repeated name), and no other key has an entry,
whatever the variables of the caller held.  So the parameters agree with the merged
variables at a template attribute exactly when the group captured there is the merged
value; and when every group is the value of its attribute as the engine writes it
(`esc` of the value: verbatim, or escaped), the parameters are the merged variables,
written that way, at every template attribute. -/
theorem Render_then_ParseContractString (lib : ContractLibraries) (T : Template)
    (store : TemplateStore) (vars : StringMap) (t : Time) (d : Int) (R : Contract)
    (hrender : (T.Render lib (some vars) t d).2 = .ok R)
    (hfind : store.FindFromRawContractText R.RawContractText = .ok T) :
    ParseContractString lib R.RawContractText store = .ok R ∧
    R.Template = some T ∧
    lib.mustacheRender T.Template_ ((vars.set ValidFromAttr
        (lib.mondayFormat t AmsterdamTimeZone timeLayout monday.LocaleNlNL)).set ValidToAttr
        (lib.mondayFormat (t.Add d) AmsterdamTimeZone timeLayout monday.LocaleNlNL)) =
      .ok R.RawContractText ∧
    (∀ k, k ∉ T.TemplateAttributes → mapLookup R.Params k = none) ∧
    ∃ FindSubmatch whole groups,
      lib.regexpCompile T.Regexp = some FindSubmatch ∧
      FindSubmatch R.RawContractText = whole :: groups ∧
      groups.length = T.TemplateAttributes.length ∧
      (∀ i (hi : i < T.TemplateAttributes.length) (hg : i < groups.length),
        (∀ j (hj : j < T.TemplateAttributes.length), i < j →
          T.TemplateAttributes[j] ≠ T.TemplateAttributes[i]) →
        mapLookup R.Params T.TemplateAttributes[i] = some groups[i] ∧
        (mapLookup R.Params T.TemplateAttributes[i] =
            ((vars.set ValidFromAttr
              (lib.mondayFormat t AmsterdamTimeZone timeLayout monday.LocaleNlNL)).set ValidToAttr
              (lib.mondayFormat (t.Add d) AmsterdamTimeZone timeLayout monday.LocaleNlNL))
              T.TemplateAttributes[i] ↔
          ((vars.set ValidFromAttr
              (lib.mondayFormat t AmsterdamTimeZone timeLayout monday.LocaleNlNL)).set ValidToAttr
              (lib.mondayFormat (t.Add d) AmsterdamTimeZone timeLayout monday.LocaleNlNL))
              T.TemplateAttributes[i] = some groups[i])) ∧
      (∀ esc : String → String,
        (∀ i (hi : i < T.TemplateAttributes.length) (hg : i < groups.length),
          groups[i] = esc ((((vars.set ValidFromAttr
              (lib.mondayFormat t AmsterdamTimeZone timeLayout monday.LocaleNlNL)).set ValidToAttr
              (lib.mondayFormat (t.Add d) AmsterdamTimeZone timeLayout monday.LocaleNlNL))
              T.TemplateAttributes[i]).getD "")) →
        ∀ a ∈ T.TemplateAttributes,
          mapLookup R.Params a = some (esc ((((vars.set ValidFromAttr
              (lib.mondayFormat t AmsterdamTimeZone timeLayout monday.LocaleNlNL)).set ValidToAttr
              (lib.mondayFormat (t.Add d) AmsterdamTimeZone timeLayout monday.LocaleNlNL))
              a).getD ""))) := by
  unfold Template.Render at hrender
  simp only [Template.timeLocation] at hrender
  cases hm : lib.mustacheRender T.Template_ ((vars.set ValidFromAttr
      (lib.mondayFormat t AmsterdamTimeZone timeLayout monday.LocaleNlNL)).set ValidToAttr
      (lib.mondayFormat (t.Add d) AmsterdamTimeZone timeLayout monday.LocaleNlNL)) with
  | error err => simp [hm] at hrender
  | ok raw =>
    simp only [hm] at hrender
    cases hc : lib.regexpCompile T.Regexp with
    | none =>
      simp [Contract.initParams, hc] at hrender
    | some FindSubmatch =>
      have hcases := initParams_cases lib { RawContractText := raw, Template := some T } T
        FindSubmatch rfl hc
      rcases hcases with ⟨-, hi⟩ | ⟨whole, groups, -, -, hi⟩ | ⟨whole, groups, hfs, hlen, hi⟩
      · simp [hi] at hrender
      · simp [hi] at hrender
      · simp only [hi, Outcome.ok.injEq] at hrender
        subst hrender
        dsimp only at hfind hfs ⊢
        have hparams : ∀ i (hi : i < T.TemplateAttributes.length) (hg : i < groups.length),
            (∀ j (hj : j < T.TemplateAttributes.length), i < j →
              T.TemplateAttributes[j] ≠ T.TemplateAttributes[i]) →
            mapLookup (some (groups.enum.foldl
              (fun (params : StringMap) m => params.set (T.TemplateAttributes.getD m.1 "") m.2)
              StringMap.empty)) T.TemplateAttributes[i] = some groups[i] := by
          intro i hi hg hlast
          have := paramsFold_some T.TemplateAttributes T.TemplateAttributes[i] groups i hg
            (List.getD_eq_getElem _ _ hi)
            (fun j hij hj => by
              rw [List.getD_eq_getElem _ _ (by omega)]
              exact hlast j (by omega) hij)
          rw [List.getD_eq_getElem _ _ hg] at this
          exact this
        refine ⟨?_, rfl, rfl, fun k hk => ?_, FindSubmatch, whole, groups, rfl, hfs, hlen,
          fun i hi hg hlast => ⟨hparams i hi hg hlast, ?_⟩, fun esc hesc a ha => ?_⟩
        · unfold ParseContractString
          simp only [hfind]
          simp only [hi]
        · refine paramsFold_none _ _ _ (fun i hi heq => hk ?_)
          rw [← heq, List.getD_eq_getElem _ _ (by omega)]
          exact List.getElem_mem _
        · rw [hparams i hi hg hlast]
          exact eq_comm
        · obtain ⟨i, hi, rfl⟩ := List.getElem_of_mem ha
          have := paramsFold_map T.TemplateAttributes
            (fun a => esc ((((vars.set ValidFromAttr
              (lib.mondayFormat t AmsterdamTimeZone timeLayout monday.LocaleNlNL)).set ValidToAttr
              (lib.mondayFormat (t.Add d) AmsterdamTimeZone timeLayout monday.LocaleNlNL))
              a).getD "")) groups
            (fun j hj => by
              rw [List.getD_eq_getElem _ _ hj, List.getD_eq_getElem _ _ (by omega)]
              exact hesc j (by omega) hj)
            i (by omega)
          rw [List.getD_eq_getElem _ _ hi] at this
          exact this

/-- C14 (amended), at the sample template and the sample variables: the parse of the
rendered text is the rendered contract, whose parameters hold the legal entity of the
caller and the computed start of validity. -/
theorem Render_then_ParseContractString_witness :
    (sampleTemplate.Render (sampleContractLibraries sampleValidFrom) (some sampleVars)
        sampleValidFrom time.Hour).2 = .ok sampleContract ∧
      ParseContractString (sampleContractLibraries sampleValidFrom)
        sampleContract.RawContractText sampleStore = .ok sampleContract ∧
      mapLookup sampleContract.Params LegalEntityAttr = sampleVars LegalEntityAttr ∧
      mapLookup sampleContract.Params ValidFromAttr = some "dinsdag, 1 oktober 2019 13:30:42" :=
  ⟨rfl,
    (Render_then_ParseContractString (sampleContractLibraries sampleValidFrom) sampleTemplate
      sampleStore sampleVars sampleValidFrom time.Hour sampleContract rfl rfl).1,
    by decide, by decide⟩

/-! ## The validity window of a contract -/

/-- C15: for a contract whose `valid_from` and `valid_to` parameters are parsed by
`parseTime` (layout of the package, Dutch locale, Europe/Amsterdam) to the instants
`validFrom` and `validTo` with `validFrom` not after `validTo`, `Verify` returns nil if
and only if the time read from `NowFunc` lies in the window, both bounds included. -/
theorem Verify_window (lib : ContractLibraries) (sc : Contract) (template : Template)
    (validFromStr validToStr : String) (validFrom validTo : Time)
    (ht : sc.Template = some template)
    (hfrom : mapLookup sc.Params ValidFromAttr = some validFromStr)
    (hto : mapLookup sc.Params ValidToAttr = some validToStr)
    (hpf : parseTime lib validFromStr template.Language = .ok validFrom)
    (hpt : parseTime lib validToStr template.Language = .ok validTo)
    (hle : validFrom.nanos ≤ validTo.nanos) :
    (sc.Verify lib = .ok () ↔
      validFrom.nanos ≤ lib.NowFunc.nanos ∧ lib.NowFunc.nanos ≤ validTo.nanos) ∧
    parseTime lib validFromStr template.Language =
      (match lib.mondayParseInLocation "Monday, 2 January 2006 15:04:05" validFromStr
          "Europe/Amsterdam" "nl_NL" with
        | .error err =>
          .error (.wrap ("invalid time string [" ++ validFromStr ++ "]: " ++ err.Error) err)
        | .ok parsedTime => .ok parsedTime) := by
  refine ⟨?_, rfl⟩
  unfold Contract.Verify
  simp only [hfrom, hto, ht, hpf, hpt, Time.After, Time.Before]
  have h1 : ¬ (validFrom.nanos > validTo.nanos) := by omega
  simp only [h1, decide_False, Bool.false_eq_true, if_false, decide_eq_true_eq]
  by_cases hb : lib.NowFunc.nanos < validFrom.nanos
  · simp only [hb, if_true]
    constructor
    · intro h
      cases h
    · intro h
      omega
  · simp only [hb, if_false]
    by_cases ha : lib.NowFunc.nanos > validTo.nanos
    · simp only [ha, if_true]
      constructor
      · intro h
        cases h
      · intro h
        omega
    · simp only [ha, if_false, true_iff]
      omega

/-- C15, at the sample contract with the clock at the first instant of the window. -/
theorem Verify_window_witness :
    sampleContract.Verify (sampleContractLibraries sampleValidFrom) = .ok () :=
  ((Verify_window (sampleContractLibraries sampleValidFrom) sampleContract sampleTemplate
    "dinsdag, 1 oktober 2019 13:30:42" "dinsdag, 1 oktober 2019 14:30:42"
    (time.Unix 1569929442 0) (time.Unix 1569933042 0) rfl (by decide) (by decide) rfl rfl
    (by decide)).1).2 ⟨by decide, by decide⟩

/-- C16: for every map of variables, start time `t` and duration `d`, `Render` stores
`monday.Format` of `t` and of `t + d`, in the layout `Monday, 2 January 2006 15:04:05`,
Dutch locale, zone Europe/Amsterdam, under `valid_from` and `valid_to` of the map, and
renders the template from that map; what the caller stored under these two keys has no
influence on the map after the call nor on the result (text and parameters). -/
theorem Render_overwrites_validity (lib : ContractLibraries) (T : Template) (vars : StringMap)
    (t : Time) (d : Int) :
    (∃ merged : StringMap, (T.Render lib (some vars) t d).1 = some merged ∧
      merged ValidFromAttr = some (lib.mondayFormat t "Europe/Amsterdam"
        "Monday, 2 January 2006 15:04:05" "nl_NL") ∧
      merged ValidToAttr = some (lib.mondayFormat (t.Add d) "Europe/Amsterdam"
        "Monday, 2 January 2006 15:04:05" "nl_NL") ∧
      (∀ k, k ≠ ValidFromAttr → k ≠ ValidToAttr → merged k = vars k) ∧
      (∀ R, (T.Render lib (some vars) t d).2 = .ok R →
        lib.mustacheRender T.Template_ merged = .ok R.RawContractText)) ∧
    (∀ vars2 : StringMap, (∀ k, k ≠ ValidFromAttr → k ≠ ValidToAttr → vars2 k = vars k) →
      T.Render lib (some vars2) t d = T.Render lib (some vars) t d) := by
  constructor
  · refine ⟨(vars.set ValidFromAttr
        (lib.mondayFormat t AmsterdamTimeZone timeLayout monday.LocaleNlNL)).set ValidToAttr
        (lib.mondayFormat (t.Add d) AmsterdamTimeZone timeLayout monday.LocaleNlNL),
      ?_, ?_, ?_, ?_, ?_⟩
    · unfold Template.Render
      simp only [Template.timeLocation]
      split
      · rfl
      · split <;> rfl
    · rw [StringMap.set_other _ _ (by decide), StringMap.set_same]
      rfl
    · rw [StringMap.set_same]
      rfl
    · intro k h1 h2
      rw [StringMap.set_other _ _ h2, StringMap.set_other _ _ h1]
    · intro R hR
      unfold Template.Render at hR
      simp only [Template.timeLocation] at hR
      split at hR
      · simp at hR
      · rename_i raw hraw
        rw [hraw]
        split at hR
        · simp at hR
        · simp at hR
        · rename_i c u hc
          simp only [Outcome.ok.injEq] at hR
          subst hR
          have := initParams_RawContractText lib { RawContractText := raw, Template := some T }
          rw [hc] at this
          exact congrArg _ this.symm
  · intro vars2 h
    have hmaps : (vars2.set ValidFromAttr
          (lib.mondayFormat t T.timeLocation timeLayout monday.LocaleNlNL)).set ValidToAttr
          (lib.mondayFormat (t.Add d) T.timeLocation timeLayout monday.LocaleNlNL) =
        (vars.set ValidFromAttr
          (lib.mondayFormat t T.timeLocation timeLayout monday.LocaleNlNL)).set ValidToAttr
          (lib.mondayFormat (t.Add d) T.timeLocation timeLayout monday.LocaleNlNL) := by
      funext k
      by_cases h2 : k = ValidToAttr
      · subst h2
        rw [StringMap.set_same, StringMap.set_same]
      · rw [StringMap.set_other _ _ h2, StringMap.set_other _ _ h2]
        by_cases h1 : k = ValidFromAttr
        · subst h1
          rw [StringMap.set_same, StringMap.set_same]
        · rw [StringMap.set_other _ _ h1, StringMap.set_other _ _ h1]
          exact h k h1 h2
    unfold Template.Render
    simp only [hmaps]

/-! ## The parameters of a parsed contract -/

/-- C17, refuted: the sample template that names the attribute `name` twice matches the
text `links en rechts` with the capture groups `links` and `rechts`; `initParams`
succeeds, and the parameter under the first template attribute is the second capture
group. -/
theorem initParams_repeated_attribute :
    ((sampleContractLibraries sampleValidFrom).regexpCompile repeatTemplate.Regexp).map
        (fun FindSubmatch => FindSubmatch "links en rechts") =
      some ["links en rechts", "links", "rechts"] ∧
    (Contract.initParams (sampleContractLibraries sampleValidFrom)
        { RawContractText := "links en rechts", Template := some repeatTemplate }).2 = .ok () ∧
    repeatTemplate.TemplateAttributes[0]? = some "name" ∧
    mapLookup (Contract.initParams (sampleContractLibraries sampleValidFrom)
        { RawContractText := "links en rechts", Template := some repeatTemplate }).1.Params
      "name" = some "rechts" := by
  decide

/-- C17 (amended): for a contract whose template has a regular expression that
compiles, `initParams` ends with an error that wraps `ErrInvalidContractText` and
leaves the contract as it was when the expression does not match the text or the
number of capture groups differs from the number of template attributes, and
`ParseContractString` then returns that error and no contract.  Otherwise it succeeds,
and the parameters hold, under every template attribute, the capture group at the last
position at which the attribute is listed: when the attributes are pairwise distinct,
the `i`-th capture group under the `i`-th attribute, for every `i`; a key that is no
template attribute has no entry. -/
theorem initParams_outcomes (lib : ContractLibraries) (sc : Contract) (template : Template)
    (FindSubmatch : String → List String)
    (ht : sc.Template = some template)
    (hc : lib.regexpCompile template.Regexp = some FindSubmatch) :
    ((FindSubmatch sc.RawContractText = [] ∨
        ∃ whole groups, FindSubmatch sc.RawContractText = whole :: groups ∧
          groups.length ≠ template.TemplateAttributes.length) →
      ∃ err, sc.initParams lib = (sc, .error err) ∧ err.Is ErrInvalidContractText = true ∧
        ∀ store : TemplateStore,
          store.FindFromRawContractText sc.RawContractText = .ok template →
          ParseContractString lib sc.RawContractText store = .error err) ∧
    (∀ whole groups, FindSubmatch sc.RawContractText = whole :: groups →
      groups.length = template.TemplateAttributes.length →
      ∃ params : StringMap, sc.initParams lib = ({ sc with Params := some params }, .ok ()) ∧
        (∀ i (hi : i < template.TemplateAttributes.length) (hg : i < groups.length),
          (∀ j (hj : j < template.TemplateAttributes.length), i < j →
            template.TemplateAttributes[j] ≠ template.TemplateAttributes[i]) →
          params template.TemplateAttributes[i] = some groups[i]) ∧
        (template.TemplateAttributes.Nodup →
          ∀ i (hi : i < template.TemplateAttributes.length) (hg : i < groups.length),
            params template.TemplateAttributes[i] = some groups[i]) ∧
        (∀ k, k ∉ template.TemplateAttributes → params k = none)) := by
  have hparse : ∀ (err : GoError) (store : TemplateStore),
      sc.initParams lib = (sc, .error err) →
      store.FindFromRawContractText sc.RawContractText = .ok template →
      ParseContractString lib sc.RawContractText store = .error err := by
    intro err store hi hfind
    have hcases := initParams_cases lib
      { RawContractText := sc.RawContractText, Template := some template } template
      FindSubmatch rfl hc
    have hsc := initParams_cases lib sc template FindSubmatch ht hc
    unfold ParseContractString
    simp only [hfind]
    rcases hsc with ⟨hm, hi2⟩ | ⟨whole, groups, hm, hl, hi2⟩ | ⟨whole, groups, hm, hl, hi2⟩
    · rcases hcases with ⟨-, hi3⟩ | ⟨w2, g2, hm2, -, -⟩ | ⟨w2, g2, hm2, -, -⟩
      · rw [hi] at hi2
        simp only [Prod.mk.injEq, Outcome.error.injEq, true_and] at hi2
        simp only [hi3, hi2]
      · rw [hm] at hm2
        cases hm2
      · rw [hm] at hm2
        cases hm2
    · rcases hcases with ⟨hm2, -⟩ | ⟨w2, g2, hm2, -, hi3⟩ | ⟨w2, g2, hm2, hl2, -⟩
      · rw [hm] at hm2
        cases hm2
      · rw [hm] at hm2
        cases hm2
        rw [hi] at hi2
        simp only [Prod.mk.injEq, Outcome.error.injEq, true_and] at hi2
        simp only [hi3, hi2]
      · rw [hm] at hm2
        cases hm2
        exact absurd hl2 hl
    · rw [hi] at hi2
      simp at hi2
  have hsome : ∀ (groups : List String) i (hi : i < template.TemplateAttributes.length)
      (hg : i < groups.length),
      (∀ j (hj : j < template.TemplateAttributes.length), i < j →
        template.TemplateAttributes[j] ≠ template.TemplateAttributes[i]) →
      groups.length = template.TemplateAttributes.length →
      groups.enum.foldl
          (fun (params : StringMap) m => params.set (template.TemplateAttributes.getD m.1 "") m.2)
          StringMap.empty template.TemplateAttributes[i] = some groups[i] := by
    intro groups i hi hg hlast hlen
    have := paramsFold_some template.TemplateAttributes template.TemplateAttributes[i] groups i hg
      (List.getD_eq_getElem _ _ hi)
      (fun j hij hj => by
        rw [List.getD_eq_getElem _ _ (by omega)]
        exact hlast j (by omega) hij)
    rw [this, List.getD_eq_getElem _ _ hg]
  refine ⟨fun hfail => ?_, fun whole groups hm hlen => ?_⟩
  · rcases initParams_cases lib sc template FindSubmatch ht hc with
      ⟨-, hi⟩ | ⟨whole, groups, -, -, hi⟩ | ⟨whole, groups, hm, hl, -⟩
    · exact ⟨_, hi, invalidContractText_Is _, fun store => hparse _ store hi⟩
    · exact ⟨_, hi, invalidContractText_Is _, fun store => hparse _ store hi⟩
    · rcases hfail with h0 | ⟨w2, g2, hm2, hl2⟩
      · rw [hm] at h0
        cases h0
      · rw [hm] at hm2
        cases hm2
        exact absurd hl hl2
  · rcases initParams_cases lib sc template FindSubmatch ht hc with
      ⟨h0, -⟩ | ⟨w2, g2, hm2, hl2, -⟩ | ⟨w2, g2, hm2, -, hi⟩
    · rw [hm] at h0
      cases h0
    · rw [hm] at hm2
      cases hm2
      exact absurd hlen hl2
    · rw [hm] at hm2
      cases hm2
      refine ⟨_, hi, fun i hi hg hlast => hsome groups i hi hg hlast hlen, fun hnd i hi hg => ?_,
        fun k hk => ?_⟩
      · refine hsome groups i hi hg (fun j hj hij heq => ?_) hlen
        have := (List.Nodup.getElem_inj_iff hnd).mp heq
        omega
      · refine paramsFold_none _ _ _ (fun i hi heq => hk ?_)
        rw [← heq, List.getD_eq_getElem _ _ (by omega)]
        exact List.getElem_mem _

/-- C17 (amended), at the sample template: a text that the expression does not match
is refused, and the sample contract text gives the parameter `legal_entity`. -/
theorem initParams_outcomes_witness :
    (∃ err, Contract.initParams (sampleContractLibraries sampleValidFrom)
        { RawContractText := "NL:Test:v1 zonder velden", Template := some sampleTemplate } =
        ({ RawContractText := "NL:Test:v1 zonder velden", Template := some sampleTemplate },
          .error err) ∧
      err.Is ErrInvalidContractText = true ∧
      ∀ store : TemplateStore,
        store.FindFromRawContractText "NL:Test:v1 zonder velden" = .ok sampleTemplate →
        ParseContractString (sampleContractLibraries sampleValidFrom)
          "NL:Test:v1 zonder velden" store = .error err) ∧
    mapLookup (Contract.initParams (sampleContractLibraries sampleValidFrom)
        { RawContractText := sampleContract.RawContractText,
          Template := some sampleTemplate }).1.Params LegalEntityAttr = some "Zorg" :=
  ⟨(initParams_outcomes (sampleContractLibraries sampleValidFrom)
      { RawContractText := "NL:Test:v1 zonder velden", Template := some sampleTemplate }
      sampleTemplate
      ((sampleRegexpCompile sampleTemplate.Regexp).get (by decide))
      rfl (Option.some_get _).symm).1 (Or.inl (by decide)),
    by decide⟩

/-! ## Reasoning about the UZI validator -/

theorem splitChars_ne_nil (sep : Char) (cs : List Char) : splitChars sep cs ≠ [] := by
  cases cs with
  | nil => simp [splitChars]
  | cons c cs =>
    unfold splitChars
    split
    · simp
    · split <;> simp

/-- A text without the separator is one part. -/
theorem splitChars_of_not_mem (sep : Char) (cs : List Char) (h : sep ∉ cs) :
    splitChars sep cs = [cs] := by
  induction cs with
  | nil => rfl
  | cons c cs ih =>
    have hc : c ≠ sep := fun e => h (by simp [e])
    have hcs : sep ∉ cs := fun e => h (by simp [e])
    unfold splitChars
    simp [hc, ih hcs]

/-- The first part of a text ends at the first separator. -/
theorem splitChars_append (sep : Char) (cs rest : List Char) (h : sep ∉ cs) :
    splitChars sep (cs ++ sep :: rest) = cs :: splitChars sep rest := by
  induction cs with
  | nil => simp [splitChars]
  | cons c cs ih =>
    have hc : c ≠ sep := fun e => h (by simp [e])
    have hcs : sep ∉ cs := fun e => h (by simp [e])
    rw [List.cons_append, splitChars]
    simp [hc, ih hcs]

/-- Seven fields without a dash, joined by dashes, split into the seven fields. -/
theorem Split_seven (f1 f2 f3 f4 f5 f6 f7 : String)
    (h : ∀ f ∈ [f1, f2, f3, f4, f5, f6, f7], '-' ∉ f.toList) :
    strings.Split (f1 ++ "-" ++ f2 ++ "-" ++ f3 ++ "-" ++ f4 ++ "-" ++ f5 ++ "-" ++ f6 ++ "-" ++ f7)
      '-' = [f1, f2, f3, f4, f5, f6, f7] := by
  have h1 : '-' ∉ f1.data := h f1 (by simp)
  have h2 : '-' ∉ f2.data := h f2 (by simp)
  have h3 : '-' ∉ f3.data := h f3 (by simp)
  have h4 : '-' ∉ f4.data := h f4 (by simp)
  have h5 : '-' ∉ f5.data := h f5 (by simp)
  have h6 : '-' ∉ f6.data := h f6 (by simp)
  have h7 : '-' ∉ f7.data := h f7 (by simp)
  unfold strings.Split
  simp only [String.toList, String.data_append, List.append_assoc, List.singleton_append,
    List.cons_append, List.nil_append]
  rw [splitChars_append _ _ _ h1, splitChars_append _ _ _ h2, splitChars_append _ _ _ h3,
    splitChars_append _ _ _ h4, splitChars_append _ _ _ h5, splitChars_append _ _ _ h6,
    splitChars_of_not_mem _ _ h7]
  rfl

/-- An other name of seven fields stores the fields under the seven attribute names. -/
theorem signerAttributesStep_seven (res : StringMap) (s f1 f2 f3 f4 f5 f6 f7 : String)
    (h : strings.Split s '-' = [f1, f2, f3, f4, f5, f6, f7]) :
    signerAttributesStep res s =
      ((((((res.set "oidCa" f1).set "version" f2).set "uziNr" f3).set "cardType" f4).set
        "orgID" f5).set "rollCode" f6).set "agbCode" f7 := by
  unfold signerAttributesStep
  simp only [h]
  rfl

/-- Other names with another number of fields leave the map as it is. -/
theorem signerAttributesStep_skip (names : List String) :
    ∀ res : StringMap, (∀ o ∈ names, (strings.Split o '-').length ≠ 7) →
      names.foldl signerAttributesStep res = res := by
  induction names with
  | nil => intro res _; rfl
  | cons o names ih =>
    intro res h
    have ho : (strings.Split o '-').length ≠ 7 := h o (by simp)
    have hstep : signerAttributesStep res o = res := by
      unfold signerAttributesStep
      simp only [getUziAttributeNames, List.length_cons, List.length_nil]
      exact if_pos ho
    rw [List.foldl_cons, hstep]
    exact ih res (fun o2 h2 => h o2 (by simp [h2]))

/-- The loop stores nothing under a key that is no attribute name. -/
theorem signerAttributes_keys (names : List String) (k : String)
    (hk : k ∉ getUziAttributeNames) :
    ∀ res : StringMap, res k = none → names.foldl signerAttributesStep res k = none := by
  induction names with
  | nil => intro res h; exact h
  | cons o names ih =>
    intro res h
    rw [List.foldl_cons]
    apply ih
    unfold signerAttributesStep
    split
    · exact h
    · simp only [getUziAttributeNames, List.mem_cons, List.mem_singleton, List.not_mem_nil,
        or_false, not_or] at hk
      obtain ⟨h1, h2, h3, h4, h5, h6, h7⟩ := hk
      simp only [getUziAttributeNames, List.enum, List.enumFrom, List.foldl]
      rw [StringMap.set_other _ _ h7, StringMap.set_other _ _ h6, StringMap.set_other _ _ h5,
        StringMap.set_other _ _ h4, StringMap.set_other _ _ h3, StringMap.set_other _ _ h2,
        StringMap.set_other _ _ h1]
      exact h

/-! ## The signer attributes of a UZI token -/

/-- C18, refuted: for a certificate with the two other names of seven fields
`2.16.528.1.1007.99.218-1-900021219-N-90000382-00.000-00000000` and `a-b-c-d-e-f-g`,
`SignerAttributes` returns the fields of the second; the `uziNr` is `c`, not
`900021219`. -/
theorem SignerAttributes_two_names :
    (((sampleUziToken "signed" uziLeaf [sampleOtherName, "a-b-c-d-e-f-g"]).SignerAttributes).toOption.map
      (fun attrs => (attrs "oidCa", attrs "uziNr"))) = some (some "a", some "c") := by
  decide

/-- C18 (amended): when the other names of the leaf certificate hold a string of seven
fields `f1-f2-f3-f4-f5-f6-f7` (no field holding a dash) that is followed only by
strings with another number of fields, `SignerAttributes` returns without error the map
with exactly the entries oidCa `f1`, version `f2`, uziNr `f3`, cardType `f4`, orgID
`f5`, rollCode `f6`, agbCode `f7`, whatever strings come before it.  Strings with
another number of fields contribute no entries; of several strings of seven fields the
last one decides. -/
theorem SignerAttributes_seven_fields (t : UziSignedToken) (before after : List String)
    (f1 f2 f3 f4 f5 f6 f7 : String)
    (hnames : t.jwtX509Token.SubjectAltNameOtherNames = .ok (before ++
      (f1 ++ "-" ++ f2 ++ "-" ++ f3 ++ "-" ++ f4 ++ "-" ++ f5 ++ "-" ++ f6 ++ "-" ++ f7) :: after))
    (hfields : ∀ f ∈ [f1, f2, f3, f4, f5, f6, f7], '-' ∉ f.toList)
    (hafter : ∀ o ∈ after, (strings.Split o '-').length ≠ 7) :
    ∃ attrs : StringMap, t.SignerAttributes = .ok attrs ∧
      attrs "oidCa" = some f1 ∧ attrs "version" = some f2 ∧ attrs "uziNr" = some f3 ∧
      attrs "cardType" = some f4 ∧ attrs "orgID" = some f5 ∧ attrs "rollCode" = some f6 ∧
      attrs "agbCode" = some f7 ∧
      ∀ k, k ∉ ["oidCa", "version", "uziNr", "cardType", "orgID", "rollCode", "agbCode"] →
        attrs k = none := by
  refine ⟨_, by rw [UziSignedToken.SignerAttributes, hnames], ?_⟩
  rw [List.foldl_append, List.foldl_cons, signerAttributesStep_skip after _ hafter,
    signerAttributesStep_seven _ _ _ _ _ _ _ _ _ (Split_seven f1 f2 f3 f4 f5 f6 f7 hfields)]
  refine ⟨?_, ?_, ?_, ?_, ?_, ?_, ?_, fun k hk => ?_⟩
  · simp [StringMap.set]
  · simp [StringMap.set]
  · simp [StringMap.set]
  · simp [StringMap.set]
  · simp [StringMap.set]
  · simp [StringMap.set]
  · simp [StringMap.set]
  · have hkeys := signerAttributes_keys before k hk StringMap.empty rfl
    simp only [List.mem_cons, List.mem_singleton, List.not_mem_nil, or_false, not_or] at hk
    obtain ⟨h1, h2, h3, h4, h5, h6, h7⟩ := hk
    rw [StringMap.set_other _ _ h7, StringMap.set_other _ _ h6, StringMap.set_other _ _ h5,
      StringMap.set_other _ _ h4, StringMap.set_other _ _ h3, StringMap.set_other _ _ h2,
      StringMap.set_other _ _ h1]
    exact hkeys

/-- C18 (amended), at the other name of the test card of the UZI register. -/
theorem SignerAttributes_seven_fields_witness :
    ∃ attrs : StringMap,
      (sampleUziToken "signed" uziLeaf [sampleOtherName]).SignerAttributes = .ok attrs ∧
      attrs "oidCa" = some "2.16.528.1.1007.99.218" ∧ attrs "version" = some "1" ∧
      attrs "uziNr" = some "900021219" ∧ attrs "cardType" = some "N" ∧
      attrs "orgID" = some "90000382" ∧ attrs "rollCode" = some "00.000" ∧
      attrs "agbCode" = some "00000000" ∧
      ∀ k, k ∉ ["oidCa", "version", "uziNr", "cardType", "orgID", "rollCode", "agbCode"] →
        attrs k = none :=
  SignerAttributes_seven_fields (sampleUziToken "signed" uziLeaf [sampleOtherName]) [] []
    "2.16.528.1.1007.99.218" "1" "900021219" "N" "90000382" "00.000" "00000000"
    rfl (by decide) (by simp)

/-! ## What `UziValidator.Verify` checks -/

/-- C19, refuted: a sample token whose leaf certificate has no extended key usage and
whose chain does not verify is rejected with the error of the chain validation, not
with the error about the extended key usage. -/
theorem Verify_plain_leaf_unverified_chain :
    plainLeaf.UnknownExtKeyUsage = [] ∧
    sampleUziValidator.Verify (.uzi (sampleUziToken "forged" plainLeaf [sampleOtherName])) =
      .error "unable to verify certificate chain" := by
  decide

/-- C19 (amended): if `UziValidator.Verify` returns nil, the token is a UZI token whose
leaf certificate `chain[0]` lists the object identifier 1.3.6.1.4.1.311.10.3.12 among
its extended key usages.  A token whose leaf does not list it is never accepted: it is
rejected with the error of the signer attributes or of the chain validation when one of
these fails, and otherwise with the error that the extended key usage for document
signing is missing. -/
theorem Verify_document_signing (u : UziValidator) (token : SignedToken) :
    (u.Verify token = .ok () →
      ∃ t leaf rest, token = .uzi t ∧ t.jwtX509Token.chain = leaf :: rest ∧
        [1, 3, 6, 1, 4, 1, 311, 10, 3, 12] ∈ leaf.UnknownExtKeyUsage) ∧
    (∀ t leaf rest, token = .uzi t → t.jwtX509Token.chain = leaf :: rest →
      [1, 3, 6, 1, 4, 1, 311, 10, 3, 12] ∉ leaf.UnknownExtKeyUsage →
      u.Verify token ≠ .ok () ∧
      (∀ err, t.SignerAttributes = .error err →
        u.Verify token =
          .error (errorf "invalid signer attributes in uzi certificate: " (some err))) ∧
      (∀ attrs err, t.SignerAttributes = .ok attrs →
        u.validator.Verify t.jwtX509Token = some err → u.Verify token = .error err) ∧
      (∀ attrs, t.SignerAttributes = .ok attrs → u.validator.Verify t.jwtX509Token = none →
        u.Verify token =
          .error ("certificate is missing the extended key usage for document signing " ++
            "(1.3.6.1.4.1.311.10.3.12)"))) := by
  have hany : ∀ leaf : Certificate,
      leaf.UnknownExtKeyUsage.any (fun keyUsage => keyUsage == extKeyUsageDocumentSigning) = true ↔
        [1, 3, 6, 1, 4, 1, 311, 10, 3, 12] ∈ leaf.UnknownExtKeyUsage := by
    intro leaf
    simp [List.any_eq_true, extKeyUsageDocumentSigning]
  have hmissing : ∀ t leaf rest attrs, t.jwtX509Token.chain = leaf :: rest →
      [1, 3, 6, 1, 4, 1, 311, 10, 3, 12] ∉ leaf.UnknownExtKeyUsage →
      t.SignerAttributes = .ok attrs → u.validator.Verify t.jwtX509Token = none →
      u.Verify (.uzi t) =
        .error ("certificate is missing the extended key usage for document signing " ++
          "(1.3.6.1.4.1.311.10.3.12)") := by
    intro t leaf rest attrs hchain hno hattrs hver
    have hf : leaf.UnknownExtKeyUsage.any
        (fun keyUsage => keyUsage == extKeyUsageDocumentSigning) = false := by
      cases hb : leaf.UnknownExtKeyUsage.any
          (fun keyUsage => keyUsage == extKeyUsageDocumentSigning) with
      | false => rfl
      | true => exact absurd ((hany leaf).mp hb) hno
    unfold UziValidator.Verify
    simp only [hattrs, hver, hchain, hf, Bool.false_eq_true, if_false]
    rfl
  constructor
  · intro hok
    cases token with
    | other => simp [UziValidator.Verify] at hok
    | uzi t =>
      unfold UziValidator.Verify at hok
      cases hattrs : t.SignerAttributes with
      | error err => simp [hattrs] at hok
      | ok attrs =>
        cases hver : u.validator.Verify t.jwtX509Token with
        | some err => simp [hattrs, hver] at hok
        | none =>
          cases hchain : t.jwtX509Token.chain with
          | nil => simp [hattrs, hver, hchain] at hok
          | cons leaf rest =>
            simp only [hattrs, hver, hchain] at hok
            refine ⟨t, leaf, rest, rfl, hchain, (hany leaf).mp ?_⟩
            by_contra hb
            simp [hb] at hok
  · intro t leaf rest htoken hchain hno
    subst htoken
    refine ⟨?_, fun err hattrs => ?_, fun attrs err hattrs hver => ?_,
      fun attrs hattrs hver => hmissing t leaf rest attrs hchain hno hattrs hver⟩
    · cases hattrs : t.SignerAttributes with
      | error err => simp [UziValidator.Verify, hattrs]
      | ok attrs =>
        cases hver : u.validator.Verify t.jwtX509Token with
        | some err => simp [UziValidator.Verify, hattrs, hver]
        | none =>
          rw [hmissing t leaf rest attrs hchain hno hattrs hver]
          simp
    · simp [UziValidator.Verify, hattrs]
    · simp [UziValidator.Verify, hattrs, hver]

/-- C19 (amended), at the sample token, which `Verify` accepts. -/
theorem Verify_document_signing_witness :
    ∃ t leaf rest, SignedToken.uzi (sampleUziToken "signed" uziLeaf [sampleOtherName]) = .uzi t ∧
      t.jwtX509Token.chain = leaf :: rest ∧
      [1, 3, 6, 1, 4, 1, 311, 10, 3, 12] ∈ leaf.UnknownExtKeyUsage :=
  (Verify_document_signing sampleUziValidator
    (.uzi (sampleUziToken "signed" uziLeaf [sampleOtherName]))).1 (by decide)

/-- C20, refuted: the sample UZI token is bound to a contract valid on 1 October 2019
from 13:30:42 to 14:30:42; with the clock at 29 October 2020 the contract's own
`Verify` reports it expired, and `UziValidator.Verify` returns nil. -/
theorem Verify_accepts_expired_contract :
    (sampleUziToken "signed" uziLeaf [sampleOtherName]).Contract.Verify
        (sampleContractLibraries (time.Unix 1603929600 0)) =
      .error (.fresh "contract is expired since: 2019-10-01 14:30:42 +0200 CEST") ∧
    sampleUziValidator.Verify (.uzi (sampleUziToken "signed" uziLeaf [sampleOtherName])) =
      .ok () := by
  decide

/-- C20 (amended): `UziValidator.Verify` does not read the contract bound to the token:
it ends in the same way for every contract, so the validity window of the contract is
not part of this verification; the window is checked by `Contract.Verify` on the
contract of the token. -/
theorem Verify_ignores_contract (u : UziValidator) (t : UziSignedToken) (c : Contract) :
    u.Verify (.uzi { t with contract := c }) = u.Verify (.uzi t) ∧
    (UziSignedToken.Contract { t with contract := c }) = c := by
  constructor
  · unfold UziValidator.Verify UziSignedToken.SignerAttributes
    rfl
  · rfl

/-! ## The catalogue of `api/auth` -/

/-- C24: for every contract type and language, `ContractByType` returns a contract if
and only if the type is `PractitionerLogin` or `BehandelaarLogin`; the contract it
returns has the requested type, version `v1` and language `NL`.  `BehandelaarLogin`
yields a contract of type `BehandelaarLogin`, and `Unknown type` yields nil. -/
theorem ContractByType_known_types (contractType language : String) :
    ((auth.ContractByType contractType language).isSome = true ↔
      (contractType = "PractitionerLogin" ∨ contractType = "BehandelaarLogin")) ∧
    (∀ c, auth.ContractByType contractType language = some c →
      c.Type_ = contractType ∧ c.Version = "v1" ∧ c.Language = "NL") ∧
    (auth.ContractByType "BehandelaarLogin" language).map (fun c => c.Type_) =
      some "BehandelaarLogin" ∧
    auth.ContractByType "Unknown type" language = none := by
  refine ⟨?_, ?_, ?_, ?_⟩
  · unfold auth.ContractByType
    split <;> simp_all
  · intro c hc
    unfold auth.ContractByType at hc
    split at hc
    · cases hc
      exact ⟨rfl, rfl, rfl⟩
    · cases hc
  · simp [auth.ContractByType]
  · simp [auth.ContractByType]

/-! ## The `x5c` header -/

/-- C26: for every JWT header, `getCertificateFromHeaders` returns
`errMissingCertificate` when there is no `x5c` entry; it returns `errInvalidX5cHeader`
when `x5c` is not an array, when the array does not have exactly one element, and when
the element is not a string; when the string is not standard base64 it returns the
message of `errInvalidX5cHeader` followed by the error of the decoder.  Otherwise the
result is that of `x509.ParseCertificate` on the decoded bytes: only a one-element array
of a base64 string reaches certificate parsing, and for any other header the result
does not depend on the certificate parser. -/
theorem getCertificateFromHeaders_cases {C : Type} (lib : Libraries) (token : Token C) :
    (token.Header.lookup "x5c" = none →
      getCertificateFromHeaders lib token = .error errMissingCertificate) ∧
    (∀ h, token.Header.lookup "x5c" = some h → (∀ i, h ≠ .array i) →
      getCertificateFromHeaders lib token = .error errInvalidX5cHeader) ∧
    (∀ i, token.Header.lookup "x5c" = some (.array i) → i.length ≠ 1 →
      getCertificateFromHeaders lib token = .error errInvalidX5cHeader) ∧
    (∀ e, token.Header.lookup "x5c" = some (.array [e]) → (∀ c, e ≠ .string c) →
      getCertificateFromHeaders lib token = .error errInvalidX5cHeader) ∧
    (∀ c err, token.Header.lookup "x5c" = some (.array [.string c]) →
      lib.DecodeString c = .error err →
      getCertificateFromHeaders lib token = .error ("invalid x5c header" ++ ": " ++ err)) ∧
    (∀ c bytes, token.Header.lookup "x5c" = some (.array [.string c]) →
      lib.DecodeString c = .ok bytes →
      getCertificateFromHeaders lib token = lib.ParseCertificate bytes) ∧
    ((¬ ∃ c bytes, token.Header.lookup "x5c" = some (.array [.string c]) ∧
        lib.DecodeString c = .ok bytes) →
      ∀ parse : List Nat → Except Error Certificate,
        getCertificateFromHeaders { lib with ParseCertificate := parse } token =
          getCertificateFromHeaders lib token) ∧
    errMissingCertificate = "missing x5c header" ∧ errInvalidX5cHeader = "invalid x5c header" := by
  refine ⟨fun h => ?_, fun h hl hna => ?_, fun i hl hlen => ?_, fun e hl hns => ?_,
    fun c err hl hd => ?_, fun c bytes hl hd => ?_, fun hno parse => ?_, rfl, rfl⟩
  · simp [getCertificateFromHeaders, h]
  · unfold getCertificateFromHeaders
    rw [hl]
    cases h with
    | array i => exact absurd rfl (hna i)
    | null => rfl
    | bool b => rfl
    | number n => rfl
    | string s => rfl
    | object f => rfl
  · unfold getCertificateFromHeaders
    rw [hl]
    simp [hlen]
  · unfold getCertificateFromHeaders
    rw [hl]
    cases e with
    | string c => exact absurd rfl (hns c)
    | null => rfl
    | bool b => rfl
    | number n => rfl
    | array i => rfl
    | object f => rfl
  · unfold getCertificateFromHeaders
    rw [hl]
    simp [hd, errInvalidX5cHeader]
  · unfold getCertificateFromHeaders
    rw [hl]
    simp [hd]
  · unfold getCertificateFromHeaders
    cases hl : token.Header.lookup "x5c" with
    | none => rfl
    | some h =>
      cases h with
      | array i =>
        by_cases hlen : i.length = 1
        · obtain ⟨e, rfl⟩ := List.length_eq_one.mp hlen
          cases e with
          | string c =>
            cases hd : lib.DecodeString c with
            | ok bytes => exact absurd ⟨c, bytes, hl, hd⟩ hno
            | error err => simp [hd]
          | null => rfl
          | bool b => rfl
          | number n => rfl
          | array i => rfl
          | object f => rfl
        · simp [hlen]
      | null => rfl
      | bool b => rfl
      | number n => rfl
      | string s => rfl
      | object f => rfl

/-! ## The loop over the verified chains -/

/-- The loop over the verified chains panics exactly when it reaches an empty chain:
the chains before it are not empty and have a root of another vendor. -/
theorem vendorMatch_fault_iff (lib : Libraries) (actor : Organization)
    (chains : List (List Certificate)) :
    (vendorMatch lib actor chains).res = .fault ↔
      ∃ pre post, chains = pre ++ [] :: post ∧
        ∀ chain ∈ pre, ∃ root, chain.getLast? = some root ∧
          (lib.VendorIDFromCertificate root).1.String ≠ actor.Vendor.String := by
  induction chains with
  | nil =>
    constructor
    · intro h
      simp [vendorMatch, Run.pure_def, Run.pure] at h
    · rintro ⟨pre, post, h, -⟩
      simp at h
  | cons chain chains ih =>
    unfold vendorMatch
    cases hl : chain.getLast? with
    | none =>
      have hc : chain = [] := List.getLast?_eq_none_iff.mp hl
      subst hc
      constructor
      · intro _
        exact ⟨[], chains, rfl, by simp⟩
      · intro _
        rfl
    | some root =>
      have hne : chain ≠ [] := by
        intro hc
        subst hc
        simp at hl
      simp only
      by_cases hv : (lib.VendorIDFromCertificate root).1.String = actor.Vendor.String
      · simp only [hv, beq_self_eq_true, if_true]
        constructor
        · intro h
          simp [Run.pure_def, Run.pure] at h
        · rintro ⟨pre, post, h, hpre⟩
          cases pre with
          | nil =>
            simp only [List.nil_append, List.cons.injEq] at h
            exact absurd h.1 hne
          | cons p pre =>
            simp only [List.cons_append, List.cons.injEq] at h
            obtain ⟨root2, hr2, hv2⟩ := hpre p (by simp)
            rw [← h.1, hl] at hr2
            cases hr2
            exact absurd hv hv2
      · have hb : ((lib.VendorIDFromCertificate root).1.String == actor.Vendor.String) = false := by
          simpa using hv
        simp only [hb, Bool.false_eq_true, if_false]
        rw [ih]
        constructor
        · rintro ⟨pre, post, h, hpre⟩
          refine ⟨chain :: pre, post, by simp [h], ?_⟩
          intro c hc
          rcases List.mem_cons.mp hc with rfl | hc
          · exact ⟨root, hl, hv⟩
          · exact hpre c hc
        · rintro ⟨pre, post, h, hpre⟩
          cases pre with
          | nil =>
            simp only [List.nil_append, List.cons.injEq] at h
            exact absurd h.1 hne
          | cons p pre =>
            simp only [List.cons_append, List.cons.injEq] at h
            exact ⟨pre, post, h.2, fun c hc => hpre c (by simp [hc])⟩

/-- C28, refuted: the sample trust store answers without error with the non-empty list
of chains that holds one empty chain; the run of `CreateAccessToken` panics after the
call to the trust store. -/
theorem CreateAccessToken_panics_on_empty_chain :
    emptyChainService.crypto.TrustStore.VerifiedChain (some sampleLeaf)
        (time.Unix sampleClaims.IssuedAt 0) = .ok [[]] ∧
    ([[]] : List (List Certificate)) ≠ [] ∧
    CreateAccessToken (sampleLibraries sampleClaims) emptyChainService sampleRequest =
      ⟨[Call.OrganizationById ⟨"urn:oid:2.16.840.1.113883.2.4.6.1:custodian"⟩,
        Call.OrganizationById ⟨"urn:oid:2.16.840.1.113883.2.4.6.1:actor"⟩,
        Call.VerifiedChain (some sampleLeaf) (time.Unix 1600000000 0)], .fault⟩ :=
  ⟨rfl, by decide, by decide⟩

/-- C28 (amended): the access to the root of a chain, `chain[len(chain)-1]`, is in
bounds for every chain that is not empty.  The loop over the verified chains panics
exactly when it reaches an empty chain before a chain whose root has the vendor of the
actor; for a list of chains none of which is empty it runs without a fault, and a run
of `CreateAccessToken` that panics had an empty chain in the answer of the trust
store. -/
theorem vendorMatch_fault_free (lib : Libraries) (actor : Organization)
    (chains : List (List Certificate)) :
    ((vendorMatch lib actor chains).res = .fault ↔
      ∃ pre post, chains = pre ++ [] :: post ∧
        ∀ chain ∈ pre, ∃ root, chain.getLast? = some root ∧
          (lib.VendorIDFromCertificate root).1.String ≠ actor.Vendor.String) ∧
    ((∀ chain ∈ chains, chain ≠ []) → (vendorMatch lib actor chains).res ≠ .fault) ∧
    (∀ (s : service) (request : CreateAccessTokenRequest) (T : List Call),
      CreateAccessToken lib s request = ⟨T, .fault⟩ →
      ∃ cert moment answer, s.crypto.TrustStore.VerifiedChain cert moment = .ok answer ∧
        [] ∈ answer) := by
  refine ⟨vendorMatch_fault_iff lib actor chains, fun hne hf => ?_, fun s request T h => ?_⟩
  · obtain ⟨pre, post, hc, -⟩ := (vendorMatch_fault_iff lib actor chains).mp hf
    exact hne [] (by simp [hc]) rfl
  · obtain ⟨jwt, custPartyID, custodian, actorPartyID, actor2, answer, -, -, -, -, -, -, hv, hf, -⟩ :=
      CreateAccessToken_fault_inv h
    obtain ⟨pre, post, hc, -⟩ := (vendorMatch_fault_iff lib actor2 answer).mp hf
    exact ⟨_, _, answer, hv, by simp [hc]⟩

/-! ## How `Contract.Verify` fails -/

/-- The error that a contract is not yet valid and the error that it is expired have
different messages, whatever the times printed in them. -/
theorem notYetValid_ne_expired (a b : String) :
    "contract is not yet valid. now: " ++ a ≠ "contract is expired since: " ++ b := by
  intro h
  have hd := congrArg String.data h
  simp only [String.data_append] at hd
  simp at hd

/-- C25: for a contract with a template, `Verify` returns an error that wraps
`ErrInvalidContractText` exactly when `valid_from` or `valid_to` is absent from the
parameters or is not parsed by `parseTime`, or `valid_from` is after `valid_to`.
Otherwise it returns the error `contract is not yet valid` exactly when the clock is
before `valid_from`, and the error `contract is expired` exactly when the clock is after
`valid_to`; these two errors differ from each other and do not wrap
`ErrInvalidContractText`. -/
theorem Verify_classification (lib : ContractLibraries) (sc : Contract) (template : Template)
    (ht : sc.Template = some template) :
    ((∃ err, sc.Verify lib = .error err ∧ err.Is ErrInvalidContractText = true) ↔
      (mapLookup sc.Params ValidFromAttr = none ∨ mapLookup sc.Params ValidToAttr = none ∨
        (∃ str err, mapLookup sc.Params ValidFromAttr = some str ∧
          parseTime lib str template.Language = .error err) ∨
        (∃ str err, mapLookup sc.Params ValidToAttr = some str ∧
          parseTime lib str template.Language = .error err) ∨
        (∃ fromStr toStr validFrom validTo,
          mapLookup sc.Params ValidFromAttr = some fromStr ∧
          mapLookup sc.Params ValidToAttr = some toStr ∧
          parseTime lib fromStr template.Language = .ok validFrom ∧
          parseTime lib toStr template.Language = .ok validTo ∧
          validFrom.nanos > validTo.nanos))) ∧
    (∀ fromStr toStr validFrom validTo,
      mapLookup sc.Params ValidFromAttr = some fromStr →
      mapLookup sc.Params ValidToAttr = some toStr →
      parseTime lib fromStr template.Language = .ok validFrom →
      parseTime lib toStr template.Language = .ok validTo →
      validFrom.nanos ≤ validTo.nanos →
      (sc.Verify lib = .error (.fresh ("contract is not yet valid. now: " ++
          lib.timeString lib.NowFunc ++ ", validFrom: " ++ lib.timeString validFrom)) ↔
        lib.NowFunc.nanos < validFrom.nanos) ∧
      (sc.Verify lib = .error (.fresh ("contract is expired since: " ++
          lib.timeString validTo)) ↔
        lib.NowFunc.nanos > validTo.nanos) ∧
      (sc.Verify lib = .ok () ↔
        validFrom.nanos ≤ lib.NowFunc.nanos ∧ lib.NowFunc.nanos ≤ validTo.nanos)) ∧
    (∀ a b c : String,
      GoError.fresh ("contract is not yet valid. now: " ++ a ++ ", validFrom: " ++ b) ≠
        GoError.fresh ("contract is expired since: " ++ c) ∧
      (GoError.fresh ("contract is not yet valid. now: " ++ a ++ ", validFrom: " ++ b)).Is
        ErrInvalidContractText = false ∧
      (GoError.fresh ("contract is expired since: " ++ c)).Is ErrInvalidContractText = false) := by
  refine ⟨?_, ?_, ?_⟩
  · unfold Contract.Verify
    simp only [ht]
    cases hf : mapLookup sc.Params ValidFromAttr with
    | none =>
      simp only [true_or, iff_true]
      exact ⟨_, rfl, invalidContractText_Is _⟩
    | some fromStr =>
      simp only
      cases hpf : parseTime lib fromStr template.Language with
      | error err =>
        simp only
        constructor
        · intro _
          exact Or.inr (Or.inr (Or.inl ⟨fromStr, err, rfl, hpf⟩))
        · intro _
          exact ⟨_, rfl, invalidContractText_Is _⟩
      | ok validFrom =>
        simp only
        cases hto : mapLookup sc.Params ValidToAttr with
        | none =>
          simp only [true_or, or_true, iff_true]
          exact ⟨_, rfl, invalidContractText_Is _⟩
        | some toStr =>
          simp only
          cases hpt : parseTime lib toStr template.Language with
          | error err =>
            simp only
            constructor
            · intro _
              exact Or.inr (Or.inr (Or.inr (Or.inl ⟨toStr, err, rfl, hpt⟩)))
            · intro _
              exact ⟨_, rfl, invalidContractText_Is _⟩
          | ok validTo =>
            simp only [Time.After, Time.Before]
            by_cases hgt : validFrom.nanos > validTo.nanos
            · simp only [hgt, decide_True, if_true]
              constructor
              · intro _
                exact Or.inr (Or.inr (Or.inr (Or.inr
                  ⟨fromStr, toStr, validFrom, validTo, rfl, rfl, hpf, hpt, hgt⟩)))
              · intro _
                exact ⟨_, rfl, invalidContractText_Is _⟩
            · simp only [hgt, decide_False, Bool.false_eq_true, if_false]
              constructor
              · rintro ⟨err, he, his⟩
                exfalso
                by_cases hb : lib.NowFunc.nanos < validFrom.nanos
                · simp only [hb, decide_True, if_true, Outcome.error.injEq] at he
                  subst he
                  simp [GoError.Is, ErrInvalidContractText] at his
                · simp only [hb, decide_False, Bool.false_eq_true, if_false] at he
                  by_cases ha : lib.NowFunc.nanos > validTo.nanos
                  · simp only [ha, decide_True, if_true, Outcome.error.injEq] at he
                    subst he
                    simp [GoError.Is, ErrInvalidContractText] at his
                  · simp [ha] at he
              · rintro (h | h | ⟨str, err, h1, h2⟩ | ⟨str, err, h1, h2⟩ |
                  ⟨f2, t2, vf2, vt2, h1, h2, h3, h4, h5⟩)
                · cases h
                · cases h
                · cases h1
                  rw [hpf] at h2
                  cases h2
                · cases h1
                  rw [hpt] at h2
                  cases h2
                · cases h1
                  cases h2
                  rw [hpf] at h3
                  rw [hpt] at h4
                  cases h3
                  cases h4
                  exact absurd h5 hgt
  · intro fromStr toStr validFrom validTo hf hto hpf hpt hle
    unfold Contract.Verify
    simp only [hf, hto, ht, hpf, hpt, Time.After, Time.Before]
    have h1 : ¬ (validFrom.nanos > validTo.nanos) := by omega
    simp only [h1, decide_False, Bool.false_eq_true, if_false, decide_eq_true_eq]
    by_cases hb : lib.NowFunc.nanos < validFrom.nanos
    · simp only [hb, if_true, true_iff, iff_true]
      refine ⟨trivial, ?_, ?_⟩
      · constructor
        · intro h
          simp only [Outcome.error.injEq, GoError.fresh.injEq] at h
          rw [String.append_assoc, String.append_assoc] at h
          exact absurd h (notYetValid_ne_expired _ _)
        · intro h
          omega
      · constructor
        · intro h
          cases h
        · intro h
          omega
    · simp only [hb, if_false, iff_false]
      by_cases ha : lib.NowFunc.nanos > validTo.nanos
      · simp only [ha, if_true, iff_true]
        refine ⟨?_, trivial, ?_⟩
        · intro h
          simp only [Outcome.error.injEq, GoError.fresh.injEq] at h
          rw [String.append_assoc, String.append_assoc] at h
          exact notYetValid_ne_expired _ _ h.symm
        · constructor
          · intro h
            cases h
          · intro h
            omega
      · simp only [ha, if_false, iff_false, true_iff]
        exact ⟨(fun h => nomatch h), (fun h => nomatch h), by omega, by omega⟩
  · intro a b c
    refine ⟨fun h => ?_, by simp [GoError.Is, ErrInvalidContractText],
      by simp [GoError.Is, ErrInvalidContractText]⟩
    simp only [GoError.fresh.injEq] at h
    rw [String.append_assoc, String.append_assoc] at h
    exact notYetValid_ne_expired _ _ h

/-- C25, at the sample contract with the clock on 29 October 2020: the contract is
expired. -/
theorem Verify_classification_witness :
    sampleContract.Verify (sampleContractLibraries (time.Unix 1603929600 0)) =
      .error (.fresh ("contract is expired since: " ++ "2019-10-01 14:30:42 +0200 CEST")) :=
  (((Verify_classification (sampleContractLibraries (time.Unix 1603929600 0)) sampleContract
    sampleTemplate rfl).2.1 "dinsdag, 1 oktober 2019 13:30:42" "dinsdag, 1 oktober 2019 14:30:42"
    (time.Unix 1569929442 0) (time.Unix 1569933042 0) (by decide) (by decide) rfl rfl
    (by decide)).2.1).2 (by decide)

/-! ## `Template.Render`: the map of the caller, and panics -/

/-- What `Render` does to the map of the caller, and when it panics: a nil map panics at
the first write; a map that is not nil receives the two computed entries and keeps its
other entries, and the call panics exactly when mustache renders the template and the
regular expression of the template does not compile. -/
theorem Render_fault_iff (lib : ContractLibraries) (T : Template) (t : Time) (d : Int) :
    T.Render lib none t d = (none, .fault) ∧
    ∀ vars : StringMap,
      (∃ merged : StringMap, (T.Render lib (some vars) t d).1 = some merged ∧
        merged ValidFromAttr =
          some (lib.mondayFormat t AmsterdamTimeZone timeLayout monday.LocaleNlNL) ∧
        merged ValidToAttr =
          some (lib.mondayFormat (t.Add d) AmsterdamTimeZone timeLayout monday.LocaleNlNL) ∧
        (∀ k, k ≠ ValidFromAttr → k ≠ ValidToAttr → merged k = vars k) ∧
        ((T.Render lib (some vars) t d).2 = .fault ↔
          (∃ raw, lib.mustacheRender T.Template_ merged = .ok raw) ∧
            lib.regexpCompile T.Regexp = none)) := by
  refine ⟨rfl, fun vars => ?_⟩
  refine ⟨(vars.set ValidFromAttr
      (lib.mondayFormat t AmsterdamTimeZone timeLayout monday.LocaleNlNL)).set ValidToAttr
      (lib.mondayFormat (t.Add d) AmsterdamTimeZone timeLayout monday.LocaleNlNL), ?_, ?_, ?_, ?_, ?_⟩
  · unfold Template.Render
    simp only [Template.timeLocation]
    split
    · rfl
    · split <;> rfl
  · rw [StringMap.set_other _ _ (by decide), StringMap.set_same]
  · rw [StringMap.set_same]
  · intro k h1 h2
    rw [StringMap.set_other _ _ h2, StringMap.set_other _ _ h1]
  · unfold Template.Render
    simp only [Template.timeLocation]
    cases hm : lib.mustacheRender T.Template_ ((vars.set ValidFromAttr
        (lib.mondayFormat t AmsterdamTimeZone timeLayout monday.LocaleNlNL)).set ValidToAttr
        (lib.mondayFormat (t.Add d) AmsterdamTimeZone timeLayout monday.LocaleNlNL)) with
    | error err => simp
    | ok raw =>
      simp only
      cases hc : lib.regexpCompile T.Regexp with
      | none => simp [Contract.initParams, hc]
      | some FindSubmatch =>
        rcases initParams_cases lib { RawContractText := raw, Template := some T } T
          FindSubmatch rfl hc with ⟨-, hi⟩ | ⟨whole, groups, -, -, hi⟩ | ⟨whole, groups, -, -, hi⟩
        · simp [hi]
        · simp [hi]
        · simp [hi]

/-- C29: `Render` with a map that is not nil panics for the sample template whose
regular expression does not compile: mustache renders the template, and `initParams`
then calls `FindSubmatch` on the nil pointer that `regexp.Compile` returned. -/
theorem Render_panics_on_template_without_regexp :
    ((sampleContractLibraries sampleValidFrom).regexpCompile brokenTemplate.Regexp).isNone = true ∧
    ((sampleContractLibraries sampleValidFrom).mustacheRender brokenTemplate.Template_
      ((sampleVars.set ValidFromAttr "dinsdag, 1 oktober 2019 13:30:42").set ValidToAttr
        "dinsdag, 1 oktober 2019 14:30:42")).toOption = some "NL:Broken:v1 tekst" ∧
    (brokenTemplate.Render (sampleContractLibraries sampleValidFrom) (some sampleVars)
      sampleValidFrom time.Hour).2 = .fault := by
  refine ⟨by decide, by decide, ?_⟩
  obtain ⟨merged, hm, -, -, -, hf⟩ := (Render_fault_iff (sampleContractLibraries sampleValidFrom)
    brokenTemplate sampleValidFrom time.Hour).2 sampleVars
  have hmerged : merged = (sampleVars.set ValidFromAttr
      ((sampleContractLibraries sampleValidFrom).mondayFormat sampleValidFrom AmsterdamTimeZone
        timeLayout monday.LocaleNlNL)).set ValidToAttr
      ((sampleContractLibraries sampleValidFrom).mondayFormat (sampleValidFrom.Add time.Hour)
        AmsterdamTimeZone timeLayout monday.LocaleNlNL) := by
    have : some merged = some _ := hm.symm.trans rfl
    exact Option.some.inj this
  subst hmerged
  exact hf.mpr ⟨⟨"NL:Broken:v1 tekst", rfl⟩, rfl⟩

/-! ## The order of the exchange pipeline -/

theorem vendorMatch_eq (lib : Libraries) (actor : Organization) (chains : List (List Certificate)) :
    vendorMatch lib actor chains = ⟨[], (vendorMatch lib actor chains).res⟩ := by
  have h : vendorMatch lib actor chains =
      ⟨(vendorMatch lib actor chains).trace, (vendorMatch lib actor chains).res⟩ := rfl
  rw [vendorMatch_trace] at h
  exact h

/-- The calls of a run of `CreateAccessToken`, stage by stage: the trace is one of eight
lists, and every stage that was passed left its answers behind. -/
theorem CreateAccessToken_stages (lib : Libraries) (s : service) (request : CreateAccessTokenRequest) :
    (CreateAccessToken lib s request).trace = [] ∨
    ∃ jwt custPartyID,
      (parseAndValidateJwtBearerToken lib request.RawJwtBearerToken).res = .ok (some jwt, none) ∧
      lib.ParsePartyID jwt.Subject = .ok custPartyID ∧
      ((CreateAccessToken lib s request).trace = [Call.OrganizationById custPartyID] ∨
      ∃ custodian actorPartyID,
        s.registry.OrganizationById custPartyID = .ok custodian ∧
        custodian.Vendor.String = lib.NutsConfigVendorID.String ∧
        lib.ParsePartyID jwt.Issuer = .ok actorPartyID ∧
        ((CreateAccessToken lib s request).trace =
          [Call.OrganizationById custPartyID, Call.OrganizationById actorPartyID] ∨
        ∃ actor,
          s.registry.OrganizationById actorPartyID = .ok actor ∧
          ((CreateAccessToken lib s request).trace =
            [Call.OrganizationById custPartyID, Call.OrganizationById actorPartyID,
              Call.VerifiedChain jwt.SigningCertificate (time.Unix jwt.IssuedAt 0)] ∨
          ∃ chains,
            s.crypto.TrustStore.VerifiedChain jwt.SigningCertificate (time.Unix jwt.IssuedAt 0) =
              .ok chains ∧
            chains ≠ [] ∧
            (vendorMatch lib actor chains).res = .ok true ∧
            ¬ (int64Sub jwt.ExpiresAt jwt.IssuedAt > OauthBearerTokenMaxValidity) ∧
            ((CreateAccessToken lib s request).trace =
              [Call.OrganizationById custPartyID, Call.OrganizationById actorPartyID,
                Call.VerifiedChain jwt.SigningCertificate (time.Unix jwt.IssuedAt 0),
                Call.ValidateJwt jwt.AuthTokenContainer request.VendorIdentifier] ∨
            ∃ res,
              s.contractValidator.ValidateJwt jwt.AuthTokenContainer request.VendorIdentifier =
                .ok res ∧
              res.ValidationResult ≠ services.Invalid ∧
              ((jwt.SubjectID ≠ "" ∧
                (CreateAccessToken lib s request).trace =
                  [Call.OrganizationById custPartyID, Call.OrganizationById actorPartyID,
                    Call.VerifiedChain jwt.SigningCertificate (time.Unix jwt.IssuedAt 0),
                    Call.ValidateJwt jwt.AuthTokenContainer request.VendorIdentifier,
                    Call.QueryConsent jwt.Issuer jwt.Subject jwt.SubjectID
                      (time.Unix jwt.IssuedAt 0)]) ∨
              (jwt.SubjectID = "" ∧ res.ValidationResult = services.Valid ∧
                (CreateAccessToken lib s request).trace =
                  [Call.OrganizationById custPartyID, Call.OrganizationById actorPartyID,
                    Call.VerifiedChain jwt.SigningCertificate (time.Unix jwt.IssuedAt 0),
                    Call.ValidateJwt jwt.AuthTokenContainer request.VendorIdentifier,
                    Call.SignJWT (accessTokenClaims lib.Now jwt res) s.oauthKeyEntity]) ∨
              (jwt.SubjectID ≠ "" ∧ res.ValidationResult = services.Valid ∧
                (∃ legalBase, s.consent.QueryConsent jwt.Issuer jwt.Subject jwt.SubjectID
                  (time.Unix jwt.IssuedAt 0) = .ok legalBase ∧ legalBase ≠ []) ∧
                (CreateAccessToken lib s request).trace =
                  [Call.OrganizationById custPartyID, Call.OrganizationById actorPartyID,
                    Call.VerifiedChain jwt.SigningCertificate (time.Unix jwt.IssuedAt 0),
                    Call.ValidateJwt jwt.AuthTokenContainer request.VendorIdentifier,
                    Call.QueryConsent jwt.Issuer jwt.Subject jwt.SubjectID
                      (time.Unix jwt.IssuedAt 0),
                    Call.SignJWT (accessTokenClaims lib.Now jwt res) s.oauthKeyEntity]))))))
    := by
  obtain ⟨r, hr, hnone⟩ := parseAndValidateJwtBearerToken_quiet lib request.RawJwtBearerToken
  have hp : (parseAndValidateJwtBearerToken lib request.RawJwtBearerToken).res = .ok r := by
    rw [hr]
  unfold CreateAccessToken
  simp only [Run.bind_def, Run.pure_def]
  rw [hr, Run.bind_nil_ok]
  rcases r with ⟨_ | jwt, _ | e⟩
  · exact absurd rfl (hnone rfl)
  · left; rfl
  · dsimp only
    cases h1 : lib.ParsePartyID jwt.Subject with
    | error e => left; simp [Run.orFail, Run.fail, Run.bind, h1]
    | ok custPartyID =>
      right
      refine ⟨jwt, custPartyID, rfl, h1, ?_⟩
      cases h2 : s.registry.OrganizationById custPartyID with
      | error e => left; simp [Run.orFail, Run.pure, Run.callE, Run.bind, h1, h2]
      | ok custodian =>
        by_cases h3 : custodian.Vendor.String = lib.NutsConfigVendorID.String
        swap
        · left
          have h3b : (custodian.Vendor.String != lib.NutsConfigVendorID.String) = true := by
            simpa using h3
          simp [Run.orFail, Run.pure, Run.callE, Run.bind, Run.failIf, Run.fail, h1, h2, h3b]
        have h3b : (custodian.Vendor.String != lib.NutsConfigVendorID.String) = false := by
          simpa using h3
        cases h4 : lib.ParsePartyID jwt.Issuer with
        | error e =>
          left
          simp [Run.orFail, Run.pure, Run.callE, Run.bind, Run.failIf, Run.fail, h1, h2, h3b, h4]
        | ok actorPartyID =>
          right
          refine ⟨custodian, actorPartyID, rfl, h3, rfl, ?_⟩
          cases h5 : s.registry.OrganizationById actorPartyID with
          | error e =>
            left
            simp [Run.orFail, Run.pure, Run.callE, Run.bind, Run.failIf, Run.fail, h1, h2, h3b, h4, h5]
          | ok actor =>
            right
            refine ⟨actor, rfl, ?_⟩
            cases h6 : s.crypto.TrustStore.VerifiedChain jwt.SigningCertificate
                (time.Unix jwt.IssuedAt 0) with
            | error e =>
              left
              simp [Run.orFail, Run.pure, Run.callE, Run.bind, Run.failIf, Run.fail, h1, h2, h3b, h4,
                h5, h6]
            | ok chains =>
              by_cases h7 : chains = []
              · left
                subst h7
                simp [Run.orFail, Run.pure, Run.callE, Run.bind, Run.failIf, Run.fail, h1, h2, h3b,
                  h4, h5, h6]
              have h7b : (chains.length == 0) = false := by
                simpa using h7
              have hvm := vendorMatch_eq lib actor chains
              cases h8 : (vendorMatch lib actor chains).res with
              | fault =>
                left
                rw [h8] at hvm
                simp [Run.orFail, Run.pure, Run.callE, Run.bind, Run.failIf, Run.fail, h1, h2, h3b,
                  h4, h5, h6, h7b, hvm]
              | error e =>
                left
                rw [h8] at hvm
                simp [Run.orFail, Run.pure, Run.callE, Run.bind, Run.failIf, Run.fail, h1, h2, h3b,
                  h4, h5, h6, h7b, hvm]
              | ok isMatch =>
                rw [h8] at hvm
                cases isMatch with
                | false =>
                  left
                  simp [Run.orFail, Run.pure, Run.callE, Run.bind, Run.failIf, Run.fail, h1, h2, h3b,
                    h4, h5, h6, h7b, hvm]
                | true =>
                  by_cases h9 : int64Sub jwt.ExpiresAt jwt.IssuedAt > OauthBearerTokenMaxValidity
                  · left
                    simp [Run.orFail, Run.pure, Run.callE, Run.bind, Run.failIf, Run.fail, h1, h2,
                      h3b, h4, h5, h6, h7b, hvm, h9]
                  right
                  refine ⟨chains, rfl, h7, h8, h9, ?_⟩
                  cases h10 : s.contractValidator.ValidateJwt jwt.AuthTokenContainer
                      request.VendorIdentifier with
                  | error e =>
                    left
                    simp [Run.orFail, Run.pure, Run.callE, Run.bind, Run.failIf, Run.fail, h1, h2,
                      h3b, h4, h5, h6, h7b, hvm, h9, h10]
                  | ok res =>
                    by_cases h11 : res.ValidationResult = services.Invalid
                    · left
                      simp [Run.orFail, Run.pure, Run.callE, Run.bind, Run.failIf, Run.fail, h1, h2,
                        h3b, h4, h5, h6, h7b, hvm, h9, h10, h11]
                    have h11b : (res.ValidationResult == services.Invalid) = false := by
                      simpa using h11
                    by_cases h12 : jwt.SubjectID = ""
                    · have h12b : (jwt.SubjectID != "") = false := by
                        simpa using h12
                      by_cases h13 : res.ValidationResult = services.Valid
                      · have h13b : (res.ValidationResult != services.Valid) = false := by
                          simpa using h13
                        by_cases h14 : jwt.Subject = ""
                        · left
                          simp [Run.orFail, Run.pure, Run.callE, Run.bind, Run.failIf, Run.fail, h1,
                            h2, h3b, h4, h5, h6, h7b, hvm, h9, h10, h11b, h12b, buildAccessToken,
                            Run.bind_def, h13b, h14]
                        · have h14b : (jwt.Subject == "") = false := by
                            simpa using h14
                          right
                          refine ⟨res, rfl, h11, Or.inr (Or.inl ⟨h12, h13, ?_⟩)⟩
                          cases h15 : s.crypto.SignJWT (accessTokenClaims lib.Now jwt res)
                              s.oauthKeyEntity with
                          | error e =>
                            simp [Run.orFail, Run.pure, Run.callE, Run.bind, Run.failIf, Run.fail,
                              h1, h2, h3b, h4, h5, h6, h7b, hvm, h9, h10, h11b, h12b,
                              buildAccessToken, Run.bind_def, h13b, h14b, h15]
                          | ok t =>
                            simp [Run.orFail, Run.pure, Run.callE, Run.bind, Run.failIf, Run.fail,
                              h1, h2, h3b, h4, h5, h6, h7b, hvm, h9, h10, h11b, h12b,
                              buildAccessToken, Run.bind_def, h13b, h14b, h15]
                      · left
                        have h13b : (res.ValidationResult != services.Valid) = true := by
                          simpa using h13
                        simp [Run.orFail, Run.pure, Run.callE, Run.bind, Run.failIf, Run.fail, h1,
                          h2, h3b, h4, h5, h6, h7b, hvm, h9, h10, h11b, h12b, buildAccessToken,
                          Run.bind_def, h13b]
                    · have h12b : (jwt.SubjectID != "") = true := by
                        simpa using h12
                      right
                      refine ⟨res, rfl, h11, ?_⟩
                      cases h16 : s.consent.QueryConsent jwt.Issuer jwt.Subject jwt.SubjectID
                          (time.Unix jwt.IssuedAt 0) with
                      | error e =>
                        left
                        refine ⟨h12, ?_⟩
                        simp [Run.orFail, Run.pure, Run.callE, Run.bind, Run.failIf, Run.fail, h1,
                          h2, h3b, h4, h5, h6, h7b, hvm, h9, h10, h11b, h12b, Run.bind_def, h16]
                      | ok legalBase =>
                        by_cases h17 : legalBase = []
                        · left
                          refine ⟨h12, ?_⟩
                          subst h17
                          simp [Run.orFail, Run.pure, Run.callE, Run.bind, Run.failIf, Run.fail, h1,
                            h2, h3b, h4, h5, h6, h7b, hvm, h9, h10, h11b, h12b, Run.bind_def, h16]
                        have h17b : (legalBase.length == 0) = false := by
                          simpa using h17
                        by_cases h13 : res.ValidationResult = services.Valid
                        · have h13b : (res.ValidationResult != services.Valid) = false := by
                            simpa using h13
                          by_cases h14 : jwt.Subject = ""
                          · left
                            refine ⟨h12, ?_⟩
                            simp [Run.orFail, Run.pure, Run.callE, Run.bind, Run.failIf, Run.fail,
                              h1, h2, h3b, h4, h5, h6, h7b, hvm, h9, h10, h11b, h12b,
                              buildAccessToken, Run.bind_def, h13b, h14, h16, h17b]
                          · have h14b : (jwt.Subject == "") = false := by
                              simpa using h14
                            right
                            right
                            refine ⟨h12, h13, ⟨legalBase, rfl, h17⟩, ?_⟩
                            cases h15 : s.crypto.SignJWT (accessTokenClaims lib.Now jwt res)
                                s.oauthKeyEntity with
                            | error e =>
                              simp [Run.orFail, Run.pure, Run.callE, Run.bind, Run.failIf, Run.fail,
                                h1, h2, h3b, h4, h5, h6, h7b, hvm, h9, h10, h11b, h12b,
                                buildAccessToken, Run.bind_def, h13b, h14b, h15, h16, h17b]
                            | ok t =>
                              simp [Run.orFail, Run.pure, Run.callE, Run.bind, Run.failIf, Run.fail,
                                h1, h2, h3b, h4, h5, h6, h7b, hvm, h9, h10, h11b, h12b,
                                buildAccessToken, Run.bind_def, h13b, h14b, h15, h16, h17b]
                        · left
                          refine ⟨h12, ?_⟩
                          have h13b : (res.ValidationResult != services.Valid) = true := by
                            simpa using h13
                          simp [Run.orFail, Run.pure, Run.callE, Run.bind, Run.failIf, Run.fail, h1,
                            h2, h3b, h4, h5, h6, h7b, hvm, h9, h10, h11b, h12b, buildAccessToken,
                            Run.bind_def, h13b, h16, h17b]
  · left; rfl

/-- C27, refuted: with an identity validation result whose state is neither `VALID` nor
`INVALID`, the sample run asks the consent store and stops afterwards, in
`buildAccessToken`, because the state is not `VALID`. -/
theorem CreateAccessToken_asks_consent_before_valid :
    undecidedValidation.ValidationResult ≠ services.Valid ∧
    CreateAccessToken (sampleLibraries sampleClaims)
        (sampleService vendorA (.ok undecidedValidation) (.ok [⟨"consent-1"⟩])) sampleRequest =
      ⟨[Call.OrganizationById ⟨"urn:oid:2.16.840.1.113883.2.4.6.1:custodian"⟩,
        Call.OrganizationById ⟨"urn:oid:2.16.840.1.113883.2.4.6.1:actor"⟩,
        Call.VerifiedChain (some sampleLeaf) (time.Unix 1600000000 0),
        Call.ValidateJwt "identity-token" "urn:oid:1.3.6.1.4.1.54851.4:vendorA",
        Call.QueryConsent "urn:oid:2.16.840.1.113883.2.4.6.1:actor"
          "urn:oid:2.16.840.1.113883.2.4.6.1:custodian"
          "urn:oid:2.16.840.1.113883.2.4.6.3:999999990" (time.Unix 1600000000 0)],
        .error "could not build accessToken: invalid contract"⟩ := by
  decide

/-- C27 (amended): the calls of `CreateAccessToken` come in a fixed order and every
step is fatal.  The contract validator is called only after the custodian was resolved
and found to be of the vendor of this node, the issuer was resolved, a verified chain
had a root of the vendor of the issuer, and the lifetime check passed.  The consent
store is queried only after that and after an identity validation result whose state
is not `INVALID`.  An access token is signed only after that, with a state that is
`VALID`, and, when a subject is present, after a consent answer that is not empty.
Every call except the last one of a run was answered without error. -/
theorem CreateAccessToken_pipeline_order (lib : Libraries) (s : service)
    (request : CreateAccessTokenRequest) :
    (∀ a v, Call.ValidateJwt a v ∈ (CreateAccessToken lib s request).trace →
      ∃ jwt custPartyID custodian actorPartyID actor chains,
        (parseAndValidateJwtBearerToken lib request.RawJwtBearerToken).res = .ok (some jwt, none) ∧
        lib.ParsePartyID jwt.Subject = .ok custPartyID ∧
        s.registry.OrganizationById custPartyID = .ok custodian ∧
        custodian.Vendor.String = lib.NutsConfigVendorID.String ∧
        lib.ParsePartyID jwt.Issuer = .ok actorPartyID ∧
        s.registry.OrganizationById actorPartyID = .ok actor ∧
        s.crypto.TrustStore.VerifiedChain jwt.SigningCertificate (time.Unix jwt.IssuedAt 0) =
          .ok chains ∧
        chains ≠ [] ∧ (vendorMatch lib actor chains).res = .ok true ∧
        ¬ (int64Sub jwt.ExpiresAt jwt.IssuedAt > OauthBearerTokenMaxValidity) ∧
        (CreateAccessToken lib s request).trace.take 4 =
          [Call.OrganizationById custPartyID, Call.OrganizationById actorPartyID,
            Call.VerifiedChain jwt.SigningCertificate (time.Unix jwt.IssuedAt 0),
            Call.ValidateJwt a v]) ∧
    (∀ i sub sid m, Call.QueryConsent i sub sid m ∈ (CreateAccessToken lib s request).trace →
      ∃ jwt custPartyID actorPartyID res,
        (parseAndValidateJwtBearerToken lib request.RawJwtBearerToken).res = .ok (some jwt, none) ∧
        s.contractValidator.ValidateJwt jwt.AuthTokenContainer request.VendorIdentifier = .ok res ∧
        res.ValidationResult ≠ services.Invalid ∧
        jwt.SubjectID ≠ "" ∧
        (CreateAccessToken lib s request).trace.take 5 =
          [Call.OrganizationById custPartyID, Call.OrganizationById actorPartyID,
            Call.VerifiedChain jwt.SigningCertificate (time.Unix jwt.IssuedAt 0),
            Call.ValidateJwt jwt.AuthTokenContainer request.VendorIdentifier,
            Call.QueryConsent i sub sid m]) ∧
    (∀ tok key, Call.SignJWT tok key ∈ (CreateAccessToken lib s request).trace →
      ∃ jwt custPartyID actorPartyID res,
        (parseAndValidateJwtBearerToken lib request.RawJwtBearerToken).res = .ok (some jwt, none) ∧
        s.contractValidator.ValidateJwt jwt.AuthTokenContainer request.VendorIdentifier = .ok res ∧
        res.ValidationResult = services.Valid ∧
        (jwt.SubjectID ≠ "" → ∃ legalBase,
          s.consent.QueryConsent jwt.Issuer jwt.Subject jwt.SubjectID (time.Unix jwt.IssuedAt 0) =
            .ok legalBase ∧ legalBase ≠ []) ∧
        (CreateAccessToken lib s request).trace =
          [Call.OrganizationById custPartyID, Call.OrganizationById actorPartyID,
            Call.VerifiedChain jwt.SigningCertificate (time.Unix jwt.IssuedAt 0),
            Call.ValidateJwt jwt.AuthTokenContainer request.VendorIdentifier] ++
          (if jwt.SubjectID ≠ "" then
            [Call.QueryConsent jwt.Issuer jwt.Subject jwt.SubjectID (time.Unix jwt.IssuedAt 0)]
          else []) ++ [Call.SignJWT tok key]) ∧
    (∀ k c, (CreateAccessToken lib s request).trace[k]? = some c →
      k + 1 < (CreateAccessToken lib s request).trace.length →
      match c with
      | .OrganizationById id => ∃ org, s.registry.OrganizationById id = .ok org
      | .VerifiedChain cert moment =>
        ∃ chains, s.crypto.TrustStore.VerifiedChain cert moment = .ok chains
      | .ValidateJwt a v => ∃ res, s.contractValidator.ValidateJwt a v = .ok res
      | .QueryConsent i sub sid m => ∃ legalBase, s.consent.QueryConsent i sub sid m = .ok legalBase
      | _ => True) := by
  have hstages := CreateAccessToken_stages lib s request
  refine ⟨fun a v hmem => ?_, fun i sub sid m hmem => ?_, fun tok key hmem => ?_,
    fun k c hk hlen => ?_⟩
  · rcases hstages with h | ⟨jwt, custPartyID, hp, h1, h | ⟨custodian, actorPartyID, h2, h3, h4,
      h | ⟨actor, h5, h | ⟨chains, h6, h7, h8, h9, h | ⟨res, h10, h11, ⟨h12, h⟩ | ⟨h12, h13, h⟩ |
        ⟨h12, h13, h14, h⟩⟩⟩⟩⟩⟩
    all_goals rw [h] at hmem
    all_goals simp at hmem
    all_goals obtain ⟨rfl, rfl⟩ := hmem
    all_goals exact ⟨jwt, custPartyID, custodian, actorPartyID, actor, chains, hp, h1, h2, h3, h4,
      h5, h6, h7, h8, h9, by rw [h]; rfl⟩
  · rcases hstages with h | ⟨jwt, custPartyID, hp, h1, h | ⟨custodian, actorPartyID, h2, h3, h4,
      h | ⟨actor, h5, h | ⟨chains, h6, h7, h8, h9, h | ⟨res, h10, h11, ⟨h12, h⟩ | ⟨h12, h13, h⟩ |
        ⟨h12, h13, h14, h⟩⟩⟩⟩⟩⟩
    all_goals rw [h] at hmem
    all_goals simp at hmem
    all_goals obtain ⟨rfl, rfl, rfl, rfl⟩ := hmem
    all_goals exact ⟨jwt, custPartyID, actorPartyID, res, hp, h10, h11, h12, by rw [h]; rfl⟩
  · rcases hstages with h | ⟨jwt, custPartyID, hp, h1, h | ⟨custodian, actorPartyID, h2, h3, h4,
      h | ⟨actor, h5, h | ⟨chains, h6, h7, h8, h9, h | ⟨res, h10, h11, ⟨h12, h⟩ | ⟨h12, h13, h⟩ |
        ⟨h12, h13, h14, h⟩⟩⟩⟩⟩⟩
    all_goals rw [h] at hmem
    all_goals simp at hmem
    · obtain ⟨rfl, rfl⟩ := hmem
      exact ⟨jwt, custPartyID, actorPartyID, res, hp, h10, h13, fun hne => absurd h12 hne,
        by rw [h]; simp [h12]⟩
    · obtain ⟨rfl, rfl⟩ := hmem
      exact ⟨jwt, custPartyID, actorPartyID, res, hp, h10, h13, fun _ => h14,
        by rw [h]; simp [h12]⟩
  · rcases hstages with h | ⟨jwt, custPartyID, hp, h1, h | ⟨custodian, actorPartyID, h2, h3, h4,
      h | ⟨actor, h5, h | ⟨chains, h6, h7, h8, h9, h | ⟨res, h10, h11, ⟨h12, h⟩ | ⟨h12, h13, h⟩ |
        ⟨h12, h13, ⟨legalBase, h14, h15⟩, h⟩⟩⟩⟩⟩⟩
    all_goals rw [h] at hk hlen
    · simp at hlen
    · simp at hlen
    · have hk0 : k = 0 := by
        simp at hlen
        omega
      subst hk0
      simp at hk
      subst hk
      exact ⟨_, h2⟩
    · rcases k with _ | _ | k
      · simp at hk; subst hk; exact ⟨_, h2⟩
      · simp at hk; subst hk; exact ⟨_, h5⟩
      · simp only [List.length_cons, List.length_nil] at hlen
        omega
    · rcases k with _ | _ | _ | k
      · simp at hk; subst hk; exact ⟨_, h2⟩
      · simp at hk; subst hk; exact ⟨_, h5⟩
      · simp at hk; subst hk; exact ⟨_, h6⟩
      · simp only [List.length_cons, List.length_nil] at hlen
        omega
    · rcases k with _ | _ | _ | _ | k
      · simp at hk; subst hk; exact ⟨_, h2⟩
      · simp at hk; subst hk; exact ⟨_, h5⟩
      · simp at hk; subst hk; exact ⟨_, h6⟩
      · simp at hk; subst hk; exact ⟨_, h10⟩
      · simp only [List.length_cons, List.length_nil] at hlen
        omega
    · rcases k with _ | _ | _ | _ | k
      · simp at hk; subst hk; exact ⟨_, h2⟩
      · simp at hk; subst hk; exact ⟨_, h5⟩
      · simp at hk; subst hk; exact ⟨_, h6⟩
      · simp at hk; subst hk; exact ⟨_, h10⟩
      · simp only [List.length_cons, List.length_nil] at hlen
        omega
    · rcases k with _ | _ | _ | _ | _ | k
      · simp at hk; subst hk; exact ⟨_, h2⟩
      · simp at hk; subst hk; exact ⟨_, h5⟩
      · simp at hk; subst hk; exact ⟨_, h6⟩
      · simp at hk; subst hk; exact ⟨_, h10⟩
      · simp at hk; subst hk; exact ⟨_, h14⟩
      · simp only [List.length_cons, List.length_nil] at hlen
        omega

/-! ## `Auth.Configure` runs once -/

theorem ContractClient_flags (lib : AuthLibraries) (auth : Auth) :
    (auth.ContractClient lib).1.configDone = auth.configDone ∧
    (auth.ContractClient lib).1.OAuth = auth.OAuth := by
  unfold Auth.ContractClient
  split
  · exact ⟨rfl, rfl⟩
  · split <;> exact ⟨rfl, rfl⟩

theorem OAuthClient_flags (lib : AuthLibraries) (auth : Auth) :
    (auth.OAuthClient lib).1.configDone = auth.configDone ∧
    (auth.OAuthClient lib).1.Contract = auth.Contract := by
  unfold Auth.OAuthClient
  split
  · exact ⟨rfl, rfl⟩
  · split <;> exact ⟨rfl, rfl⟩

/-- The server branch sets `configDone` only after both clients were configured
without error. -/
theorem configureServer_configDone (lib : AuthLibraries) (auth : Auth)
    (hdone : (auth.configureServer lib).1.configDone = true)
    (hfalse : auth.configDone = false) :
    (auth.configureServer lib).2.2 = .ok () ∧
    ∃ contract oauth,
      (auth.configureServer lib).1.Contract = some contract ∧ contract.Configure = none ∧
      (auth.configureServer lib).1.OAuth = some oauth ∧ oauth.Configure = none ∧
      AuthEvent.ContractConfigure contract ∈ (auth.configureServer lib).2.1 ∧
      AuthEvent.OAuthConfigure oauth ∈ (auth.configureServer lib).2.1 := by
  have hd1 := (ContractClient_flags lib auth).1
  have hd2 := OAuthClient_flags lib (auth.ContractClient lib).1
  unfold Auth.configureServer at hdone ⊢
  simp only at hdone ⊢
  cases hc : (auth.ContractClient lib).1.Contract with
  | none =>
    simp only [hc] at hdone
    rw [hd1, hfalse] at hdone
    cases hdone
  | some contract =>
    simp only [hc] at hdone
    cases hcc : contract.Configure with
    | some err =>
      simp only [hcc] at hdone
      rw [hd1, hfalse] at hdone
      cases hdone
    | none =>
      simp only [hcc] at hdone
      cases ho : ((auth.ContractClient lib).1.OAuthClient lib).1.OAuth with
      | none =>
        simp only [ho] at hdone
        rw [hd2.1, hd1, hfalse] at hdone
        cases hdone
      | some oauth =>
        simp only [ho] at hdone
        cases hoc : oauth.Configure with
        | some err =>
          simp only [hoc] at hdone
          rw [hd2.1, hd1, hfalse] at hdone
          cases hdone
        | none =>
          have hcontract : ((auth.ContractClient lib).1.OAuthClient lib).1.Contract =
              some contract := by
            rw [hd2.2, hc]
          refine ⟨by simp [hcc, ho, hoc], contract, oauth, by simp [hcc, ho, hoc, hcontract],
            hcc, by simp [hcc, ho, hoc], hoc, by simp [hcc, ho, hoc], by simp [hcc, ho, hoc]⟩

/-- C30: `Auth.Configure` initialises at most once per `Auth` value.  A call on a value
whose `Once` is done returns nil, changes no field and creates or configures no
client; after any call the `Once` is done, so every call after the first is such a
call, also when the first call returned the error of a client.  `configDone` becomes
true only if the mode is `server` and both clients were configured without error; with
any other mode no client is created or configured. -/
theorem Configure_once (lib : AuthLibraries) (auth : Auth) :
    (auth.configOnce = true → auth.Configure lib = (auth, [], .ok ())) ∧
    (auth.Configure lib).1.configOnce = true ∧
    (auth.Configure lib).1.Configure lib = ((auth.Configure lib).1, [], .ok ()) ∧
    (auth.configDone = false → (auth.Configure lib).1.configDone = true →
      auth.configOnce = false ∧
      lib.GetEngineMode auth.Config.Mode = "server" ∧
      (auth.Configure lib).2.2 = .ok () ∧
      ∃ contract oauth,
        (auth.Configure lib).1.Contract = some contract ∧ contract.Configure = none ∧
        (auth.Configure lib).1.OAuth = some oauth ∧ oauth.Configure = none ∧
        AuthEvent.ContractConfigure contract ∈ (auth.Configure lib).2.1 ∧
        AuthEvent.OAuthConfigure oauth ∈ (auth.Configure lib).2.1) ∧
    (lib.GetEngineMode auth.Config.Mode ≠ "server" →
      (auth.Configure lib).2.1 = [] ∧ (auth.Configure lib).2.2 = .ok () ∧
      (auth.Configure lib).1.Contract = auth.Contract ∧
      (auth.Configure lib).1.OAuth = auth.OAuth ∧
      (auth.Configure lib).1.configDone = auth.configDone) := by
  have hdone : ∀ a : Auth, a.configOnce = true → a.Configure lib = (a, [], .ok ()) := by
    intro a h
    simp [Auth.Configure, h]
  have honce : ∀ a : Auth, (a.Configure lib).1.configOnce = true := by
    intro a
    unfold Auth.Configure
    by_cases h : a.configOnce = true
    · simp [h]
    · simp [h]
  refine ⟨hdone auth, honce auth, hdone _ (honce auth), ?_, ?_⟩
  · intro hfalse
    unfold Auth.Configure
    by_cases h : auth.configOnce = true
    · simp [h, hfalse]
    · simp only [h, Bool.false_eq_true, if_false]
      by_cases hmode : lib.GetEngineMode auth.Config.Mode = core.ServerEngineMode
      swap
      · simp [hmode, hfalse]
      simp only [hmode, if_true]
      intro hcd
      obtain ⟨hres, contract, oauth, h1, h2, h3, h4, h5, h6⟩ :=
        configureServer_configDone lib _ hcd hfalse
      exact ⟨trivial, rfl, hres, contract, oauth, h1, h2, h3, h4, h5, h6⟩
  · intro hmode
    unfold Auth.Configure
    by_cases h : auth.configOnce = true
    · simp [h]
    · have hm : ¬ lib.GetEngineMode auth.Config.Mode = core.ServerEngineMode := hmode
      simp [h, hm]

/-- A first call that returns the error of the contract client, and the call after
it. -/
theorem Configure_once_after_error :
    ((sampleAuth "server").Configure (sampleAuthLibraries (some "irma config missing"))).2.2 =
      .error "irma config missing" ∧
    ((sampleAuth "server").Configure (sampleAuthLibraries (some "irma config missing"))).1.configDone =
      false ∧
    (((sampleAuth "server").Configure (sampleAuthLibraries (some "irma config missing"))).1.Configure
      (sampleAuthLibraries (some "irma config missing"))).2 = ([], .ok ()) ∧
    ((sampleAuth "client").Configure (sampleAuthLibraries none)).2 = ([], .ok ()) ∧
    ((sampleAuth "server").Configure (sampleAuthLibraries none)).1.configDone = true := by
  decide

/-! ## The disclosure that `StartSigningSession` asks for -/

theorem strings.Index_eq_zero (s : String) (sep : Char) :
    strings.Index s sep = 0 ↔ s.toList.head? = some sep := by
  unfold strings.Index
  cases hs : s.toList with
  | nil => simp
  | cons c cs =>
    by_cases hc : c = sep
    · subst hc
      simp
    · have hne : ¬ (c == sep) = true := by simpa using hc
      by_cases hm : sep ∈ cs
      · have hmem : sep ∈ c :: cs := List.mem_cons_of_mem _ hm
        simp only [hmem, if_true, List.head?_cons, Option.some.injEq, hc, iff_false]
        rw [List.indexOf_cons_ne _ hc]
        push_cast
        omega
      · have hmem : ¬ sep ∈ c :: cs := by
          simp [hm, Ne.symm hc]
        simp [hmem, hc]

theorem foldl_append_singleton {α β : Type} (f : α → β) (l : List α) :
    ∀ init : List β, l.foldl (fun acc a => acc ++ [f a]) init = init ++ l.map f := by
  induction l with
  | nil => intro init; simp
  | cons a l ih =>
    intro init
    rw [List.foldl_cons, ih]
    simp

theorem ParseContractString_Template {lib : ContractLibraries} {raw : String} {store : TemplateStore}
    {c : Contract} (h : ParseContractString lib raw store = .ok c) :
    ∃ T, store.FindFromRawContractText raw = .ok T ∧ c.Template = some T := by
  unfold ParseContractString at h
  cases hf : store.FindFromRawContractText raw with
  | error err => simp [hf] at h
  | ok T =>
    simp only [hf] at h
    have ht := initParams_Template lib { Template := some T, RawContractText := raw }
    split at h
    · cases h
    · cases h
    · rename_i c2 u heq
      simp only [Outcome.ok.injEq] at h
      subst h
      rw [heq] at ht
      exact ⟨T, rfl, ht⟩

/-- C22: for every contract text that `ParseContractString` parses to a contract whose
template has the signer attributes `a1 .. an`, and every scheme manager,
`StartSigningSession` starts exactly one session, with a signature request for the
text whose disclosure is one disjunction holding one conjunction of `n` attribute
requests in the order of the signer attributes; the `i`-th request is the scheme
manager followed by `ai` when `ai` starts with a dot, and `ai` otherwise. -/
theorem StartSigningSession_disclosure (lib : ContractLibraries) (store : TemplateStore)
    (v : IrmaService) (rawContractText : String) (c : Contract) (T : Template)
    (hparse : ParseContractString lib rawContractText store = .ok c)
    (hT : c.Template = some T) :
    (v.StartSigningSession lib store rawContractText).1 =
      [IrmaCall.StartSession
        { Message := rawContractText
          Disclose := [[T.SignerAttributes.map (fun a =>
            if a.toList.head? = some '.' then v.IrmaSchemeManager ++ a else a)]] }] ∧
    (T.SignerAttributes.map (fun a =>
      if a.toList.head? = some '.' then v.IrmaSchemeManager ++ a else a)).length =
      T.SignerAttributes.length ∧
    (if (".gemeente.personalData.firstnames".toList.head? = some '.') then
        "pbdf" ++ ".gemeente.personalData.firstnames"
      else ".gemeente.personalData.firstnames") = "pbdf.gemeente.personalData.firstnames" := by
  refine ⟨?_, by simp, by decide⟩
  unfold IrmaService.StartSigningSession
  simp only [hparse, hT]
  have hattrs : T.SignerAttributes.foldl
      (fun attributes att =>
        attributes ++ [irmago.NewAttributeRequest
          (if strings.Index att '.' = 0 then v.IrmaSchemeManager ++ att else att)]) [] =
      T.SignerAttributes.map (fun a =>
        if a.toList.head? = some '.' then v.IrmaSchemeManager ++ a else a) := by
    rw [foldl_append_singleton (fun att => irmago.NewAttributeRequest
      (if strings.Index att '.' = 0 then v.IrmaSchemeManager ++ att else att))]
    simp only [List.nil_append, irmago.NewAttributeRequest, strings.Index_eq_zero]
  simp only [hattrs, irmago.NewSignatureRequest]
  split <;> rfl

/-- C22, at the sample contract text, whose template has the standard signer
attributes, with the scheme manager `pbdf`. -/
theorem StartSigningSession_disclosure_witness :
    (sampleIrmaService.StartSigningSession (sampleContractLibraries sampleValidFrom) sampleStore
      sampleContract.RawContractText).1 =
      [IrmaCall.StartSession
        { Message := sampleContract.RawContractText,
          Disclose := [[["pbdf.gemeente.personalData.firstnames", "pbdf.sidn-pbdf.email.email"]]] }] :=
  (StartSigningSession_disclosure (sampleContractLibraries sampleValidFrom) sampleStore
    sampleIrmaService sampleContract.RawContractText sampleContract sampleTemplate rfl rfl).1

/-! ## Reading the status of a signing session -/

/-- An error of `ParseContractString` is the error of the template store or an error
made by `fmt.Errorf` with `%w`. -/
theorem ParseContractString_error {lib : ContractLibraries} {raw : String} {store : TemplateStore}
    {err : GoError} (h : ParseContractString lib raw store = .error err) :
    store.FindFromRawContractText raw = .error err ∨ ∃ msg inner, err = .wrap msg inner := by
  unfold ParseContractString at h
  cases hf : store.FindFromRawContractText raw with
  | error e =>
    simp only [hf, Outcome.error.injEq] at h
    subst h
    exact Or.inl rfl
  | ok T =>
    simp only [hf] at h
    right
    cases hc : lib.regexpCompile T.Regexp with
    | none => simp [Contract.initParams, hc] at h
    | some FindSubmatch =>
      rcases initParams_cases lib { Template := some T, RawContractText := raw } T
        FindSubmatch rfl hc with ⟨-, hi⟩ | ⟨whole, groups, -, -, hi⟩ | ⟨whole, groups, -, -, hi⟩
      · simp only [hi, Outcome.error.injEq] at h
        exact ⟨_, _, h.symm⟩
      · simp only [hi, Outcome.error.injEq] at h
        exact ⟨_, _, h.symm⟩
      · simp [hi] at h

theorem legalEntityFromContract_calls (v : IrmaValidator) (sic : methods.SignedIrmaContract) :
    ∀ c ∈ (v.legalEntityFromContract sic).1, ∃ name, c = IrmaCall.ReverseLookup name := by
  unfold IrmaValidator.legalEntityFromContract
  intro c hc
  split at hc
  · simp at hc
  · split at hc
    · simp at hc
    · split at hc
      · simp at hc
      · split at hc
        · simp at hc
          exact ⟨_, hc⟩
        · simp at hc
          exact ⟨_, hc⟩

theorem CreateIdentityTokenFromIrmaContract_calls (v : IrmaValidator)
    (contract : methods.SignedIrmaContract) (legalEntity : PartyID) :
    ∀ c ∈ (v.CreateIdentityTokenFromIrmaContract contract legalEntity).1,
      ∃ claims key, c = IrmaCall.SignJWT claims key := by
  unfold IrmaValidator.CreateIdentityTokenFromIrmaContract
  intro c hc
  split at hc
  · simp at hc
  · simp only [convertPayloadToClaims] at hc
    split at hc
    · simp at hc
      exact ⟨_, _, hc⟩
    · simp at hc
      exact ⟨_, _, hc⟩

theorem CreateIdentityTokenFromIrmaContract_error (v : IrmaValidator)
    (contract : methods.SignedIrmaContract) (legalEntity : PartyID) (err : GoError)
    (h : (v.CreateIdentityTokenFromIrmaContract contract legalEntity).2 = .error err) :
    v.jsonMarshal contract.IrmaContract = .error err ∨ ∃ msg inner, err = .wrap msg inner := by
  unfold IrmaValidator.CreateIdentityTokenFromIrmaContract at h
  cases hm : v.jsonMarshal contract.IrmaContract with
  | error e =>
    simp only [hm, Outcome.error.injEq] at h
    subst h
    exact Or.inl rfl
  | ok signature =>
    simp only [hm, convertPayloadToClaims] at h
    split at h
    · simp only [Outcome.error.injEq] at h
      exact Or.inr ⟨_, _, h.symm⟩
    · cases h

/-- C21: when the template store, the issuing of the identity token and the
serialisation never answer with the value `ErrSessionNotFound` itself, each of
`SigningSessionStatus` and the older `SessionStatus` returns `ErrSessionNotFound`, with
no result, if and only if `GetSessionResult` returns nil for the session.  A status
read asks the session handler once, with `GetSessionResult`, and never starts or
changes a session; the older function calls, besides, only the registry and the
signer. -/
theorem SessionStatus_not_found (lib : ContractLibraries) (v : IrmaService) (w : IrmaValidator)
    (sessionID : String)
    (hstore : ∀ text,
      v.ContractTemplates.FindFromRawContractText text ≠ .error services.ErrSessionNotFound)
    (htoken : ∀ sic le,
      v.CreateIdentityTokenFromIrmaContract sic le ≠ .error services.ErrSessionNotFound)
    (hfound : ∀ text,
      (w.NewContractFromMessageContents text).2 ≠ some services.ErrSessionNotFound)
    (hmarshal : ∀ message, w.jsonMarshal message ≠ .error services.ErrSessionNotFound) :
    ((v.SigningSessionStatus lib sessionID).2 = .error services.ErrSessionNotFound ↔
      v.GetSessionResult sessionID = none) ∧
    (v.SigningSessionStatus lib sessionID).1 = [IrmaCall.GetSessionResult sessionID] ∧
    ((w.SessionStatus sessionID).2 = .error services.ErrSessionNotFound ↔
      w.GetSessionResult sessionID = none) ∧
    (∃ rest, (w.SessionStatus sessionID).1 = IrmaCall.GetSessionResult sessionID :: rest ∧
      ∀ c ∈ rest, (∃ name, c = IrmaCall.ReverseLookup name) ∨
        ∃ claims key, c = IrmaCall.SignJWT claims key) := by
  have hwrap : ∀ msg inner, GoError.wrap msg inner ≠ services.ErrSessionNotFound := by
    intro msg inner h
    cases h
  refine ⟨?_, ?_, ?_, ?_⟩
  · unfold IrmaService.SigningSessionStatus
    cases hg : v.GetSessionResult sessionID with
    | none => simp
    | some result =>
      simp only [reduceCtorEq, iff_false]
      cases hs : result.Signature with
      | none => simp
      | some signature =>
        simp only
        cases hp : ParseContractString lib signature.Message v.ContractTemplates with
        | fault => simp
        | error err =>
          simp only [Outcome.error.injEq]
          intro he
          subst he
          rcases ParseContractString_error hp with h | ⟨msg, inner, h⟩
          · exact hstore _ h
          · exact hwrap _ _ h.symm
        | ok c =>
          simp only
          cases hl : v.legalEntityFromContract { IrmaContract := signature, Contract := some c } with
          | error err =>
            simp only [Outcome.error.injEq]
            exact hwrap _ _
          | ok le =>
            simp only
            cases ht : v.CreateIdentityTokenFromIrmaContract
                { IrmaContract := signature, Contract := some c } le with
            | error err =>
              simp only [Outcome.error.injEq]
              intro he
              subst he
              exact htoken _ _ ht
            | ok token => simp
  · unfold IrmaService.SigningSessionStatus
    dsimp only
    repeat' split
    all_goals rfl
  · unfold IrmaValidator.SessionStatus
    cases hg : w.GetSessionResult sessionID with
    | none => simp
    | some result =>
      simp only [reduceCtorEq, iff_false]
      cases hs : result.Signature with
      | none => simp
      | some signature =>
        simp only
        cases hf : (w.NewContractFromMessageContents signature.Message).2 with
        | some err =>
          simp only [Outcome.error.injEq]
          intro he
          subst he
          exact hfound _ hf
        | none =>
          simp only
          rcases hl : w.legalEntityFromContract
              { IrmaContract := signature,
                ContractTemplate := (w.NewContractFromMessageContents signature.Message).1 } with
            ⟨calls, r⟩
          cases r with
          | fault => simp
          | error err =>
            simp only [Outcome.error.injEq]
            exact hwrap _ _
          | ok le =>
            simp only
            rcases ht : w.CreateIdentityTokenFromIrmaContract
                { IrmaContract := signature,
                  ContractTemplate := (w.NewContractFromMessageContents signature.Message).1 } le with
              ⟨calls2, r2⟩
            cases r2 with
            | fault => simp
            | ok token => simp
            | error err =>
              simp only [Outcome.error.injEq]
              intro he
              subst he
              have h2 : (w.CreateIdentityTokenFromIrmaContract
                  { IrmaContract := signature,
                    ContractTemplate := (w.NewContractFromMessageContents signature.Message).1 }
                  le).2 = .error services.ErrSessionNotFound := by
                rw [ht]
              rcases CreateIdentityTokenFromIrmaContract_error w _ _ _ h2 with h | ⟨msg, inner, h⟩
              · exact hmarshal _ h
              · exact hwrap _ _ h.symm
  · unfold IrmaValidator.SessionStatus
    cases hg : w.GetSessionResult sessionID with
    | none => exact ⟨[], rfl, by simp⟩
    | some result =>
      simp only
      cases hs : result.Signature with
      | none => exact ⟨[], rfl, by simp⟩
      | some signature =>
        simp only
        cases hf : (w.NewContractFromMessageContents signature.Message).2 with
        | some err => exact ⟨[], rfl, by simp⟩
        | none =>
          simp only
          have hc1 := legalEntityFromContract_calls w
            { IrmaContract := signature,
              ContractTemplate := (w.NewContractFromMessageContents signature.Message).1 }
          rcases hl : w.legalEntityFromContract
              { IrmaContract := signature,
                ContractTemplate := (w.NewContractFromMessageContents signature.Message).1 } with
            ⟨calls, r⟩
          rw [hl] at hc1
          cases r with
          | fault => exact ⟨calls, rfl, fun c hc => Or.inl (hc1 c hc)⟩
          | error err => exact ⟨calls, rfl, fun c hc => Or.inl (hc1 c hc)⟩
          | ok le =>
            simp only
            have hc2 := CreateIdentityTokenFromIrmaContract_calls w
              { IrmaContract := signature,
                ContractTemplate := (w.NewContractFromMessageContents signature.Message).1 } le
            rcases ht : w.CreateIdentityTokenFromIrmaContract
                { IrmaContract := signature,
                  ContractTemplate := (w.NewContractFromMessageContents signature.Message).1 } le with
              ⟨calls2, r2⟩
            rw [ht] at hc2
            have hall : ∀ c ∈ calls ++ calls2, (∃ name, c = IrmaCall.ReverseLookup name) ∨
                ∃ claims key, c = IrmaCall.SignJWT claims key := by
              intro c hc
              rcases List.mem_append.mp hc with h | h
              · exact Or.inl (hc1 c h)
              · exact Or.inr (hc2 c h)
            cases r2 with
            | fault => exact ⟨calls ++ calls2, rfl, hall⟩
            | error err => exact ⟨calls ++ calls2, rfl, hall⟩
            | ok token => exact ⟨calls ++ calls2, rfl, hall⟩

/-- The statement of `SessionStatus_not_found` on the sample service and the sample
validator, for a session that the handler does not know. -/
theorem SessionStatus_not_found_witness :
    ((sampleIrmaService.SigningSessionStatus (sampleContractLibraries sampleValidFrom) "unknown").2
        = .error services.ErrSessionNotFound ↔
      sampleIrmaService.GetSessionResult "unknown" = none) ∧
    (sampleIrmaService.SigningSessionStatus (sampleContractLibraries sampleValidFrom) "unknown").1
      = [IrmaCall.GetSessionResult "unknown"] ∧
    ((sampleIrmaValidator.SessionStatus "unknown").2 = .error services.ErrSessionNotFound ↔
      sampleIrmaValidator.GetSessionResult "unknown" = none) ∧
    (∃ rest, (sampleIrmaValidator.SessionStatus "unknown").1
        = IrmaCall.GetSessionResult "unknown" :: rest ∧
      ∀ c ∈ rest, (∃ name, c = IrmaCall.ReverseLookup name) ∨
        ∃ claims key, c = IrmaCall.SignJWT claims key) :=
  SessionStatus_not_found (sampleContractLibraries sampleValidFrom) sampleIrmaService
    sampleIrmaValidator "unknown"
    (by
      intro text h
      simp only [sampleIrmaService, sampleStore] at h
      split at h
      · cases h
      · exact absurd (Except.error.inj h) (by decide))
    (by
      intro sic le h
      cases h)
    (by
      intro text h
      cases h)
    (by
      intro message h
      cases h)

/-- C23, as the claim states it, does not hold: the sample validator returns an identity
token for the sample signed contract, and the claims it handed to the signer hold `iss`,
`type` and `sig` only, with no `iat` and no `exp`. -/
theorem CreateIdentityTokenFromIrmaContract_without_iat_exp :
    (sampleIrmaValidator.CreateIdentityTokenFromIrmaContract
        { IrmaContract := sampleSignedMessage, ContractTemplate := some ⟨"Test", "NL", "v1"⟩ }
        ⟨"urn:oid:2.16.840.1.113883.2.4.6.1:custodian"⟩).2 = .ok "identity-token" ∧
    ∃ claims,
      (sampleIrmaValidator.CreateIdentityTokenFromIrmaContract
        { IrmaContract := sampleSignedMessage, ContractTemplate := some ⟨"Test", "NL", "v1"⟩ }
        ⟨"urn:oid:2.16.840.1.113883.2.4.6.1:custodian"⟩).1
        = [IrmaCall.SignJWT claims
            { Owner := "urn:oid:2.16.840.1.113883.2.4.6.1:custodian", Qualifier := "" }] ∧
      claims.map (fun entry => entry.1) = ["iss", "type", "sig"] ∧
      (claims.lookup "iat").isNone = true ∧ (claims.lookup "exp").isNone = true :=
  ⟨rfl, _, rfl, rfl, rfl, rfl⟩

/-- C23, amended: whenever `CreateIdentityTokenFromIrmaContract` returns a token, the
serialisation of the signed contract succeeded, the signer was called once, with the
key of the legal entity, and returned that token, and the claims it was given are `iss`
(the legal entity, left out when empty), `type` (the format `irma`) and `sig` (the base64
text of the serialised signed contract); they hold no `iat` and no `exp`. -/
theorem CreateIdentityTokenFromIrmaContract_claims (v : IrmaValidator)
    (contract : methods.SignedIrmaContract) (legalEntity : PartyID) (token : String)
    (h : (v.CreateIdentityTokenFromIrmaContract contract legalEntity).2 = .ok token) :
    ∃ signature claims,
      v.jsonMarshal contract.IrmaContract = .ok signature ∧
      claims = (if legalEntity.String = "" then []
          else [("iss", JsonValue.string legalEntity.String)]) ++
        [("type", JsonValue.string types.IrmaFormat),
         ("sig", JsonValue.string (v.EncodeToString signature))] ∧
      (v.CreateIdentityTokenFromIrmaContract contract legalEntity).1
        = [IrmaCall.SignJWT claims (KeyForEntity legalEntity.String)] ∧
      v.SignJWT claims (KeyForEntity legalEntity.String) = .ok token ∧
      claims.lookup "iat" = none ∧ claims.lookup "exp" = none := by
  unfold IrmaValidator.CreateIdentityTokenFromIrmaContract at h ⊢
  cases hm : v.jsonMarshal contract.IrmaContract with
  | error e => simp [hm] at h
  | ok signature =>
    simp only [hm, convertPayloadToClaims] at h ⊢
    have hclaims : NutsIdentityToken.toMap
        { Issuer := legalEntity.String, Signature := v.EncodeToString signature,
          Type_ := types.IrmaFormat } =
        (if legalEntity.String = "" then []
          else [("iss", JsonValue.string legalEntity.String)]) ++
        [("type", JsonValue.string types.IrmaFormat),
         ("sig", JsonValue.string (v.EncodeToString signature))] := by
      simp [NutsIdentityToken.toMap]
    rw [hclaims] at h ⊢
    refine ⟨signature, _, rfl, rfl, ?_⟩
    cases hs : v.SignJWT
        ((if legalEntity.String = "" then []
          else [("iss", JsonValue.string legalEntity.String)]) ++
        [("type", JsonValue.string types.IrmaFormat),
         ("sig", JsonValue.string (v.EncodeToString signature))])
        (KeyForEntity legalEntity.String) with
    | error e => simp [hs] at h
    | ok tokenString =>
      simp only [hs, Outcome.ok.injEq] at h
      subst h
      refine ⟨rfl, rfl, ?_, ?_⟩
      · split <;> simp [List.lookup]
      · split <;> simp [List.lookup]

/-- The statement of `CreateIdentityTokenFromIrmaContract_claims` on the sample
validator and the sample signed contract. -/
theorem CreateIdentityTokenFromIrmaContract_claims_witness :
    ∃ signature claims,
      sampleIrmaValidator.jsonMarshal sampleSignedMessage = .ok signature ∧
      claims = (if (PartyID.mk "urn:oid:2.16.840.1.113883.2.4.6.1:custodian").String = "" then []
          else [("iss", JsonValue.string
            (PartyID.mk "urn:oid:2.16.840.1.113883.2.4.6.1:custodian").String)]) ++
        [("type", JsonValue.string types.IrmaFormat),
         ("sig", JsonValue.string (sampleIrmaValidator.EncodeToString signature))] ∧
      (sampleIrmaValidator.CreateIdentityTokenFromIrmaContract
        { IrmaContract := sampleSignedMessage, ContractTemplate := some ⟨"Test", "NL", "v1"⟩ }
        ⟨"urn:oid:2.16.840.1.113883.2.4.6.1:custodian"⟩).1
        = [IrmaCall.SignJWT claims
            (KeyForEntity (PartyID.mk "urn:oid:2.16.840.1.113883.2.4.6.1:custodian").String)] ∧
      sampleIrmaValidator.SignJWT claims
        (KeyForEntity (PartyID.mk "urn:oid:2.16.840.1.113883.2.4.6.1:custodian").String)
        = .ok "identity-token" ∧
      claims.lookup "iat" = none ∧ claims.lookup "exp" = none :=
  CreateIdentityTokenFromIrmaContract_claims sampleIrmaValidator
    { IrmaContract := sampleSignedMessage, ContractTemplate := some ⟨"Test", "NL", "v1"⟩ }
    ⟨"urn:oid:2.16.840.1.113883.2.4.6.1:custodian"⟩ "identity-token" rfl

end NutsAuth
